import Mathlib

/-!
# GNSS / accelerometer fusion (FUSION_DLL): Kalman estimator and drivers

Shallow embedding of `src/kalman_filter.cpp`, `src/data_structures.h` and the two
drivers of `src/fusion_dll.cpp`.

A C++ `double` is modelled under exact arithmetic by `Dbl`: a finite value is a
rational number and the three non-finite values of the type (`+inf`, `-inf`, NaN) are
kept, with the IEEE-754 rules for them, so that `std::isfinite`, `std::isnan` and a
division by zero mean what they mean in the program.  The one thing left out is the
sign of zero: a zero divisor is taken as `+0`.
-/

set_option linter.dupNamespace false
set_option autoImplicit false

namespace fusion

/-! ## Doubles under exact arithmetic -/

/-- Value of a `double`: an exact rational, plus or minus infinity, or NaN. -/
inductive Dbl where
  | fin (q : ℚ)
  | pinf
  | ninf
  | nan
deriving DecidableEq

namespace Dbl

/-- Infinity carrying the sign of `s`; NaN when `s` is zero (`0 * inf`, `0 / 0`). -/
def infOfSign (s : ℚ) : Dbl :=
  if 0 < s then pinf else if s < 0 then ninf else nan

/-- Unary minus. -/
def neg : Dbl → Dbl
  | fin a => fin (-a)
  | pinf => ninf
  | ninf => pinf
  | nan => nan

/-- Addition: exact on finite values, `inf + (-inf)` is NaN. -/
def add : Dbl → Dbl → Dbl
  | fin a, fin b => fin (a + b)
  | fin _, pinf => pinf
  | fin _, ninf => ninf
  | pinf, fin _ => pinf
  | pinf, pinf => pinf
  | ninf, fin _ => ninf
  | ninf, ninf => ninf
  | _, _ => nan

/-- Subtraction, `a - b = a + (-b)`. -/
def sub (a b : Dbl) : Dbl := add a (neg b)

/-- Multiplication: exact on finite values, `0 * inf` is NaN. -/
def mul : Dbl → Dbl → Dbl
  | fin a, fin b => fin (a * b)
  | fin a, pinf => infOfSign a
  | fin a, ninf => infOfSign (-a)
  | pinf, fin b => infOfSign b
  | ninf, fin b => infOfSign (-b)
  | pinf, pinf => pinf
  | pinf, ninf => ninf
  | ninf, pinf => ninf
  | ninf, ninf => pinf
  | _, _ => nan

/-- Division: exact on finite values with a non-zero divisor; `x / 0` is an infinity of
the sign of `x` and `0 / 0` is NaN; `x / inf` is `0`; `inf / inf` is NaN. -/
def div : Dbl → Dbl → Dbl
  | fin a, fin b => if b = 0 then infOfSign a else fin (a / b)
  | fin _, pinf => fin 0
  | fin _, ninf => fin 0
  | pinf, fin b => if b < 0 then ninf else pinf
  | ninf, fin b => if b < 0 then pinf else ninf
  | _, _ => nan

instance : Neg Dbl := ⟨neg⟩
instance : Add Dbl := ⟨add⟩
instance : Sub Dbl := ⟨sub⟩
instance : Mul Dbl := ⟨mul⟩
instance : Div Dbl := ⟨div⟩

/-- The predicate `std::isnan`. -/
def isnan : Dbl → Bool
  | nan => true
  | _ => false

/-- The predicate `std::isfinite`. -/
def isfinite : Dbl → Bool
  | fin _ => true
  | _ => false

/-- The comparison `a <= b` of doubles: false as soon as one side is NaN. -/
def le : Dbl → Dbl → Prop
  | nan, _ => False
  | _, nan => False
  | ninf, _ => True
  | _, pinf => True
  | fin a, fin b => a ≤ b
  | _, _ => False

/-- The comparison `a == b` of doubles: false as soon as one side is NaN. -/
def eq (a b : Dbl) : Prop := a ≠ nan ∧ a = b

instance : LE Dbl := ⟨le⟩

instance (a b : Dbl) : Decidable (le a b) := by
  cases a <;> cases b <;> simp only [le] <;> infer_instance

instance (a b : Dbl) : Decidable (a ≤ b) := inferInstanceAs (Decidable (le a b))

instance (a b : Dbl) : Decidable (eq a b) := inferInstanceAs (Decidable (_ ∧ _))

end Dbl

/-! ## `std::fabs` -/

/-- The function `std::fabs` on doubles. -/
def Dbl.abs : Dbl → Dbl
  | Dbl.fin a => Dbl.fin |a|
  | Dbl.pinf => Dbl.pinf
  | Dbl.ninf => Dbl.pinf
  | Dbl.nan => Dbl.nan

/-! ## Data structures (`data_structures.h`) -/

/-- One parsed input line: DateTime, GPS_Y, GPS_Z, Acc_Y, Acc_Z, Fix. -/
structure InputData where
  datetime : String
  gps_y : Dbl
  gps_z : Dbl
  acc_y : Dbl
  acc_z : Dbl
  fix : Int

/-- State vector of the filter: position and velocity. -/
structure KalmanState where
  position : Dbl
  velocity : Dbl
deriving DecidableEq

/-- The 2x2 covariance matrix of the filter. -/
structure KalmanCovariance where
  p00 : Dbl
  p01 : Dbl
  p10 : Dbl
  p11 : Dbl
deriving DecidableEq

/-- One output line: DateTime, Displacement_Y, Displacement_Z. -/
structure OutputData where
  datetime : String
  displacement_y : Dbl
  displacement_z : Dbl
deriving DecidableEq

/-- Parameters of the filter: process noise, measurement noise, time step. -/
structure KalmanParams where
  Q : Dbl
  R : Dbl
  dt : Dbl
deriving DecidableEq

/-- The constructor `KalmanParams(double q, double r)`: `dt` is always `0.01`. -/
def KalmanParams.KalmanParams (q r : Dbl) : KalmanParams :=
  { Q := q, R := r, dt := Dbl.fin 0.01 }

/-! ## The estimator (`kalman_filter.cpp`) -/

/-- The object state of a `KalmanFilter`. -/
structure KalmanFilter where
  params_ : KalmanParams
  state_ : KalmanState
  covariance_ : KalmanCovariance
deriving DecidableEq

/-- The method `KalmanFilter::reset`. -/
def KalmanFilter.reset (self : KalmanFilter) (initial_position : Dbl) : KalmanFilter :=
  { self with
    state_ := { position := initial_position, velocity := Dbl.fin 0.0 }
    covariance_ := { p00 := Dbl.fin 1.0, p01 := Dbl.fin 0.0, p10 := Dbl.fin 0.0, p11 := Dbl.fin 1.0 } }

/-- The method `KalmanFilter::predict`. -/
def KalmanFilter.predict (self : KalmanFilter) (acc_input : Dbl) : KalmanFilter :=
  let dt := self.params_.dt
  let new_position :=
    self.state_.position + dt * self.state_.velocity + Dbl.fin 0.5 * dt * dt * acc_input
  let new_velocity := self.state_.velocity + dt * acc_input
  let p00_new := self.covariance_.p00 + dt * (self.covariance_.p01 + self.covariance_.p10)
    + dt * dt * self.covariance_.p11 + self.params_.Q
  let p01_new := self.covariance_.p01 + dt * self.covariance_.p11
  let p10_new := self.covariance_.p10 + dt * self.covariance_.p11
  let p11_new := self.covariance_.p11 + self.params_.Q
  { self with
    state_ := { position := new_position, velocity := new_velocity }
    covariance_ := { p00 := p00_new, p01 := p01_new, p10 := p10_new, p11 := p11_new } }

/-- The method `KalmanFilter::update`. -/
def KalmanFilter.update (self : KalmanFilter) (gps_measurement : Dbl) : KalmanFilter :=
  let y := gps_measurement - self.state_.position
  let S := self.covariance_.p00 + self.params_.R
  let K0 := self.covariance_.p00 / S
  let K1 := self.covariance_.p10 / S
  let position := self.state_.position + K0 * y
  let velocity := self.state_.velocity + K1 * y
  let I_minus_KH_00 := Dbl.fin 1.0 - K0
  let I_minus_KH_01 := Dbl.fin 0.0
  let I_minus_KH_10 := -K1
  let I_minus_KH_11 := Dbl.fin 1.0
  let p00_new := I_minus_KH_00 * self.covariance_.p00 + I_minus_KH_01 * self.covariance_.p10
  let p01_new := I_minus_KH_00 * self.covariance_.p01 + I_minus_KH_01 * self.covariance_.p11
  let p10_new := I_minus_KH_10 * self.covariance_.p00 + I_minus_KH_11 * self.covariance_.p10
  let p11_new := I_minus_KH_10 * self.covariance_.p01 + I_minus_KH_11 * self.covariance_.p11
  { self with
    state_ := { position := position, velocity := velocity }
    covariance_ := { p00 := p00_new, p01 := p01_new, p10 := p10_new, p11 := p11_new } }

/-- The test `fix_data[i] >= 1 && !std::isnan(gps_data[i]) && std::isfinite(gps_data[i])`
that decides whether a row is used for a correction. -/
def validFix (fix : Int) (gps : Dbl) : Bool :=
  decide (fix ≥ 1) && !gps.isnan && gps.isfinite

/-- The initialisation scan `for (i = 0; i < n; i++) if (valid) { init = gps[i]; break; }`,
run from index `i` for at most `fuel` indices; `init` is the value kept when no index
qualifies. -/
def initScan (gps_data : List Dbl) (fix_data : List Int) : Nat → Nat → Dbl → Dbl
  | _, 0, initial_position => initial_position
  | i, fuel + 1, initial_position =>
    if validFix (fix_data.getD i 0) (gps_data.getD i Dbl.nan) then gps_data.getD i Dbl.nan
    else initScan gps_data fix_data (i + 1) fuel initial_position

/-- Body of the loop of `process` and `processBatch` at index `i`: predict with
`acc_data[i]`, then update with `gps_data[i]` when the row is valid. -/
def KalmanFilter.stepRow (self : KalmanFilter) (gps_data acc_data : List Dbl)
    (fix_data : List Int) (i : Nat) : KalmanFilter :=
  let kf := self.predict (acc_data.getD i Dbl.nan)
  if validFix (fix_data.getD i 0) (gps_data.getD i Dbl.nan) then
    kf.update (gps_data.getD i Dbl.nan)
  else kf

/-- The loop `for (i = i0; ...; i++) { predict; update if valid; displacement[i] = position }`
of `process` and `processBatch`, run from index `i` for `count` iterations on the pair
(object state, displacement vector). -/
def KalmanFilter.processLoop (gps_data acc_data : List Dbl) (fix_data : List Int) :
    Nat → Nat → KalmanFilter × List Dbl → KalmanFilter × List Dbl
  | _, 0, s => s
  | i, count + 1, (kf, displacement) =>
    let kf2 := kf.stepRow gps_data acc_data fix_data i
    KalmanFilter.processLoop gps_data acc_data fix_data (i + 1) count
      (kf2, displacement.set i kf2.state_.position)

/-- The method `KalmanFilter::process`: returns the displacement vector and the object
state it leaves. -/
def KalmanFilter.process (self : KalmanFilter) (gps_data acc_data : List Dbl)
    (fix_data : List Int) : List Dbl × KalmanFilter :=
  let n := gps_data.length
  if n ≠ acc_data.length ∨ n ≠ fix_data.length then ([], self)
  else if n = 0 then ([], self)
  else
    let initial_position := initScan gps_data fix_data 0 n (gps_data.getD 0 Dbl.nan)
    let kf := self.reset initial_position
    let displacement := (List.replicate n (Dbl.fin 0)).set 0 kf.state_.position
    let r := KalmanFilter.processLoop gps_data acc_data fix_data 1 (n - 1) (kf, displacement)
    (r.2, r.1)

/-- The method `KalmanFilter::processBatch`: returns the displacement vector and the
object state it leaves. -/
def KalmanFilter.processBatch (self : KalmanFilter) (gps_data acc_data : List Dbl)
    (fix_data : List Int) : List Dbl × KalmanFilter :=
  let n := gps_data.length
  if n ≠ acc_data.length ∨ n ≠ fix_data.length then ([], self)
  else if n = 0 then ([], self)
  else
    let displacement := (List.replicate n (Dbl.fin 0)).set 0 self.state_.position
    let r := KalmanFilter.processLoop gps_data acc_data fix_data 1 (n - 1) (self, displacement)
    (r.2, r.1)

/-- Object state once the loop of `process` / `processBatch`, entered in state `kf`, has
handled the rows `1..i` (`i = 0`: the state the loop is entered with). -/
def KalmanFilter.stateAfterRow (kf : KalmanFilter) (gps_data acc_data : List Dbl)
    (fix_data : List Int) (i : Nat) : KalmanFilter :=
  (KalmanFilter.processLoop gps_data acc_data fix_data 1 i
    (kf, (List.replicate gps_data.length (Dbl.fin 0)).set 0 kf.state_.position)).1

/-- The constructor `KalmanFilter::KalmanFilter`. -/
def KalmanFilter.KalmanFilter (params : KalmanParams) : KalmanFilter :=
  { params_ := params
    state_ := { position := Dbl.fin 0.0, velocity := Dbl.fin 0.0 }
    covariance_ := { p00 := Dbl.fin 1.0, p01 := Dbl.fin 0.0, p10 := Dbl.fin 0.0, p11 := Dbl.fin 1.0 } }

/-! ## The drivers (`fusion_dll.cpp`)

The file system is outside the model.  A driver takes what `parse_csv` produced for the
input path (`none` when it returned `false`) and, for every `save_csv` call, whether the
destination could be opened; it returns its code together with what it wrote. -/

/-- Error code `FUSION_SUCCESS` of `fusion_api.h`. -/
def FUSION_SUCCESS : Int := 0
/-- Error code `FUSION_ERROR_FILE_NOT_FOUND`. -/
def FUSION_ERROR_FILE_NOT_FOUND : Int := -1
/-- Error code `FUSION_ERROR_INVALID_DATA`. -/
def FUSION_ERROR_INVALID_DATA : Int := -2
/-- Error code `FUSION_ERROR_INSUFFICIENT_DATA`. -/
def FUSION_ERROR_INSUFFICIENT_DATA : Int := -3
/-- Error code `FUSION_ERROR_MEMORY`. -/
def FUSION_ERROR_MEMORY : Int := -4
/-- Error code `FUSION_ERROR_UNKNOWN`. -/
def FUSION_ERROR_UNKNOWN : Int := -99

/-- Number of values of the type `size_t` (64 bits). -/
def SIZE_T_MOD : Nat := 2 ^ 64

/-- The function `save_csv`: when the destination opens (`can_open`) the rows are written
and the result is `true`; otherwise nothing is written and the result is `false`. -/
def save_csv (can_open : Bool) (data : List OutputData) : Bool × Option (List OutputData) :=
  if can_open then (true, some data) else (false, none)

/-- One `save_csv` call for an intermediate chunk file: the number in the file name
(`batch_idx + 1`), the rows handed to it and whether it succeeded. -/
structure IntermediateSave where
  batch_number : Nat
  rows : List OutputData
  saved : Bool
deriving DecidableEq

/-- What a driver call leaves behind: the returned code, the rows written to the output
file (`none`: the file was not written), the intermediate `save_csv` calls in order, and
the two estimators as they stand at the return (`none`: never constructed). -/
structure FusionResult where
  code : Int
  output_file : Option (List OutputData)
  intermediate : List IntermediateSave
  filter_y : Option KalmanFilter
  filter_z : Option KalmanFilter
deriving DecidableEq

/-- Rows `{datetime[i], displacement_y[i], displacement_z[i]}` for `i < n`, as built by the
output loops of both drivers. -/
def makeOutput (n : Nat) (datetime : List String) (displacement_y displacement_z : List Dbl) :
    List OutputData :=
  (List.range n).map fun i =>
    { datetime := datetime.getD i ""
      displacement_y := displacement_y.getD i Dbl.nan
      displacement_z := displacement_z.getD i Dbl.nan }

/-- The function `process_fusion_internal` (single-pass run). -/
def process_fusion_internal (parsed : Option (List InputData)) (save_ok : Bool) (Q R : Dbl) :
    FusionResult :=
  let MIN_ROWS : Nat := 20
  match parsed with
  | none =>
    { code := FUSION_ERROR_FILE_NOT_FOUND, output_file := none, intermediate := [],
      filter_y := none, filter_z := none }
  | some input_data =>
    if input_data.length < MIN_ROWS then
      { code := FUSION_ERROR_INSUFFICIENT_DATA, output_file := none, intermediate := [],
        filter_y := none, filter_z := none }
    else
      let datetime_data := input_data.map (fun row => row.datetime)
      let gps_y_data := input_data.map (fun row => row.gps_y)
      let gps_z_data := input_data.map (fun row => row.gps_z)
      let acc_y_data := input_data.map (fun row => row.acc_y)
      let acc_z_data := input_data.map (fun row => row.acc_z)
      let fix_data := input_data.map (fun row => row.fix)
      let params := KalmanParams.KalmanParams Q R
      let filter_y := KalmanFilter.KalmanFilter params
      let ry := filter_y.process gps_y_data acc_y_data fix_data
      let filter_z := KalmanFilter.KalmanFilter params
      let rz := filter_z.process gps_z_data acc_z_data fix_data
      let n := datetime_data.length
      let output_data := makeOutput n datetime_data ry.1 rz.1
      let w := save_csv save_ok output_data
      if !w.1 then
        { code := FUSION_ERROR_FILE_NOT_FOUND, output_file := w.2, intermediate := [],
          filter_y := some ry.2, filter_z := some rz.2 }
      else
        { code := FUSION_SUCCESS, output_file := w.2, intermediate := [],
          filter_y := some ry.2, filter_z := some rz.2 }

/-- Local variables of `process_fusion_batch_internal` that live across the batches. -/
structure BatchState where
  filter_y : KalmanFilter
  filter_z : KalmanFilter
  all_output_data : List OutputData
  is_first_batch : Bool
  intermediate : List IntermediateSave
deriving DecidableEq

/-- Body of the batch loop of `process_fusion_batch_internal` for one `batch_idx`. -/
def batchBody (input_data : List InputData) (batch_size total_rows : Nat)
    (save_intermediate : Bool) (intermediate_ok : Nat → Bool) (batch_idx : Nat)
    (s : BatchState) : BatchState :=
  let start_idx := (batch_idx * batch_size) % SIZE_T_MOD
  let end_idx := min ((start_idx + batch_size) % SIZE_T_MOD) total_rows
  let current_batch_size := (end_idx + SIZE_T_MOD - start_idx) % SIZE_T_MOD
  let batch := (input_data.take end_idx).drop start_idx
  let datetime_batch := batch.map (fun row => row.datetime)
  let gps_y_batch := batch.map (fun row => row.gps_y)
  let gps_z_batch := batch.map (fun row => row.gps_z)
  let acc_y_batch := batch.map (fun row => row.acc_y)
  let acc_z_batch := batch.map (fun row => row.acc_z)
  let fix_batch := batch.map (fun row => row.fix)
  let filter_y :=
    if s.is_first_batch then
      s.filter_y.reset
        (initScan gps_y_batch fix_batch 0 gps_y_batch.length (gps_y_batch.getD 0 Dbl.nan))
    else s.filter_y
  let filter_z :=
    if s.is_first_batch then
      s.filter_z.reset
        (initScan gps_z_batch fix_batch 0 gps_z_batch.length (gps_z_batch.getD 0 Dbl.nan))
    else s.filter_z
  let ry := filter_y.processBatch gps_y_batch acc_y_batch fix_batch
  let rz := filter_z.processBatch gps_z_batch acc_z_batch fix_batch
  let batch_output_data := makeOutput current_batch_size datetime_batch ry.1 rz.1
  let intermediate :=
    if save_intermediate then
      s.intermediate ++
        [{ batch_number := batch_idx + 1, rows := batch_output_data,
           saved := (save_csv (intermediate_ok (batch_idx + 1)) batch_output_data).1 }]
    else s.intermediate
  { filter_y := ry.2, filter_z := rz.2,
    all_output_data := s.all_output_data ++ batch_output_data,
    is_first_batch := false,
    intermediate := intermediate }

/-- The loop `for (batch_idx = ...; batch_idx < num_batches; batch_idx++)`, run from
`batch_idx` for `count` iterations. -/
def batchLoop (input_data : List InputData) (batch_size total_rows : Nat)
    (save_intermediate : Bool) (intermediate_ok : Nat → Bool) :
    Nat → Nat → BatchState → BatchState
  | _, 0, s => s
  | batch_idx, count + 1, s =>
    batchLoop input_data batch_size total_rows save_intermediate intermediate_ok
      (batch_idx + 1) count
      (batchBody input_data batch_size total_rows save_intermediate intermediate_ok batch_idx s)

/-- The function `process_fusion_batch_internal` (batched run); `batch_size` is a `size_t`
and the index arithmetic is taken modulo `2^64`. -/
def process_fusion_batch_internal (parsed : Option (List InputData)) (save_ok : Bool)
    (intermediate_ok : Nat → Bool) (Q R : Dbl) (batch_size : Nat) (save_intermediate : Bool) :
    FusionResult :=
  let MIN_ROWS : Nat := 20
  match parsed with
  | none =>
    { code := FUSION_ERROR_FILE_NOT_FOUND, output_file := none, intermediate := [],
      filter_y := none, filter_z := none }
  | some input_data =>
    if input_data.length < MIN_ROWS then
      { code := FUSION_ERROR_INSUFFICIENT_DATA, output_file := none, intermediate := [],
        filter_y := none, filter_z := none }
    else if batch_size < MIN_ROWS then
      { code := FUSION_ERROR_INVALID_DATA, output_file := none, intermediate := [],
        filter_y := none, filter_z := none }
    else
      let params := KalmanParams.KalmanParams Q R
      let filter_y := KalmanFilter.KalmanFilter params
      let filter_z := KalmanFilter.KalmanFilter params
      let total_rows := input_data.length
      let num_batches := ((total_rows + batch_size - 1) % SIZE_T_MOD) / batch_size
      let s := batchLoop input_data batch_size total_rows save_intermediate intermediate_ok
        0 num_batches
        { filter_y := filter_y, filter_z := filter_z, all_output_data := [],
          is_first_batch := true, intermediate := [] }
      let w := save_csv save_ok s.all_output_data
      if !w.1 then
        { code := FUSION_ERROR_FILE_NOT_FOUND, output_file := w.2,
          intermediate := s.intermediate, filter_y := some s.filter_y, filter_z := some s.filter_z }
      else
        { code := FUSION_SUCCESS, output_file := w.2,
          intermediate := s.intermediate, filter_y := some s.filter_y, filter_z := some s.filter_z }

/-! ## The C API (`fusion_dll.cpp`, `extern "C"`) -/

/-- The function `fusion_process_csv`; a path is `none` when the pointer is null, and
`parsed` is what `parse_csv` yields for the input path. -/
def fusion_process_csv (input_file_path output_file_path : Option String)
    (parsed : Option (List InputData)) (save_ok : Bool) (Q R : Dbl) : FusionResult :=
  if input_file_path.isNone || output_file_path.isNone then
    { code := FUSION_ERROR_INVALID_DATA, output_file := none, intermediate := [],
      filter_y := none, filter_z := none }
  else process_fusion_internal parsed save_ok Q R

/-- The function `fusion_process_csv_batch`; `batch_size` is a `size_t`, `save_intermediate`
an `int`. -/
def fusion_process_csv_batch (input_file_path output_file_path : Option String)
    (parsed : Option (List InputData)) (save_ok : Bool) (intermediate_ok : Nat → Bool)
    (Q R : Dbl) (batch_size : Nat) (save_intermediate : Int) : FusionResult :=
  if input_file_path.isNone || output_file_path.isNone then
    { code := FUSION_ERROR_INVALID_DATA, output_file := none, intermediate := [],
      filter_y := none, filter_z := none }
  else
    let batch_size := if batch_size = 0 then 100 else batch_size
    process_fusion_batch_internal parsed save_ok intermediate_ok Q R batch_size
      (decide (save_intermediate ≠ 0))

/-- The function `fusion_get_error_message`. -/
def fusion_get_error_message (error_code : Int) : String :=
  if error_code = FUSION_SUCCESS then "Success"
  else if error_code = FUSION_ERROR_FILE_NOT_FOUND then "File not found or cannot be opened"
  else if error_code = FUSION_ERROR_INVALID_DATA then "Invalid data format"
  else if error_code = FUSION_ERROR_INSUFFICIENT_DATA then
    "Insufficient data (minimum 20 rows required)"
  else if error_code = FUSION_ERROR_MEMORY then "Memory allocation error"
  else "Unknown error"

/-! ## The CSV reader (`csv_parser.cpp`)

The file is outside the model: `parse_csv` takes the lines `std::getline` yields (`none`
when the file cannot be opened).  The library conversions `std::stod` and `std::stoi` are
parameters: `none` stands for a thrown exception. -/

/-- Membership in the set `" \t\r\n"` used by the blank-line test and the trimming. -/
def isSpaceChar (c : Char) : Bool :=
  c == ' ' || c == '\t' || c == '\r' || c == '\n'

/-- The test `line.empty() || line.find_first_not_of(" \t\r\n") == npos`. -/
def isBlankLine (line : String) : Bool :=
  line.toList.isEmpty || line.toList.all isSpaceChar

/-- Whether `pat` starts at the head of `s`. -/
def startsWith : List Char → List Char → Bool
  | _, [] => true
  | [], _ :: _ => false
  | c :: cs, p :: ps => c == p && startsWith cs ps

/-- The test `s.find(pat) != npos`. -/
def containsSub : List Char → List Char → Bool
  | [], pat => startsWith [] pat
  | c :: cs, pat => startsWith (c :: cs) pat || containsSub cs pat

/-- The header test of the first non-blank line: the lower-cased line contains
`datetime`. -/
def isHeaderLine (line : String) : Bool :=
  containsSub (line.toList.map Char.toLower) "datetime".toList

/-- The splitting loop `for (char c : line)`: a double quote toggles `in_quotes` and is
dropped, a comma outside quotes closes the current token; the last token is pushed after
the loop. -/
def splitLoop : List Char → List (List Char) → List Char → Bool → List (List Char)
  | [], tokens, current_token, _ => tokens ++ [current_token]
  | c :: cs, tokens, current_token, in_quotes =>
    if c = '"' then splitLoop cs tokens current_token (!in_quotes)
    else if c = ',' ∧ in_quotes = false then splitLoop cs (tokens ++ [current_token]) [] in_quotes
    else splitLoop cs tokens (current_token ++ [c]) in_quotes

/-- Cleaning of one token: leading and trailing `" \t\r\n"` erased, then one pair of
surrounding double quotes removed (`t.substr(1, t.length() - 2)`, the length taken modulo
`2^64`). -/
def trimToken (t : List Char) : List Char :=
  let t1 := t.dropWhile isSpaceChar
  let t2 := (t1.reverse.dropWhile isSpaceChar).reverse
  if !t2.isEmpty && t2.head? == some '"' && t2.getLast? == some '"' then
    (t2.drop 1).take ((t2.length + SIZE_T_MOD - 2) % SIZE_T_MOD)
  else t2

/-- The tokens of a line, split and cleaned. -/
def lineTokens (line : String) : List (List Char) :=
  (splitLoop line.toList [] [] false).map trimToken

/-- The `try` block that builds a row from at least six tokens: an empty numeric token
gives `0`, any other is converted by `std::stod` / `std::stoi`; `none` when a conversion
throws. -/
def parseRow (stod : String → Option Dbl) (stoi : String → Option Int)
    (tokens : List (List Char)) : Option InputData :=
  let field (i : Nat) : List Char := tokens.getD i []
  match (if (field 1).isEmpty then some (Dbl.fin 0.0) else stod (String.mk (field 1))) with
  | none => none
  | some gps_y =>
    match (if (field 2).isEmpty then some (Dbl.fin 0.0) else stod (String.mk (field 2))) with
    | none => none
    | some gps_z =>
      match (if (field 3).isEmpty then some (Dbl.fin 0.0) else stod (String.mk (field 3))) with
      | none => none
      | some acc_y =>
        match (if (field 4).isEmpty then some (Dbl.fin 0.0) else stod (String.mk (field 4))) with
        | none => none
        | some acc_z =>
          match (if (field 5).isEmpty then some 0 else stoi (String.mk (field 5))) with
          | none => none
          | some fix =>
            some { datetime := String.mk (field 0), gps_y := gps_y, gps_z := gps_z,
                   acc_y := acc_y, acc_z := acc_z, fix := fix }

/-- The loop `while (std::getline(file, line))` on the remaining lines, with the flag
`is_first_line` and the rows read so far. -/
def parseLines (stod : String → Option Dbl) (stoi : String → Option Int) :
    List String → Bool → List InputData → List InputData
  | [], _, data => data
  | line :: rest, is_first_line, data =>
    if isBlankLine line then parseLines stod stoi rest is_first_line data
    else if is_first_line && isHeaderLine line then parseLines stod stoi rest false data
    else if (lineTokens line).length < 6 then parseLines stod stoi rest false data
    else
      match parseRow stod stoi (lineTokens line) with
      | some row => parseLines stod stoi rest false (data ++ [row])
      | none => parseLines stod stoi rest false data

/-- The function `parse_csv`: the returned flag and the content of `data` afterwards. -/
def parse_csv (stod : String → Option Dbl) (stoi : String → Option Int)
    (file : Option (List String)) (data : List InputData) : Bool × List InputData :=
  match file with
  | none => (false, data)
  | some lines => (true, parseLines stod stoi lines true data)

/-- Number of commas outside double quotes in the rest of a line, `in_quotes` telling
whether a quote is open. -/
def commasOutsideQuotes : List Char → Bool → Nat
  | [], _ => 0
  | c :: cs, in_quotes =>
    if c = '"' then commasOutsideQuotes cs (!in_quotes)
    else if c = ',' ∧ in_quotes = false then commasOutsideQuotes cs in_quotes + 1
    else commasOutsideQuotes cs in_quotes

/-! ## The matrix form of the two covariance steps, as the specification words it -/

/-- Covariance propagation in the words of the specification: `P' = F·P·Fᵗ + Q·I` with
the transition matrix `F = [[1, dt], [0, 1]]`, over the rationals. -/
def specPredictCovariance (dt q a b c d : ℚ) : Matrix (Fin 2) (Fin 2) ℚ :=
  let F : Matrix (Fin 2) (Fin 2) ℚ := !![1, dt; 0, 1]
  F * !![a, b; c, d] * F.transpose + q • (1 : Matrix (Fin 2) (Fin 2) ℚ)

/-- Covariance correction in the words of the specification: `P = (I - K·H)·P` with the
observation matrix `H = [1, 0]` and the gain `K = (p00/S, p10/S)`, `S = p00 + R`, over
the rationals. -/
def specUpdateCovariance (r a b c d : ℚ) : Matrix (Fin 2) (Fin 2) ℚ :=
  let K : Matrix (Fin 2) (Fin 1) ℚ := !![a / (a + r); c / (a + r)]
  let H : Matrix (Fin 1) (Fin 2) ℚ := !![1, 0]
  (1 - K * H) * !![a, b; c, d]

/-! ## Reachable states and the covariance invariants -/

/-- States of a filter built with `params` that construction or `reset` followed by any
sequence of `predict` / `update` calls can reach. -/
inductive Reachable (params : KalmanParams) : KalmanFilter → Prop
  | construct : Reachable params (KalmanFilter.KalmanFilter params)
  | reset {kf : KalmanFilter} (x : Dbl) : Reachable params kf → Reachable params (kf.reset x)
  | predict {kf : KalmanFilter} (u : Dbl) : Reachable params kf → Reachable params (kf.predict u)
  | update {kf : KalmanFilter} (z : Dbl) : Reachable params kf → Reachable params (kf.update z)

/-- Invariant behind the symmetry of the covariance: either the four entries are finite
with `p01 = p10`, or `p00` is not finite and `p01 = p10`. -/
def SymInv (c : KalmanCovariance) : Prop :=
  (∃ a b d : ℚ, c = ⟨Dbl.fin a, Dbl.fin b, Dbl.fin b, Dbl.fin d⟩) ∨
  (c.p00.isfinite = false ∧ c.p01 = c.p10)

/-- Finite symmetric covariance with non-negative diagonal and determinant. -/
def PsdInv (c : KalmanCovariance) : Prop :=
  ∃ a b d : ℚ, c = ⟨Dbl.fin a, Dbl.fin b, Dbl.fin b, Dbl.fin d⟩ ∧ 0 ≤ a ∧ 0 ≤ d ∧ b * b ≤ a * d

/-- Noise-free parameters `Q = 0`, `R = 0`. -/
def noiseFree : KalmanParams := KalmanParams.KalmanParams (Dbl.fin 0) (Dbl.fin 0)

/-- The state after construction and three predict/update rounds without noise. -/
def degenerate : KalmanFilter :=
  ((((((KalmanFilter.KalmanFilter noiseFree).predict (Dbl.fin 0)).update (Dbl.fin 0)).predict
    (Dbl.fin 0)).update (Dbl.fin 0)).predict (Dbl.fin 0)).update (Dbl.fin 0)

/-! ## Agreement of the two initialisation scans -/

/-- The initialisation scan over the first chunk of `chunk_size` rows finds what the scan
over the whole sequence finds: the first chunk holds a row that qualifies for a
correction, or no row does. -/
def FirstChunkFix (gps : List Dbl) (fix : List Int) (chunk_size : Nat) : Prop :=
  (∃ j, j < chunk_size ∧ j < gps.length ∧
    1 ≤ fix.getD j 0 ∧ (gps.getD j Dbl.nan).isfinite = true) ∨
  (∀ j, j < gps.length → ¬ (1 ≤ fix.getD j 0 ∧ (gps.getD j Dbl.nan).isfinite = true))

/-! ## Rows used by the examples of the drivers -/

/-- A row without a fix, at rest. -/
def restRow : InputData := ⟨"t", Dbl.fin 0, Dbl.fin 0, Dbl.fin 0, Dbl.fin 0, 0⟩

/-- A row without a fix, with acceleration 1 on the Y axis. -/
def pushRow : InputData := ⟨"t", Dbl.fin 0, Dbl.fin 0, Dbl.fin 1, Dbl.fin 0, 0⟩

/-- A row with a fix and the measurement 5 on both axes. -/
def fixRow : InputData := ⟨"t", Dbl.fin 5, Dbl.fin 5, Dbl.fin 0, Dbl.fin 0, 1⟩

/-- Twenty rows at rest followed by one accelerated row. -/
def rowsPush : List InputData := List.replicate 20 restRow ++ [pushRow]

/-- Twenty rows without a fix followed by the only row with a fix. -/
def rowsLateFix : List InputData := List.replicate 20 restRow ++ [fixRow]

/-- Twenty rows at rest. -/
def rowsRest : List InputData := List.replicate 20 restRow

/-- The rows of `rowsPush` with other measurements and accelerations on the Z axis. -/
def rowsPushOtherZ : List InputData :=
  rowsPush.map fun row => { row with gps_z := Dbl.fin 7, acc_z := Dbl.fin 3 }

/-! ## The 20-row example of the specification -/

/-- Measurements of the 20-row example: `10.0` on the even rows, `other` on the odd rows. -/
def exampleGps (other : Dbl) : List Dbl :=
  (List.range 20).map fun i => if i % 2 = 0 then Dbl.fin 10 else other

/-- Accelerations of the 20-row example: zero on every row. -/
def exampleAcc : List Dbl := List.replicate 20 (Dbl.fin 0)

/-- Fix flags of the 20-row example: 1, 0, 1, 0, ... -/
def exampleFix : List Int := (List.range 20).map fun i => if i % 2 = 0 then 1 else 0

/-! ## Conversions used by the examples of the CSV reader -/

/-- Stand-in for `std::stod` in the examples: it converts `1.5` and `2` as the library
does and rejects every other string; of those the examples use `abc` only, which the
library rejects too. -/
def demoStod (s : String) : Option Dbl :=
  if s = "1.5" then some (Dbl.fin 1.5) else if s = "2" then some (Dbl.fin 2) else none

/-- Stand-in for `std::stoi` in the examples: it converts `1` and rejects every other
string. -/
def demoStoi (s : String) : Option Int :=
  if s = "1" then some 1 else none

/-! ## Small inputs used to instantiate the theorems -/

/-- A filter with the default noise parameters `Q = 0.1`, `R = 0.01`. -/
def demoFilter : KalmanFilter :=
  KalmanFilter.KalmanFilter (KalmanParams.KalmanParams (Dbl.fin 0.1) (Dbl.fin 0.01))

/-- Three measurements, the first one NaN. -/
def demoGps : List Dbl := [Dbl.nan, Dbl.fin 10, Dbl.fin 10]

/-- Three accelerations. -/
def demoAcc : List Dbl := [Dbl.fin 0, Dbl.fin 0, Dbl.fin 0]

/-- Three fix flags, the last row without a fix. -/
def demoFix : List Int := [1, 1, 0]

/-! ## Arithmetic on finite values -/

@[simp] theorem Dbl.fin_add_fin (a b : ℚ) : Dbl.fin a + Dbl.fin b = Dbl.fin (a + b) := rfl

@[simp] theorem Dbl.fin_mul_fin (a b : ℚ) : Dbl.fin a * Dbl.fin b = Dbl.fin (a * b) := rfl

@[simp] theorem Dbl.neg_fin (a : ℚ) : -Dbl.fin a = Dbl.fin (-a) := rfl

@[simp] theorem Dbl.fin_sub_fin (a b : ℚ) : Dbl.fin a - Dbl.fin b = Dbl.fin (a - b) := by
  show Dbl.fin (a + -b) = Dbl.fin (a - b)
  rw [sub_eq_add_neg]

theorem Dbl.fin_div_fin (a b : ℚ) :
    Dbl.fin a / Dbl.fin b = if b = 0 then Dbl.infOfSign a else Dbl.fin (a / b) := rfl

theorem Dbl.fin_div_fin_of_ne (a b : ℚ) (h : b ≠ 0) :
    Dbl.fin a / Dbl.fin b = Dbl.fin (a / b) := by
  rw [Dbl.fin_div_fin, if_neg h]

@[simp] theorem Dbl.add_zero (x : Dbl) : x + Dbl.fin 0 = x := by
  cases x with
  | fin q => simp
  | pinf => rfl
  | ninf => rfl
  | nan => rfl

@[simp] theorem Dbl.one_mul (x : Dbl) : Dbl.fin 1 * x = x := by
  cases x with
  | fin q => simp
  | pinf => show Dbl.infOfSign 1 = _; simp [Dbl.infOfSign]
  | ninf => show Dbl.infOfSign (-1) = _; simp [Dbl.infOfSign]
  | nan => rfl

theorem Dbl.add_comm (x y : Dbl) : x + y = y + x := by
  cases x <;> cases y <;> first | rfl | (simp; ring)

theorem Dbl.neg_mul (x y : Dbl) : (-x) * y = -(x * y) := by
  cases x <;> cases y <;> try rfl
  · simp
  · show Dbl.infOfSign _ = Dbl.neg (Dbl.infOfSign _)
    unfold Dbl.infOfSign
    split_ifs <;> first | rfl | (exfalso; linarith)
  · show Dbl.infOfSign _ = Dbl.neg (Dbl.infOfSign _)
    unfold Dbl.infOfSign
    split_ifs <;> first | rfl | (exfalso; linarith)
  · show Dbl.infOfSign _ = Dbl.neg (Dbl.infOfSign _)
    unfold Dbl.infOfSign
    split_ifs <;> first | rfl | (exfalso; linarith)
  · show Dbl.infOfSign _ = Dbl.neg (Dbl.infOfSign _)
    unfold Dbl.infOfSign
    split_ifs <;> first | rfl | (exfalso; linarith)

theorem Dbl.sub_eq_add_neg (x y : Dbl) : x - y = x + -y := rfl

theorem Dbl.add_def (x y : Dbl) : x + y = Dbl.add x y := rfl
theorem Dbl.mul_def (x y : Dbl) : x * y = Dbl.mul x y := rfl
theorem Dbl.div_def (x y : Dbl) : x / y = Dbl.div x y := rfl
theorem Dbl.sub_def (x y : Dbl) : x - y = Dbl.add x (Dbl.neg y) := rfl
theorem Dbl.neg_def (x : Dbl) : -x = Dbl.neg x := rfl

theorem Dbl.isfinite_add_left (x y : Dbl) (h : x.isfinite = false) : (x + y).isfinite = false := by
  cases x <;> cases y <;> simp_all [Dbl.isfinite, Dbl.add_def, Dbl.add]

theorem Dbl.isfinite_add_right (x y : Dbl) (h : y.isfinite = false) : (x + y).isfinite = false := by
  cases x <;> cases y <;> simp_all [Dbl.isfinite, Dbl.add_def, Dbl.add]

theorem Dbl.isfinite_mul_left (x y : Dbl) (h : x.isfinite = false) : (x * y).isfinite = false := by
  cases x <;> cases y <;> simp_all [Dbl.isfinite, Dbl.mul_def, Dbl.mul, Dbl.infOfSign] <;>
    split_ifs <;> simp

@[simp] theorem lit_one : (1.0 : ℚ) = 1 := by norm_num
@[simp] theorem lit_zero : (0.0 : ℚ) = 0 := by norm_num
theorem lit_dt : (0.01 : ℚ) = 1 / 100 := by norm_num
theorem lit_half : (0.5 : ℚ) = 1 / 2 := by norm_num

@[simp] theorem Dbl.nan_add (x : Dbl) : Dbl.nan + x = Dbl.nan := by cases x <;> rfl
@[simp] theorem Dbl.add_nan (x : Dbl) : x + Dbl.nan = Dbl.nan := by cases x <;> rfl
@[simp] theorem Dbl.nan_mul (x : Dbl) : Dbl.nan * x = Dbl.nan := by cases x <;> rfl
@[simp] theorem Dbl.mul_nan (x : Dbl) : x * Dbl.nan = Dbl.nan := by cases x <;> rfl
@[simp] theorem Dbl.sub_nan (x : Dbl) : x - Dbl.nan = Dbl.nan := by cases x <;> rfl
@[simp] theorem Dbl.neg_nan : -Dbl.nan = Dbl.nan := rfl
@[simp] theorem Dbl.div_nan (x : Dbl) : x / Dbl.nan = Dbl.nan := by cases x <;> rfl
@[simp] theorem Dbl.nan_div (x : Dbl) : Dbl.nan / x = Dbl.nan := by cases x <;> rfl

theorem Dbl.div_of_not_finite (x y : Dbl) (hx : x.isfinite = false) (hy : y.isfinite = false) :
    x / y = Dbl.nan := by
  cases x <;> cases y <;> first | rfl | simp [Dbl.isfinite] at hx hy

theorem Dbl.div_not_finite_cases (x y : Dbl) (hy : y.isfinite = false) :
    x / y = Dbl.fin 0 ∨ x / y = Dbl.nan := by
  cases x <;> cases y <;> first | (left; rfl) | (right; rfl) | simp [Dbl.isfinite] at hy

theorem Dbl.zero_mul_not_finite (x : Dbl) (hx : x.isfinite = false) :
    Dbl.fin 0 * x = Dbl.nan := by
  cases x with
  | fin q => simp [Dbl.isfinite] at hx
  | pinf => show Dbl.infOfSign 0 = _; simp [Dbl.infOfSign]
  | ninf => show Dbl.infOfSign (-0) = _; simp [Dbl.infOfSign]
  | nan => rfl

theorem Dbl.infOfSign_pos {s : ℚ} (h : 0 < s) : Dbl.infOfSign s = Dbl.pinf := by
  simp [Dbl.infOfSign, h]

theorem Dbl.infOfSign_neg {s : ℚ} (h : s < 0) : Dbl.infOfSign s = Dbl.ninf := by
  simp [Dbl.infOfSign, h, not_lt.2 h.le]

@[simp] theorem Dbl.infOfSign_zero : Dbl.infOfSign 0 = Dbl.nan := by
  simp [Dbl.infOfSign]

theorem Dbl.infOfSign_neg_of_pos {s : ℚ} (h : 0 < s) : Dbl.infOfSign (-s) = Dbl.ninf :=
  Dbl.infOfSign_neg (by linarith)

theorem Dbl.infOfSign_neg_of_neg {s : ℚ} (h : s < 0) : Dbl.infOfSign (-s) = Dbl.pinf :=
  Dbl.infOfSign_pos (by linarith)

@[simp] theorem Dbl.fin_mul_pinf (a : ℚ) : Dbl.fin a * Dbl.pinf = Dbl.infOfSign a := rfl
@[simp] theorem Dbl.fin_mul_ninf (a : ℚ) : Dbl.fin a * Dbl.ninf = Dbl.infOfSign (-a) := rfl
@[simp] theorem Dbl.pinf_mul_fin (a : ℚ) : Dbl.pinf * Dbl.fin a = Dbl.infOfSign a := rfl
@[simp] theorem Dbl.ninf_mul_fin (a : ℚ) : Dbl.ninf * Dbl.fin a = Dbl.infOfSign (-a) := rfl
@[simp] theorem Dbl.pinf_add_fin (a : ℚ) : Dbl.pinf + Dbl.fin a = Dbl.pinf := rfl
@[simp] theorem Dbl.ninf_add_fin (a : ℚ) : Dbl.ninf + Dbl.fin a = Dbl.ninf := rfl
@[simp] theorem Dbl.fin_sub_pinf (a : ℚ) : Dbl.fin a - Dbl.pinf = Dbl.ninf := rfl
@[simp] theorem Dbl.fin_sub_ninf (a : ℚ) : Dbl.fin a - Dbl.ninf = Dbl.pinf := rfl
@[simp] theorem Dbl.neg_pinf : -Dbl.pinf = Dbl.ninf := rfl
@[simp] theorem Dbl.neg_ninf : -Dbl.ninf = Dbl.pinf := rfl
@[simp] theorem Dbl.fin_div_zero (a : ℚ) : Dbl.fin a / Dbl.fin 0 = Dbl.infOfSign a := by
  rw [Dbl.fin_div_fin, if_pos rfl]
@[simp] theorem Dbl.fin_div_pinf (a : ℚ) : Dbl.fin a / Dbl.pinf = Dbl.fin 0 := rfl
@[simp] theorem Dbl.fin_div_ninf (a : ℚ) : Dbl.fin a / Dbl.ninf = Dbl.fin 0 := rfl
@[simp] theorem Dbl.fin_add_pinf (a : ℚ) : Dbl.fin a + Dbl.pinf = Dbl.pinf := rfl
@[simp] theorem Dbl.fin_add_ninf (a : ℚ) : Dbl.fin a + Dbl.ninf = Dbl.ninf := rfl
@[simp] theorem Dbl.isfinite_fin (a : ℚ) : (Dbl.fin a).isfinite = true := rfl
@[simp] theorem Dbl.isfinite_pinf : Dbl.pinf.isfinite = false := rfl
@[simp] theorem Dbl.isfinite_ninf : Dbl.ninf.isfinite = false := rfl
@[simp] theorem Dbl.isfinite_nan : Dbl.nan.isfinite = false := rfl

/-- Update of a finite symmetric covariance when `S = p00 + R` is zero: the position
variance stops being finite and the two off-diagonal entries stay equal. -/
theorem update_zero_divisor (a c d : ℚ) :
    ((Dbl.fin 1 - Dbl.fin a / Dbl.fin 0) * Dbl.fin a + Dbl.fin 0 * Dbl.fin c).isfinite = false ∧
    (Dbl.fin 1 - Dbl.fin a / Dbl.fin 0) * Dbl.fin c + Dbl.fin 0 * Dbl.fin d
      = (-(Dbl.fin c / Dbl.fin 0)) * Dbl.fin a + Dbl.fin 1 * Dbl.fin c := by
  rcases lt_trichotomy a 0 with ha | rfl | ha <;> rcases lt_trichotomy c 0 with hc | rfl | hc
  · simp [Dbl.infOfSign_neg ha, Dbl.infOfSign_neg hc, Dbl.infOfSign_neg_of_neg ha,
      Dbl.infOfSign_neg_of_neg hc]
  · simp [Dbl.infOfSign_neg ha, Dbl.infOfSign_neg_of_neg ha]
  · simp [Dbl.infOfSign_neg ha, Dbl.infOfSign_pos hc, Dbl.infOfSign_neg_of_pos hc,
      Dbl.infOfSign_neg_of_neg ha]
  · simp [Dbl.infOfSign_neg hc, Dbl.infOfSign_neg_of_neg hc]
  · simp
  · simp [Dbl.infOfSign_pos hc, Dbl.infOfSign_neg_of_pos hc]
  · simp [Dbl.infOfSign_pos ha, Dbl.infOfSign_neg hc, Dbl.infOfSign_neg_of_neg hc,
      Dbl.infOfSign_neg_of_pos ha]
  · simp [Dbl.infOfSign_pos ha, Dbl.infOfSign_neg_of_pos ha]
  · simp [Dbl.infOfSign_pos ha, Dbl.infOfSign_pos hc, Dbl.infOfSign_neg_of_pos hc,
      Dbl.infOfSign_neg_of_pos ha]

/-! ## The estimator's steps -/

/-- C7 (clean start state): a newly constructed filter has position 0, velocity 0 and
the identity covariance; after `reset x`, from any prior state, the position is `x`, the
velocity is 0, the covariance is the identity and the parameters are unchanged. -/
theorem clean_start_state (params : KalmanParams) (kf : KalmanFilter) (x : Dbl) :
    (KalmanFilter.KalmanFilter params).state_ = ⟨Dbl.fin 0, Dbl.fin 0⟩ ∧
    (KalmanFilter.KalmanFilter params).covariance_
      = ⟨Dbl.fin 1, Dbl.fin 0, Dbl.fin 0, Dbl.fin 1⟩ ∧
    (KalmanFilter.KalmanFilter params).params_ = params ∧
    (kf.reset x).state_.position = x ∧
    (kf.reset x).state_.velocity = Dbl.fin 0 ∧
    (kf.reset x).covariance_ = ⟨Dbl.fin 1, Dbl.fin 0, Dbl.fin 0, Dbl.fin 1⟩ ∧
    (kf.reset x).params_ = kf.params_ := by
  simp only [KalmanFilter.KalmanFilter, KalmanFilter.reset]
  norm_num

/-- Entries of `F * P * Fᵀ + q • 1` for `F = [[1, dt], [0, 1]]` over the rationals. -/
theorem transition_covariance_entries (a b c d q dt : ℚ) :
    specPredictCovariance dt q a b c d 0 0 = a + dt * (b + c) + dt * dt * d + q ∧
    specPredictCovariance dt q a b c d 0 1 = b + dt * d ∧
    specPredictCovariance dt q a b c d 1 0 = c + dt * d ∧
    specPredictCovariance dt q a b c d 1 1 = d + q := by
  have hF : (!![1, dt; 0, 1] : Matrix (Fin 2) (Fin 2) ℚ).transpose = !![1, 0; dt, 1] := by
    ext i j; fin_cases i <;> fin_cases j <;> rfl
  simp only [specPredictCovariance, hF, Matrix.mul_fin_two, Matrix.one_fin_two, Matrix.smul_of,
    Matrix.of_add_of]
  simp
  refine ⟨?_, ?_⟩ <;> ring

/-- C5 (predict): with the parameters built by `KalmanParams(Q, R)` the step is `dt = 0.01`
and `predict u` maps every state to `position + dt*velocity + 0.5*dt^2*u`,
`velocity + dt*u`, `p00 + dt*(p01+p10) + dt^2*p11 + Q`, `p01 + dt*p11`, `p10 + dt*p11`,
`p11 + Q`, all read from the state before the call, parameters unchanged; on finite values
the new covariance is the matrix `F * P * Fᵀ + Q • 1` for `F = [[1, dt], [0, 1]]`
(`specPredictCovariance`). -/
theorem predict_step_equations (Q R u : Dbl) (st : KalmanState) (cov : KalmanCovariance)
    (q a b c d : ℚ) :
    let dt : ℚ := 1 / 100
    let kf : KalmanFilter := ⟨KalmanParams.KalmanParams Q R, st, cov⟩
    let kf2 : KalmanFilter :=
      ⟨KalmanParams.KalmanParams (Dbl.fin q) R, st, ⟨Dbl.fin a, Dbl.fin b, Dbl.fin c, Dbl.fin d⟩⟩
    let P2 : Matrix (Fin 2) (Fin 2) ℚ := specPredictCovariance dt q a b c d
    (KalmanParams.KalmanParams Q R).dt = Dbl.fin dt ∧
    (kf.predict u).state_.position
      = st.position + Dbl.fin dt * st.velocity + Dbl.fin (1 / 2 * dt ^ 2) * u ∧
    (kf.predict u).state_.velocity = st.velocity + Dbl.fin dt * u ∧
    (kf.predict u).covariance_.p00
      = cov.p00 + Dbl.fin dt * (cov.p01 + cov.p10) + Dbl.fin (dt ^ 2) * cov.p11 + Q ∧
    (kf.predict u).covariance_.p01 = cov.p01 + Dbl.fin dt * cov.p11 ∧
    (kf.predict u).covariance_.p10 = cov.p10 + Dbl.fin dt * cov.p11 ∧
    (kf.predict u).covariance_.p11 = cov.p11 + Q ∧
    (kf.predict u).params_ = kf.params_ ∧
    (kf2.predict u).covariance_
      = ⟨Dbl.fin (P2 0 0), Dbl.fin (P2 0 1), Dbl.fin (P2 1 0), Dbl.fin (P2 1 1)⟩ := by
  intro dt kf kf2 P2
  have hdt : (0.01 : ℚ) = 1 / 100 := by norm_num
  have h1 : (0.5 : ℚ) * (1 / 100) * (1 / 100) = 1 / 2 * (1 / 100) ^ 2 := by norm_num
  have h2 : (1 / 100 : ℚ) * (1 / 100) = (1 / 100) ^ 2 := by norm_num
  refine ⟨?_, ?_, ?_, ?_, ?_, ?_, ?_, ?_, ?_⟩
  · simp only [KalmanParams.KalmanParams, hdt, dt]
  · simp only [kf, KalmanFilter.predict, KalmanParams.KalmanParams, hdt, Dbl.fin_mul_fin, h1, dt]
  · simp only [kf, KalmanFilter.predict, KalmanParams.KalmanParams, hdt, dt]
  · simp only [kf, KalmanFilter.predict, KalmanParams.KalmanParams, hdt, Dbl.fin_mul_fin, h2, dt]
  · simp only [kf, KalmanFilter.predict, KalmanParams.KalmanParams, hdt, dt]
  · simp only [kf, KalmanFilter.predict, KalmanParams.KalmanParams, hdt, dt]
  · simp only [kf, KalmanFilter.predict, KalmanParams.KalmanParams]
  · simp only [kf, KalmanFilter.predict]
  · obtain ⟨e00, e01, e10, e11⟩ := transition_covariance_entries a b c d q (1 / 100)
    simp only [P2, dt, e00, e01, e10, e11]
    simp only [kf2, KalmanFilter.predict, KalmanParams.KalmanParams, hdt, Dbl.fin_mul_fin,
      Dbl.fin_add_fin]

/-- Entries of `(1 - K * H) * P` for the gain column `K` and `H = [1, 0]` over the
rationals. -/
theorem gain_covariance_entries (a b c d r : ℚ) :
    specUpdateCovariance r a b c d 0 0 = (1 - a / (a + r)) * a + 0 * c ∧
    specUpdateCovariance r a b c d 0 1 = (1 - a / (a + r)) * b + 0 * d ∧
    specUpdateCovariance r a b c d 1 0 = (-(c / (a + r))) * a + 1 * c ∧
    specUpdateCovariance r a b c d 1 1 = (-(c / (a + r))) * b + 1 * d := by
  have hKH : (!![a / (a + r); c / (a + r)] : Matrix (Fin 2) (Fin 1) ℚ)
      * (!![1, 0] : Matrix (Fin 1) (Fin 2) ℚ) = !![a / (a + r), 0; c / (a + r), 0] := by
    ext i j; fin_cases i <;> fin_cases j <;> simp [Matrix.mul_apply]
  simp only [specUpdateCovariance, hKH, Matrix.one_fin_two, Matrix.of_sub_of, Matrix.mul_fin_two]
  simp

/-- C6 (update, the spec's correct): with `S = p00 + R`, `K0 = p00/S`, `K1 = p10/S` read
from the state before the call, `update z` gives `position + K0*(z - position)`,
`velocity + K1*(z - position)` and the covariance `(I - K*H)*P` with `H = [1, 0]`, whose
rows are `(1-K0, 0)` and `(-K1, 1)`; for finite `p10`, `p11` this is `p00' = (1-K0)*p00`,
`p01' = (1-K0)*p01`, `p10' = p10 - K1*p00`, `p11' = p11 - K1*p01`; on finite values with
`S ≠ 0` it is the rational matrix `(1 - K*H) * P` (`specUpdateCovariance`). -/
theorem update_step_equations (P : KalmanParams) (st : KalmanState) (cov : KalmanCovariance)
    (z p00 p01 : Dbl) (a b c d r : ℚ) :
    let kf : KalmanFilter := ⟨P, st, cov⟩
    let K0 := cov.p00 / (cov.p00 + P.R)
    let K1 := cov.p10 / (cov.p00 + P.R)
    let kf2 : KalmanFilter := ⟨P, st, ⟨p00, p01, Dbl.fin c, Dbl.fin d⟩⟩
    let L0 := p00 / (p00 + P.R)
    let L1 := Dbl.fin c / (p00 + P.R)
    let kf3 : KalmanFilter :=
      ⟨⟨P.Q, Dbl.fin r, P.dt⟩, st, ⟨Dbl.fin a, Dbl.fin b, Dbl.fin c, Dbl.fin d⟩⟩
    let P3 : Matrix (Fin 2) (Fin 2) ℚ := specUpdateCovariance r a b c d
    (kf.update z).state_.position = st.position + K0 * (z - st.position) ∧
    (kf.update z).state_.velocity = st.velocity + K1 * (z - st.position) ∧
    (kf.update z).covariance_.p00 = (Dbl.fin 1 - K0) * cov.p00 + Dbl.fin 0 * cov.p10 ∧
    (kf.update z).covariance_.p01 = (Dbl.fin 1 - K0) * cov.p01 + Dbl.fin 0 * cov.p11 ∧
    (kf.update z).covariance_.p10 = (-K1) * cov.p00 + Dbl.fin 1 * cov.p10 ∧
    (kf.update z).covariance_.p11 = (-K1) * cov.p01 + Dbl.fin 1 * cov.p11 ∧
    (kf.update z).params_ = P ∧
    (kf2.update z).covariance_.p00 = (Dbl.fin 1 - L0) * p00 ∧
    (kf2.update z).covariance_.p01 = (Dbl.fin 1 - L0) * p01 ∧
    (kf2.update z).covariance_.p10 = Dbl.fin c - L1 * p00 ∧
    (kf2.update z).covariance_.p11 = Dbl.fin d - L1 * p01 ∧
    (a + r ≠ 0 → (kf3.update z).covariance_
      = ⟨Dbl.fin (P3 0 0), Dbl.fin (P3 0 1), Dbl.fin (P3 1 0), Dbl.fin (P3 1 1)⟩) := by
  intro kf K0 K1 kf2 L0 L1 kf3 P3
  have h1 : (1.0 : ℚ) = 1 := by norm_num
  have h0 : (0.0 : ℚ) = 0 := by norm_num
  have hz : ∀ q : ℚ, Dbl.fin 0 * Dbl.fin q = Dbl.fin 0 := fun q => by simp
  refine ⟨?_, ?_, ?_, ?_, ?_, ?_, ?_, ?_, ?_, ?_, ?_, ?_⟩
  · simp only [kf, K0, KalmanFilter.update]
  · simp only [kf, K1, KalmanFilter.update]
  · simp only [kf, K0, KalmanFilter.update, h1, h0]
  · simp only [kf, K0, KalmanFilter.update, h1, h0]
  · simp only [kf, K1, KalmanFilter.update, h1]
  · simp only [kf, K1, KalmanFilter.update, h1]
  · simp only [kf, KalmanFilter.update]
  · simp only [kf2, L0, KalmanFilter.update, h1, h0, hz, Dbl.add_zero]
  · simp only [kf2, L0, KalmanFilter.update, h1, h0, hz, Dbl.add_zero]
  · simp only [kf2, L1, KalmanFilter.update, h1, Dbl.one_mul, Dbl.neg_mul]
    rw [Dbl.add_comm, Dbl.sub_eq_add_neg]
  · simp only [kf2, L1, KalmanFilter.update, h1, Dbl.one_mul, Dbl.neg_mul]
    rw [Dbl.add_comm, Dbl.sub_eq_add_neg]
  · intro hS
    obtain ⟨e00, e01, e10, e11⟩ := gain_covariance_entries a b c d r
    simp only [P3, e00, e01, e10, e11]
    simp only [kf3, KalmanFilter.update, h1, h0, Dbl.fin_add_fin, Dbl.fin_div_fin_of_ne _ _ hS,
      Dbl.fin_sub_fin, Dbl.fin_mul_fin, Dbl.neg_fin]

/-- Witness for C6 on the identity covariance with `R = 1` (`S = 2`). -/
theorem update_step_equations_witness :
    ((1 : ℚ) + 1 ≠ 0) ∧
    (KalmanFilter.update ⟨⟨Dbl.fin 0, Dbl.fin 1, Dbl.fin 0.01⟩, ⟨Dbl.fin 0, Dbl.fin 0⟩,
        ⟨Dbl.fin 1, Dbl.fin 0, Dbl.fin 0, Dbl.fin 1⟩⟩ (Dbl.fin 2)).covariance_
      = ⟨Dbl.fin (specUpdateCovariance 1 1 0 0 1 0 0), Dbl.fin (specUpdateCovariance 1 1 0 0 1 0 1),
         Dbl.fin (specUpdateCovariance 1 1 0 0 1 1 0),
         Dbl.fin (specUpdateCovariance 1 1 0 0 1 1 1)⟩ :=
  ⟨by norm_num,
   (update_step_equations ⟨Dbl.fin 0, Dbl.fin 1, Dbl.fin 0.01⟩ ⟨Dbl.fin 0, Dbl.fin 0⟩
      ⟨Dbl.fin 1, Dbl.fin 0, Dbl.fin 0, Dbl.fin 1⟩ (Dbl.fin 2) (Dbl.fin 1) (Dbl.fin 0)
      1 0 0 1 1).2.2.2.2.2.2.2.2.2.2.2 (by norm_num)⟩

/-! ## The row loop -/

theorem validFix_iff (f : Int) (g : Dbl) :
    validFix f g = true ↔ 1 ≤ f ∧ g.isfinite = true := by
  cases g <;> simp [validFix, Dbl.isnan, Dbl.isfinite]

theorem processLoop_succ (g a : List Dbl) (f : List Int) (i k : Nat) (s : KalmanFilter × List Dbl) :
    KalmanFilter.processLoop g a f i (k + 1) s =
      ((KalmanFilter.processLoop g a f i k s).1.stepRow g a f (i + k),
       (KalmanFilter.processLoop g a f i k s).2.set (i + k)
         ((KalmanFilter.processLoop g a f i k s).1.stepRow g a f (i + k)).state_.position) := by
  induction k generalizing i s with
  | zero => obtain ⟨kf, d⟩ := s; simp [KalmanFilter.processLoop]
  | succ k ih =>
    obtain ⟨kf, d⟩ := s
    rw [KalmanFilter.processLoop, ih]
    simp only [KalmanFilter.processLoop]
    have e : i + 1 + k = i + (k + 1) := by omega
    rw [e]

theorem processLoop_length (g a : List Dbl) (f : List Int) (i k : Nat) (s : KalmanFilter × List Dbl) :
    (KalmanFilter.processLoop g a f i k s).2.length = s.2.length := by
  induction k with
  | zero => rfl
  | succ k ih => rw [processLoop_succ]; simpa using ih

theorem processLoop_fst_indep (g a : List Dbl) (f : List Int) (i k : Nat) (kf : KalmanFilter)
    (d d2 : List Dbl) :
    (KalmanFilter.processLoop g a f i k (kf, d)).1 = (KalmanFilter.processLoop g a f i k (kf, d2)).1 := by
  induction k with
  | zero => rfl
  | succ k ih => rw [processLoop_succ, processLoop_succ]; simp only [ih]

/-- Entry `j` of the displacement vector after `k` iterations from index `i`. -/
theorem processLoop_getElem? (g a : List Dbl) (f : List Int) (i k : Nat) (kf : KalmanFilter)
    (d : List Dbl) (j : Nat) :
    (KalmanFilter.processLoop g a f i k (kf, d)).2[j]? =
      if i ≤ j ∧ j < i + k ∧ j < d.length then
        some (KalmanFilter.processLoop g a f i (j - i + 1) (kf, d)).1.state_.position
      else d[j]? := by
  induction k with
  | zero =>
    have : ¬ (i ≤ j ∧ j < i + 0 ∧ j < d.length) := by omega
    rw [if_neg this]
    rfl
  | succ k ih =>
    rw [processLoop_succ]
    simp only [List.getElem?_set]
    by_cases hj : i + k = j
    · subst hj
      have hl := processLoop_length g a f i k (kf, d)
      simp only [if_true, hl]
      by_cases hd : i + k < d.length
      · have : i ≤ i + k ∧ i + k < i + (k + 1) ∧ i + k < d.length := by omega
        simp only [hd, this, and_self, if_true]
        have e : i + k - i + 1 = k + 1 := by omega
        rw [e, processLoop_succ]
      · have : ¬ (i ≤ i + k ∧ i + k < i + (k + 1) ∧ i + k < d.length) := by omega
        rw [if_neg this, if_neg hd, List.getElem?_eq_none (by omega)]
    · simp only [hj, if_false, ih]
      have : (i ≤ j ∧ j < i + (k + 1) ∧ j < d.length) ↔ (i ≤ j ∧ j < i + k ∧ j < d.length) := by
        omega
      simp only [this]


/-- The scan keeps its fallback when no index of the range qualifies. -/
theorem initScan_none (g : List Dbl) (f : List Int) (i k : Nat) (d : Dbl)
    (h : ∀ j, i ≤ j → j < i + k → ¬ (1 ≤ f.getD j 0 ∧ (g.getD j Dbl.nan).isfinite = true)) :
    initScan g f i k d = d := by
  induction k generalizing i with
  | zero => rfl
  | succ k ih =>
    rw [initScan]
    have h0 := h i (le_refl _) (by omega)
    rw [← validFix_iff] at h0
    rw [if_neg h0]
    exact ih (i + 1) (fun j h1 h2 => h j (by omega) (by omega))

/-- The scan returns the measurement of the first qualifying index of the range. -/
theorem initScan_first (g : List Dbl) (f : List Int) (i k : Nat) (d : Dbl) (j : Nat)
    (hij : i ≤ j) (hjk : j < i + k)
    (hv : 1 ≤ f.getD j 0 ∧ (g.getD j Dbl.nan).isfinite = true)
    (h : ∀ m, i ≤ m → m < j → ¬ (1 ≤ f.getD m 0 ∧ (g.getD m Dbl.nan).isfinite = true)) :
    initScan g f i k d = g.getD j Dbl.nan := by
  induction k generalizing i with
  | zero => omega
  | succ k ih =>
    rw [initScan]
    by_cases e : i = j
    · subst e
      rw [← validFix_iff] at hv
      rw [if_pos hv]
    · have h0 := h i (le_refl _) (by omega)
      rw [← validFix_iff] at h0
      rw [if_neg h0]
      exact ih (i + 1) (by omega) (by omega) (fun m h1 h2 => h m (by omega) h2)

theorem stateAfterRow_zero (kf : KalmanFilter) (g a : List Dbl) (f : List Int) :
    kf.stateAfterRow g a f 0 = kf := rfl

theorem stateAfterRow_succ (kf : KalmanFilter) (g a : List Dbl) (f : List Int) (i : Nat) :
    kf.stateAfterRow g a f (i + 1) = (kf.stateAfterRow g a f i).stepRow g a f (1 + i) := by
  unfold KalmanFilter.stateAfterRow
  rw [processLoop_succ]

theorem stepRow_eq (kf : KalmanFilter) (g a : List Dbl) (f : List Int) (i : Nat) :
    kf.stepRow g a f i =
      if 1 ≤ f.getD i 0 ∧ (g.getD i Dbl.nan).isfinite = true then
        (kf.predict (a.getD i Dbl.nan)).update (g.getD i Dbl.nan)
      else kf.predict (a.getD i Dbl.nan) := by
  unfold KalmanFilter.stepRow
  by_cases h : validFix (f.getD i 0) (g.getD i Dbl.nan) = true
  · simp only [h, if_true, if_pos ((validFix_iff _ _).1 h)]
  · rw [if_neg h, if_neg (fun h2 => h ((validFix_iff _ _).2 h2))]

/-- What `processBatch` returns on a non-empty input of equal lengths. -/
theorem processBatch_eq (kf : KalmanFilter) (g a : List Dbl) (f : List Int)
    (ha : g.length = a.length) (hf : g.length = f.length) (hn : 0 < g.length) :
    kf.processBatch g a f =
      ((KalmanFilter.processLoop g a f 1 (g.length - 1)
          (kf, (List.replicate g.length (Dbl.fin 0)).set 0 kf.state_.position)).2,
       kf.stateAfterRow g a f (g.length - 1)) := by
  unfold KalmanFilter.processBatch KalmanFilter.stateAfterRow
  have h1 : ¬ (g.length ≠ a.length ∨ g.length ≠ f.length) := by omega
  have h2 : ¬ (g.length = 0) := by omega
  simp only [h1, h2, if_false]

theorem process_eq_processBatch (kf : KalmanFilter) (g a : List Dbl) (f : List Int)
    (ha : g.length = a.length) (hf : g.length = f.length) (hn : 0 < g.length) :
    kf.process g a f =
      (kf.reset (initScan g f 0 g.length (g.getD 0 Dbl.nan))).processBatch g a f := by
  unfold KalmanFilter.processBatch KalmanFilter.process
  have h1 : ¬ (g.length ≠ a.length ∨ g.length ≠ f.length) := by omega
  have h2 : ¬ (g.length = 0) := by omega
  simp only [h1, h2, if_false]

theorem processBatch_length (kf : KalmanFilter) (g a : List Dbl) (f : List Int)
    (ha : g.length = a.length) (hf : g.length = f.length) (hn : 0 < g.length) :
    (kf.processBatch g a f).1.length = g.length := by
  rw [processBatch_eq kf g a f ha hf hn]
  simp [processLoop_length]

theorem processBatch_getElem? (kf : KalmanFilter) (g a : List Dbl) (f : List Int)
    (ha : g.length = a.length) (hf : g.length = f.length) (i : Nat) (hi : i < g.length) :
    (kf.processBatch g a f).1[i]? = some (kf.stateAfterRow g a f i).state_.position := by
  rw [processBatch_eq kf g a f ha hf (by omega)]
  simp only [processLoop_getElem?]
  by_cases h0 : i = 0
  · subst h0
    simp [stateAfterRow_zero, hi]
  · have : 1 ≤ i ∧ i < 1 + (g.length - 1) ∧
        i < ((List.replicate g.length (Dbl.fin 0)).set 0 kf.state_.position).length := by
      simp; omega
    rw [if_pos this]
    unfold KalmanFilter.stateAfterRow
    have e : i - 1 + 1 = i := by omega
    rw [e]


/-- C2 (per-row step rule of `process` and `processBatch`): on inputs of equal lengths and
for every index `1 ≤ i < n`, the state after row `i` is `update(gps[i])` of
`predict(acc[i])` of the state after row `i-1` when `fix[i] ≥ 1` and `gps[i]` is finite,
and `predict(acc[i])` of it alone otherwise, in particular when `fix[i] = 0`;
`displacement[i]` is the position of that state and the state left by the call is the one
after row `n-1`.  For `process` the loop is entered in the reset state, for
`processBatch` in the state the object holds. -/
theorem per_row_step_rule (kf : KalmanFilter) (gps acc : List Dbl) (fix : List Int) (i : Nat)
    (ha : gps.length = acc.length) (hf : gps.length = fix.length)
    (hi1 : 1 ≤ i) (hi : i < gps.length) :
    let s0 := kf.reset (initScan gps fix 0 gps.length (gps.getD 0 Dbl.nan))
    (s0.stateAfterRow gps acc fix i =
      if 1 ≤ fix.getD i 0 ∧ (gps.getD i Dbl.nan).isfinite = true then
        ((s0.stateAfterRow gps acc fix (i - 1)).predict (acc.getD i Dbl.nan)).update
          (gps.getD i Dbl.nan)
      else (s0.stateAfterRow gps acc fix (i - 1)).predict (acc.getD i Dbl.nan)) ∧
    (kf.process gps acc fix).1[i]? = some (s0.stateAfterRow gps acc fix i).state_.position ∧
    (kf.process gps acc fix).2 = s0.stateAfterRow gps acc fix (gps.length - 1) ∧
    (kf.stateAfterRow gps acc fix i =
      if 1 ≤ fix.getD i 0 ∧ (gps.getD i Dbl.nan).isfinite = true then
        ((kf.stateAfterRow gps acc fix (i - 1)).predict (acc.getD i Dbl.nan)).update
          (gps.getD i Dbl.nan)
      else (kf.stateAfterRow gps acc fix (i - 1)).predict (acc.getD i Dbl.nan)) ∧
    (kf.processBatch gps acc fix).1[i]? = some (kf.stateAfterRow gps acc fix i).state_.position ∧
    (kf.processBatch gps acc fix).2 = kf.stateAfterRow gps acc fix (gps.length - 1) ∧
    (fix.getD i 0 = 0 →
      s0.stateAfterRow gps acc fix i
        = (s0.stateAfterRow gps acc fix (i - 1)).predict (acc.getD i Dbl.nan) ∧
      kf.stateAfterRow gps acc fix i
        = (kf.stateAfterRow gps acc fix (i - 1)).predict (acc.getD i Dbl.nan)) := by
  intro s0
  have step : ∀ k : KalmanFilter, k.stateAfterRow gps acc fix i =
      if 1 ≤ fix.getD i 0 ∧ (gps.getD i Dbl.nan).isfinite = true then
        ((k.stateAfterRow gps acc fix (i - 1)).predict (acc.getD i Dbl.nan)).update
          (gps.getD i Dbl.nan)
      else (k.stateAfterRow gps acc fix (i - 1)).predict (acc.getD i Dbl.nan) := by
    intro k
    obtain ⟨m, rfl⟩ : ∃ m, i = m + 1 := ⟨i - 1, by omega⟩
    have e : 1 + m = m + 1 := by omega
    rw [stateAfterRow_succ, stepRow_eq, e, Nat.add_sub_cancel]
  have hp := process_eq_processBatch kf gps acc fix ha hf (by omega)
  refine ⟨step s0, ?_, ?_, step kf, ?_, ?_, ?_⟩
  · rw [hp]; exact processBatch_getElem? s0 gps acc fix ha hf i hi
  · rw [hp, processBatch_eq s0 gps acc fix ha hf (by omega)]
  · exact processBatch_getElem? kf gps acc fix ha hf i hi
  · rw [processBatch_eq kf gps acc fix ha hf (by omega)]
  · intro h0
    have hn : ¬ (1 ≤ fix.getD i 0 ∧ (gps.getD i Dbl.nan).isfinite = true) := by
      rw [h0]; simp
    constructor
    · rw [step s0, if_neg hn]
    · rw [step kf, if_neg hn]

/-- C3 (self-initialisation of `process`): on a non-empty input of equal lengths `n` the
result has length `n`; `displacement[0]` is exactly `gps[j]` for the smallest index `j`
with `fix[j] ≥ 1` and `gps[j]` finite, and `gps[0]` when no index qualifies; the filter
is reset to that value and no predict or update is applied for index 0 (the state after
row 0 is the reset state itself). -/
theorem process_self_initialization (kf : KalmanFilter) (gps acc : List Dbl) (fix : List Int)
    (ha : gps.length = acc.length) (hf : gps.length = fix.length) (hn : 0 < gps.length) :
    let s0 := kf.reset (initScan gps fix 0 gps.length (gps.getD 0 Dbl.nan))
    (kf.process gps acc fix).1.length = gps.length ∧
    (∀ j, j < gps.length → (1 ≤ fix.getD j 0 ∧ (gps.getD j Dbl.nan).isfinite = true) →
      (∀ m, m < j → ¬ (1 ≤ fix.getD m 0 ∧ (gps.getD m Dbl.nan).isfinite = true)) →
      (kf.process gps acc fix).1[0]? = some (gps.getD j Dbl.nan) ∧
      s0 = kf.reset (gps.getD j Dbl.nan)) ∧
    ((∀ j, j < gps.length → ¬ (1 ≤ fix.getD j 0 ∧ (gps.getD j Dbl.nan).isfinite = true)) →
      (kf.process gps acc fix).1[0]? = some (gps.getD 0 Dbl.nan) ∧
      s0 = kf.reset (gps.getD 0 Dbl.nan)) ∧
    s0.stateAfterRow gps acc fix 0 = s0 ∧
    (kf.process gps acc fix).1[0]? = some (s0.stateAfterRow gps acc fix 0).state_.position ∧
    (kf.process gps acc fix).2 = s0.stateAfterRow gps acc fix (gps.length - 1) := by
  intro s0
  have hp := process_eq_processBatch kf gps acc fix ha hf hn
  have h0 : (kf.process gps acc fix).1[0]?
      = some (initScan gps fix 0 gps.length (gps.getD 0 Dbl.nan)) := by
    rw [hp, processBatch_getElem? _ gps acc fix ha hf 0 hn]
    rfl
  refine ⟨?_, ?_, ?_, rfl, ?_, ?_⟩
  · rw [hp]; exact processBatch_length _ gps acc fix ha hf hn
  · intro j hj hv hm
    have e := initScan_first gps fix 0 gps.length (gps.getD 0 Dbl.nan) j (Nat.zero_le _)
      (by omega) hv (fun m _ h2 => hm m h2)
    exact ⟨by rw [h0, e], by simp only [s0, e]⟩
  · intro hall
    have e := initScan_none gps fix 0 gps.length (gps.getD 0 Dbl.nan)
      (fun j _ h2 => hall j (by omega))
    exact ⟨by rw [h0, e], by simp only [s0, e]⟩
  · rw [h0]; rfl
  · rw [hp, processBatch_eq s0 gps acc fix ha hf hn]

/-- C4 (continuation semantics of `processBatch`): from every state `s` and on every
non-empty input of equal lengths, `processBatch` returns `displacement[0] = s.position`
with the state still `s` after index 0 (no reset), then runs the loop body shared with
`process` for the indices `≥ 1`; so `process`, started from any state `kf`, returns the
same displacements and leaves the same state as `reset` to the value of the
initialisation scan followed by `processBatch`. -/
theorem processBatch_continuation (s kf : KalmanFilter) (gps acc : List Dbl) (fix : List Int)
    (ha : gps.length = acc.length) (hf : gps.length = fix.length) (hn : 0 < gps.length) :
    (s.processBatch gps acc fix).1.length = gps.length ∧
    (s.processBatch gps acc fix).1[0]? = some s.state_.position ∧
    s.stateAfterRow gps acc fix 0 = s ∧
    (∀ i, i < gps.length →
      (s.processBatch gps acc fix).1[i]? = some (s.stateAfterRow gps acc fix i).state_.position) ∧
    (∀ i, i + 1 < gps.length →
      s.stateAfterRow gps acc fix (i + 1)
        = (s.stateAfterRow gps acc fix i).stepRow gps acc fix (i + 1)) ∧
    (s.processBatch gps acc fix).2 = s.stateAfterRow gps acc fix (gps.length - 1) ∧
    kf.process gps acc fix
      = (kf.reset (initScan gps fix 0 gps.length (gps.getD 0 Dbl.nan))).processBatch
          gps acc fix := by
  refine ⟨processBatch_length s gps acc fix ha hf hn, ?_, rfl, ?_, ?_, ?_,
    process_eq_processBatch kf gps acc fix ha hf hn⟩
  · rw [processBatch_getElem? s gps acc fix ha hf 0 hn]; rfl
  · intro i hi; exact processBatch_getElem? s gps acc fix ha hf i hi
  · intro i _
    rw [stateAfterRow_succ, Nat.add_comm 1 i]
  · rw [processBatch_eq s gps acc fix ha hf hn]


/-- Witness for C2 on a three-row input, at the row without a fix. -/
theorem per_row_step_rule_witness :
    demoGps.length = demoAcc.length ∧ demoGps.length = demoFix.length ∧ 1 ≤ 2 ∧
    2 < demoGps.length ∧
    (demoFilter.process demoGps demoAcc demoFix).1[2]? =
      some (((demoFilter.reset (initScan demoGps demoFix 0 demoGps.length
        (demoGps.getD 0 Dbl.nan))).stateAfterRow demoGps demoAcc demoFix 2).state_.position) :=
  ⟨rfl, rfl, by decide, by decide,
    (per_row_step_rule demoFilter demoGps demoAcc demoFix 2 rfl rfl (by decide) (by decide)).2.1⟩

/-- Witness for C3: the first row carries NaN, so the scan picks row 1. -/
theorem process_self_initialization_witness :
    demoGps.length = demoAcc.length ∧ demoGps.length = demoFix.length ∧ 0 < demoGps.length ∧
    (demoFilter.process demoGps demoAcc demoFix).1[0]? = some (Dbl.fin 10) :=
  ⟨rfl, rfl, by decide,
    ((process_self_initialization demoFilter demoGps demoAcc demoFix rfl rfl (by decide)).2.1 1
      (by decide) (by decide)
      (fun m hm => by
        have : m = 0 := by omega
        subst this
        decide)).1⟩

/-- Witness for C4 on a three-row input. -/
theorem processBatch_continuation_witness :
    demoGps.length = demoAcc.length ∧ demoGps.length = demoFix.length ∧ 0 < demoGps.length ∧
    (demoFilter.processBatch demoGps demoAcc demoFix).1[0]? = some demoFilter.state_.position :=
  ⟨rfl, rfl, by decide,
    (processBatch_continuation demoFilter demoFilter demoGps demoAcc demoFix rfl rfl
      (by decide)).2.1⟩

/-! ## Invariants of the covariance -/

/-- The symmetry invariant is preserved by `update`, whatever the parameters. -/
theorem symInv_update (kf : KalmanFilter) (z : Dbl) (h : SymInv kf.covariance_) :
    SymInv (kf.update z).covariance_ := by
  obtain ⟨P, st, cov⟩ := kf
  obtain ⟨Q, R, dt⟩ := P
  rcases h with ⟨a, c, d, hc⟩ | ⟨h0, h1⟩
  · simp only at hc
    subst hc
    cases R with
    | fin r =>
      by_cases hS : a + r = 0
      · right
        have e := update_zero_divisor a c d
        simp only [KalmanFilter.update, Dbl.fin_add_fin, hS, lit_one, lit_zero]
        exact e
      · left
        refine ⟨(1 - a / (a + r)) * a + 0 * c, (1 - a / (a + r)) * c + 0 * d,
          (-(c / (a + r))) * c + 1 * d, ?_⟩
        simp only [KalmanFilter.update, Dbl.fin_add_fin, Dbl.fin_div_fin_of_ne _ _ hS,
          Dbl.fin_sub_fin, Dbl.fin_mul_fin, Dbl.neg_fin, lit_one, lit_zero]
        norm_num
        field_simp
        ring
    | pinf =>
      left
      refine ⟨a, c, d, ?_⟩
      simp [KalmanFilter.update]
    | ninf =>
      left
      refine ⟨a, c, d, ?_⟩
      simp [KalmanFilter.update]
    | nan =>
      right
      simp [KalmanFilter.update]
  · right
    obtain ⟨p00, p01, p10, p11⟩ := cov
    simp only at h0 h1
    subst h1
    have hS : (p00 + R).isfinite = false := Dbl.isfinite_add_left _ _ h0
    have hK0 : p00 / (p00 + R) = Dbl.nan := Dbl.div_of_not_finite _ _ h0 hS
    have hK1 : (-(p01 / (p00 + R))) * p00 = Dbl.nan := by
      rcases Dbl.div_not_finite_cases p01 (p00 + R) hS with e | e
      · rw [e]
        have : -Dbl.fin 0 = Dbl.fin 0 := by simp
        rw [this, Dbl.zero_mul_not_finite _ h0]
      · rw [e]; simp
    simp only [KalmanFilter.update, hK0, hK1]
    simp

/-- The symmetry invariant is preserved by `predict` when `dt = 0.01`. -/
theorem symInv_predict (kf : KalmanFilter) (u : Dbl) (hdt : kf.params_.dt = Dbl.fin 0.01)
    (h : SymInv kf.covariance_) : SymInv (kf.predict u).covariance_ := by
  obtain ⟨P, st, cov⟩ := kf
  obtain ⟨Q, R, dt⟩ := P
  simp only at hdt
  subst hdt
  rcases h with ⟨a, c, d, hc⟩ | ⟨h0, h1⟩
  · simp only at hc
    subst hc
    cases Q with
    | fin q =>
      left
      simp only [KalmanFilter.predict, Dbl.fin_add_fin, Dbl.fin_mul_fin]
      exact ⟨_, _, _, rfl⟩
    | pinf => right; simp [KalmanFilter.predict]
    | ninf => right; simp [KalmanFilter.predict]
    | nan => right; simp [KalmanFilter.predict]
  · right
    simp only [KalmanFilter.predict]
    exact ⟨Dbl.isfinite_add_left _ _ (Dbl.isfinite_add_left _ _ (Dbl.isfinite_add_left _ _ h0)),
      by rw [h1]⟩


theorem quadratic_form_nonneg (a b d t : ℚ) (ha : 0 ≤ a) (hd : 0 ≤ d) (h : b * b ≤ a * d) :
    0 ≤ a + t * (b + b) + t * t * d := by
  rcases hd.eq_or_lt with h0 | hpos
  · have hb : b = 0 := by
      have : b * b ≤ 0 := by rw [← h0] at h; simpa using h
      nlinarith [mul_self_nonneg b]
    subst hb
    rw [← h0]
    simpa using ha
  · have key : 0 ≤ d * (a + t * (b + b) + t * t * d) := by
      nlinarith [mul_self_nonneg (b + t * d)]
    exact nonneg_of_mul_nonneg_right key hpos

theorem psdInv_predict (kf : KalmanFilter) (u : Dbl) (q : ℚ) (hq : 0 ≤ q)
    (hQ : kf.params_.Q = Dbl.fin q) (hdt : kf.params_.dt = Dbl.fin 0.01)
    (h : PsdInv kf.covariance_) : PsdInv (kf.predict u).covariance_ := by
  obtain ⟨P, st, cov⟩ := kf
  obtain ⟨Q, R, dt⟩ := P
  simp only at hQ hdt
  subst hQ hdt
  obtain ⟨a, b, d, hc, ha, hd, hdet⟩ := h
  simp only at hc
  subst hc
  simp only [KalmanFilter.predict, Dbl.fin_add_fin, Dbl.fin_mul_fin]
  have hX := quadratic_form_nonneg a b d 0.01 ha hd hdet
  refine ⟨_, _, _, rfl, ?_, ?_, ?_⟩
  · linarith
  · linarith
  · nlinarith [mul_nonneg hq hX, mul_nonneg hq hd, mul_self_nonneg q]

theorem psdInv_update (kf : KalmanFilter) (z : Dbl) (r : ℚ) (hr : 0 < r)
    (hR : kf.params_.R = Dbl.fin r) (h : PsdInv kf.covariance_) :
    PsdInv (kf.update z).covariance_ := by
  obtain ⟨P, st, cov⟩ := kf
  obtain ⟨Q, R, dt⟩ := P
  simp only at hR
  subst hR
  obtain ⟨a, b, d, hc, ha, hd, hdet⟩ := h
  simp only at hc
  subst hc
  have hS : 0 < a + r := by linarith
  have hS0 : a + r ≠ 0 := hS.ne'
  simp only [KalmanFilter.update, Dbl.fin_add_fin, Dbl.fin_div_fin_of_ne _ _ hS0,
    Dbl.fin_sub_fin, Dbl.fin_mul_fin, Dbl.neg_fin, lit_one, lit_zero]
  have e00 : (1 - a / (a + r)) * a + 0 * b = a * r / (a + r) := by field_simp; ring
  have e01 : (1 - a / (a + r)) * b + 0 * d = b * r / (a + r) := by field_simp; ring
  have e10 : -(b / (a + r)) * a + 1 * b = b * r / (a + r) := by field_simp; ring
  have e11 : -(b / (a + r)) * b + 1 * d = (d * (a + r) - b * b) / (a + r) := by
    field_simp; ring
  rw [e00, e01, e10, e11]
  have hnum : 0 ≤ d * (a + r) - b * b := by nlinarith [mul_nonneg hd hr.le]
  refine ⟨_, _, _, rfl, div_nonneg (mul_nonneg ha hr.le) hS.le, div_nonneg hnum hS.le, ?_⟩
  rw [div_mul_div_comm, div_mul_div_comm]
  apply div_le_div_of_nonneg_right _ (mul_pos hS hS).le
  have h1 : 0 ≤ (a * d - b * b) * (r * (a + r)) :=
    mul_nonneg (by linarith) (mul_nonneg hr.le hS.le)
  nlinarith

theorem reachable_params (P : KalmanParams) (kf : KalmanFilter) (h : Reachable P kf) :
    kf.params_ = P := by
  induction h with
  | construct => rfl
  | reset x _ ih => exact ih
  | predict u _ ih => exact ih
  | update z _ ih => exact ih

theorem symInv_identity :
    SymInv ⟨Dbl.fin 1.0, Dbl.fin 0.0, Dbl.fin 0.0, Dbl.fin 1.0⟩ :=
  Or.inl ⟨_, _, _, rfl⟩

theorem psdInv_identity :
    PsdInv ⟨Dbl.fin 1.0, Dbl.fin 0.0, Dbl.fin 0.0, Dbl.fin 1.0⟩ :=
  ⟨_, _, _, rfl, by norm_num, by norm_num, by norm_num⟩

theorem reachable_symInv (Q R : Dbl) (kf : KalmanFilter)
    (h : Reachable (KalmanParams.KalmanParams Q R) kf) : SymInv kf.covariance_ := by
  induction h with
  | construct => exact symInv_identity
  | reset x _ _ => exact symInv_identity
  | predict u hk ih =>
    exact symInv_predict _ u (by rw [reachable_params _ _ hk]; rfl) ih
  | update z _ ih => exact symInv_update _ z ih

theorem reachable_psdInv (q r : ℚ) (hq : 0 ≤ q) (hr : 0 < r) (kf : KalmanFilter)
    (h : Reachable (KalmanParams.KalmanParams (Dbl.fin q) (Dbl.fin r)) kf) :
    PsdInv kf.covariance_ := by
  induction h with
  | construct => exact psdInv_identity
  | reset x _ _ => exact psdInv_identity
  | predict u hk ih =>
    exact psdInv_predict _ u q hq (by rw [reachable_params _ _ hk]; rfl)
      (by rw [reachable_params _ _ hk]; rfl) ih
  | update z hk ih =>
    exact psdInv_update _ z r hr (by rw [reachable_params _ _ hk]; rfl) ih

theorem symInv_symm (c : KalmanCovariance) (h : SymInv c) : c.p01 = c.p10 := by
  rcases h with ⟨a, b, d, rfl⟩ | ⟨_, h⟩
  · rfl
  · exact h

theorem reachable_stepRow (P : KalmanParams) (kf : KalmanFilter) (g a : List Dbl)
    (f : List Int) (i : Nat) (h : Reachable P kf) : Reachable P (kf.stepRow g a f i) := by
  unfold KalmanFilter.stepRow
  simp only
  split
  · exact Reachable.update _ (Reachable.predict _ h)
  · exact Reachable.predict _ h

theorem reachable_processLoop (P : KalmanParams) (g a : List Dbl) (f : List Int) (i k : Nat)
    (s : KalmanFilter × List Dbl) (h : Reachable P s.1) :
    Reachable P (KalmanFilter.processLoop g a f i k s).1 := by
  induction k with
  | zero => exact h
  | succ k ih => rw [processLoop_succ]; exact reachable_stepRow P _ g a f _ ih

theorem reachable_processBatch (P : KalmanParams) (kf : KalmanFilter) (g a : List Dbl)
    (f : List Int) (h : Reachable P kf) : Reachable P (kf.processBatch g a f).2 := by
  unfold KalmanFilter.processBatch
  simp only
  split
  · exact h
  · split
    · exact h
    · exact reachable_processLoop P g a f _ _ _ h

theorem reachable_process (P : KalmanParams) (kf : KalmanFilter) (g a : List Dbl)
    (f : List Int) (h : Reachable P kf) : Reachable P (kf.process g a f).2 := by
  unfold KalmanFilter.process
  simp only
  split
  · exact h
  · split
    · exact h
    · exact reachable_processLoop P g a f _ _ _ (Reachable.reset _ h)

theorem reachable_degenerate : Reachable noiseFree degenerate :=
  Reachable.update _ (Reachable.predict _ (Reachable.update _ (Reachable.predict _
    (Reachable.update _ (Reachable.predict _ Reachable.construct)))))

/-- C8 (covariance symmetry invariant, exact arithmetic): `predict` keeps `p01 = p10` from
every state; `update` keeps it from every state with finite covariance entries, whatever
`R` is; so every state reachable from construction or `reset` by `predict` / `update`
calls has `p01 = p10`, for every `Q`, `R`, and so has the state left by any `process` or
`processBatch` run started from such a state.  For finite `Q ≥ 0`, `R > 0` the two
entries are moreover finite, so the program's comparison `p01 == p10` holds. -/
theorem covariance_symmetry_invariant (Q R u z : Dbl) (kf : KalmanFilter)
    (gps acc : List Dbl) (fix : List Int) :
    (kf.covariance_.p01 = kf.covariance_.p10 →
      (kf.predict u).covariance_.p01 = (kf.predict u).covariance_.p10) ∧
    ((∃ a b c d : ℚ, kf.covariance_ = ⟨Dbl.fin a, Dbl.fin b, Dbl.fin c, Dbl.fin d⟩) →
      kf.covariance_.p01 = kf.covariance_.p10 →
      (kf.update z).covariance_.p01 = (kf.update z).covariance_.p10) ∧
    (Reachable (KalmanParams.KalmanParams Q R) kf →
      kf.covariance_.p01 = kf.covariance_.p10 ∧
      (kf.process gps acc fix).2.covariance_.p01 = (kf.process gps acc fix).2.covariance_.p10 ∧
      (kf.processBatch gps acc fix).2.covariance_.p01
        = (kf.processBatch gps acc fix).2.covariance_.p10) ∧
    (∀ q r : ℚ, 0 ≤ q → 0 < r →
      Reachable (KalmanParams.KalmanParams (Dbl.fin q) (Dbl.fin r)) kf →
      Dbl.eq kf.covariance_.p01 kf.covariance_.p10) := by
  refine ⟨?_, ?_, ?_, ?_⟩
  · intro h
    simp only [KalmanFilter.predict, h]
  · rintro ⟨a, b, c, d, hc⟩ h
    rw [hc] at h
    simp only at h
    refine symInv_symm _ (symInv_update kf z (Or.inl ⟨a, b, d, ?_⟩))
    rw [hc, ← h]
  · intro h
    exact ⟨symInv_symm _ (reachable_symInv Q R kf h),
      symInv_symm _ (reachable_symInv Q R _ (reachable_process _ kf gps acc fix h)),
      symInv_symm _ (reachable_symInv Q R _ (reachable_processBatch _ kf gps acc fix h))⟩
  · intro q r hq hr h
    obtain ⟨a, b, d, hc, _⟩ := reachable_psdInv q r hq hr kf h
    rw [hc]
    exact ⟨by simp, rfl⟩

/-- Witness for C8 at the state reached after one predict and one update with `Q = 0.1`,
`R = 0.01`. -/
theorem covariance_symmetry_invariant_witness :
    Reachable (KalmanParams.KalmanParams (Dbl.fin 0.1) (Dbl.fin 0.01))
      ((demoFilter.predict (Dbl.fin 0)).update (Dbl.fin 1)) ∧
    ((demoFilter.predict (Dbl.fin 0)).update (Dbl.fin 1)).covariance_.p01
      = ((demoFilter.predict (Dbl.fin 0)).update (Dbl.fin 1)).covariance_.p10 :=
  ⟨Reachable.update _ (Reachable.predict _ Reachable.construct),
    ((covariance_symmetry_invariant (Dbl.fin 0.1) (Dbl.fin 0.01) (Dbl.fin 0) (Dbl.fin 0)
      ((demoFilter.predict (Dbl.fin 0)).update (Dbl.fin 1)) [] [] []).2.2.1
      (Reachable.update _ (Reachable.predict _ Reachable.construct))).1⟩

/-- C9 as amended (non-negative diagonal, exact arithmetic): for finite `Q ≥ 0` and
`R > 0` (`dt = 0.01`), every state reachable from construction or `reset` by any sequence
of `predict` / `update` calls has finite covariance entries with `p00 ≥ 0`, `p11 ≥ 0` and
`p00*p11 ≥ p01*p10`. -/
theorem covariance_psd_invariant (q r : ℚ) (hq : 0 ≤ q) (hr : 0 < r) (kf : KalmanFilter)
    (h : Reachable (KalmanParams.KalmanParams (Dbl.fin q) (Dbl.fin r)) kf) :
    (∃ a b c d : ℚ, kf.covariance_ = ⟨Dbl.fin a, Dbl.fin b, Dbl.fin c, Dbl.fin d⟩ ∧
      0 ≤ a ∧ 0 ≤ d ∧ b * c ≤ a * d) ∧
    Dbl.fin 0 ≤ kf.covariance_.p00 ∧ Dbl.fin 0 ≤ kf.covariance_.p11 ∧
    kf.covariance_.p01 * kf.covariance_.p10 ≤ kf.covariance_.p00 * kf.covariance_.p11 := by
  obtain ⟨a, b, d, hc, ha, hd, hdet⟩ := reachable_psdInv q r hq hr kf h
  rw [hc]
  exact ⟨⟨a, b, b, d, rfl, ha, hd, hdet⟩, ha, hd, hdet⟩

/-- Witness for C9 as amended, after one predict and one update with `Q = 0.1`, `R = 0.01`. -/
theorem covariance_psd_invariant_witness :
    (0 : ℚ) ≤ 1 / 10 ∧ (0 : ℚ) < 1 / 100 ∧
    Reachable (KalmanParams.KalmanParams (Dbl.fin (1 / 10)) (Dbl.fin (1 / 100)))
      (((KalmanFilter.KalmanFilter (KalmanParams.KalmanParams (Dbl.fin (1 / 10))
        (Dbl.fin (1 / 100)))).predict (Dbl.fin 0)).update (Dbl.fin 1)) ∧
    Dbl.fin 0 ≤ (((KalmanFilter.KalmanFilter (KalmanParams.KalmanParams (Dbl.fin (1 / 10))
        (Dbl.fin (1 / 100)))).predict (Dbl.fin 0)).update (Dbl.fin 1)).covariance_.p00 :=
  ⟨by norm_num, by norm_num, Reachable.update _ (Reachable.predict _ Reachable.construct),
    (covariance_psd_invariant (1 / 10) (1 / 100) (by norm_num) (by norm_num) _
      (Reachable.update _ (Reachable.predict _ Reachable.construct))).2.1⟩

/-- C9 as stated fails for `Q = 0`, `R = 0`: after construction and three rounds
`predict(0)`, `update(0)` the covariance is zero before the last `update`, which divides
`0 / 0`; every entry is NaN and neither `p00 >= 0` nor `p11 >= 0` holds. -/
theorem covariance_psd_fails_without_noise :
    Dbl.fin 0 ≤ noiseFree.Q ∧ Dbl.fin 0 ≤ noiseFree.R ∧ noiseFree.dt = Dbl.fin 0.01 ∧
    Reachable noiseFree degenerate ∧
    degenerate.covariance_ = ⟨Dbl.nan, Dbl.nan, Dbl.nan, Dbl.nan⟩ ∧
    ¬ (Dbl.fin 0 ≤ degenerate.covariance_.p00) ∧ ¬ (Dbl.fin 0 ≤ degenerate.covariance_.p11) :=
  ⟨by decide!, by decide!, rfl, reachable_degenerate, by decide!, by decide!, by decide!⟩

/-! ## The drivers: reading a prefix of the input -/

theorem getD_take {α : Type} (l : List α) (m j : Nat) (d : α) (h : j < m) :
    (l.take m).getD j d = l.getD j d := by
  simp [List.getD_eq_getElem?_getD, List.getElem?_take, h]

theorem stepRow_take (kf : KalmanFilter) (g a : List Dbl) (f : List Int) (m i : Nat)
    (h : i < m) :
    kf.stepRow (g.take m) (a.take m) (f.take m) i = kf.stepRow g a f i := by
  unfold KalmanFilter.stepRow
  rw [getD_take g m i _ h, getD_take a m i _ h, getD_take f m i _ h]

theorem stateAfterRow_take (kf : KalmanFilter) (g a : List Dbl) (f : List Int) (m i : Nat)
    (h : i < m) :
    kf.stateAfterRow (g.take m) (a.take m) (f.take m) i = kf.stateAfterRow g a f i := by
  induction i with
  | zero => rfl
  | succ i ih =>
    rw [stateAfterRow_succ, stateAfterRow_succ, ih (by omega), stepRow_take _ g a f m _ (by omega)]

theorem initScan_take (g : List Dbl) (f : List Int) (m i k : Nat) (d : Dbl) (h : i + k ≤ m) :
    initScan (g.take m) (f.take m) i k d = initScan g f i k d := by
  induction k generalizing i with
  | zero => rfl
  | succ k ih =>
    rw [initScan, initScan, getD_take g m i _ (by omega), getD_take f m i _ (by omega),
      ih (i + 1) (by omega)]

/-- Scanning further changes nothing once a qualifying index has been met, or when no index
qualifies at all. -/
theorem initScan_extend (g : List Dbl) (f : List Int) (i k e : Nat) (d : Dbl)
    (h : (∃ j, i ≤ j ∧ j < i + k ∧ 1 ≤ f.getD j 0 ∧ (g.getD j Dbl.nan).isfinite = true) ∨
      (∀ j, i ≤ j → j < i + (k + e) →
        ¬ (1 ≤ f.getD j 0 ∧ (g.getD j Dbl.nan).isfinite = true))) :
    initScan g f i (k + e) d = initScan g f i k d := by
  rcases h with ⟨j, hij, hjk, hv⟩ | hnone
  · induction k generalizing i with
    | zero => omega
    | succ k ih =>
      have e1 : k + 1 + e = (k + e) + 1 := by omega
      rw [e1, initScan, initScan]
      by_cases hv0 : validFix (f.getD i 0) (g.getD i Dbl.nan) = true
      · rw [if_pos hv0, if_pos hv0]
      · rw [if_neg hv0, if_neg hv0]
        have hne : i ≠ j := by
          rintro rfl
          exact hv0 ((validFix_iff _ _).2 hv)
        exact ih (i + 1) (by omega) (by omega)
  · rw [initScan_none g f i (k + e) d hnone,
      initScan_none g f i k d (fun j h1 h2 => hnone j h1 (by omega))]

/-! ## The output loops -/

theorem makeOutput_length (n : Nat) (dt : List String) (dy dz : List Dbl) :
    (makeOutput n dt dy dz).length = n := by
  simp [makeOutput]

theorem makeOutput_take (n m : Nat) (dt : List String) (dy dz : List Dbl) :
    (makeOutput n dt dy dz).take m = makeOutput (min m n) dt dy dz := by
  simp [makeOutput, ← List.map_take, List.take_range]

theorem makeOutput_datetime (n : Nat) (dt : List String) (dy dz : List Dbl) :
    (makeOutput n dt dy dz).map (fun r => r.datetime) = (List.range n).map (fun i => dt.getD i "") := by
  simp [makeOutput]

theorem makeOutput_displacement_y (n : Nat) (dt : List String) (dy dz : List Dbl) :
    (makeOutput n dt dy dz).map (fun r => r.displacement_y)
      = (List.range n).map (fun i => dy.getD i Dbl.nan) := by
  simp [makeOutput]

theorem makeOutput_displacement_z (n : Nat) (dt : List String) (dy dz : List Dbl) :
    (makeOutput n dt dy dz).map (fun r => r.displacement_z)
      = (List.range n).map (fun i => dz.getD i Dbl.nan) := by
  simp [makeOutput]

/-! ## The batch loop -/

theorem batchBody_all_output (rows : List InputData) (c n : Nat) (si : Bool) (iok : Nat → Bool)
    (i : Nat) (s : BatchState) :
    ∃ rest, (batchBody rows c n si iok i s).all_output_data = s.all_output_data ++ rest :=
  ⟨_, rfl⟩

theorem batchLoop_all_output (rows : List InputData) (c n : Nat) (si : Bool) (iok : Nat → Bool)
    (i k : Nat) (s : BatchState) :
    ∃ rest, (batchLoop rows c n si iok i k s).all_output_data = s.all_output_data ++ rest := by
  induction k generalizing i s with
  | zero => exact ⟨[], by simp [batchLoop]⟩
  | succ k ih =>
    obtain ⟨r1, h1⟩ := ih (i + 1) (batchBody rows c n si iok i s)
    obtain ⟨r0, h0⟩ := batchBody_all_output rows c n si iok i s
    exact ⟨r0 ++ r1, by rw [batchLoop, h1, h0, List.append_assoc]⟩


/-- Row `i` of the output loop. -/
theorem makeOutput_getElem? (n i : Nat) (dt : List String) (dy dz : List Dbl) (h : i < n) :
    (makeOutput n dt dy dz)[i]? =
      some ⟨dt.getD i "", dy.getD i Dbl.nan, dz.getD i Dbl.nan⟩ := by
  simp [makeOutput, List.getElem?_range h]

theorem getD_of_getElem? {α : Type} (l : List α) (i : Nat) (d x : α) (h : l[i]? = some x) :
    l.getD i d = x := by
  simp [List.getD_eq_getElem?_getD, h]

/-- On one axis, the displacements of the first chunk, processed by `processBatch` after the
reset to the value scanned in the chunk, are those of `process` on the whole sequence. -/
theorem first_chunk_axis (kf : KalmanFilter) (g a : List Dbl) (f : List Int) (c i : Nat)
    (ha : g.length = a.length) (hf : g.length = f.length) (hi : i < min c g.length)
    (hfix : FirstChunkFix g f c) :
    ((kf.reset (initScan (g.take (min c g.length)) (f.take (min c g.length)) 0
        (g.take (min c g.length)).length ((g.take (min c g.length)).getD 0 Dbl.nan))).processBatch
      (g.take (min c g.length)) (a.take (min c g.length)) (f.take (min c g.length))).1.getD i Dbl.nan
      = (kf.process g a f).1.getD i Dbl.nan := by
  have hk : min c g.length ≤ g.length := Nat.min_le_right _ _
  have hlen : (g.take (min c g.length)).length = min c g.length := by
    rw [List.length_take]; omega
  have hla : (g.take (min c g.length)).length = (a.take (min c g.length)).length := by
    rw [List.length_take, List.length_take, ha]
  have hlf : (g.take (min c g.length)).length = (f.take (min c g.length)).length := by
    rw [List.length_take, List.length_take, hf]
  have hinit : initScan (g.take (min c g.length)) (f.take (min c g.length)) 0
        (g.take (min c g.length)).length ((g.take (min c g.length)).getD 0 Dbl.nan)
      = initScan g f 0 g.length (g.getD 0 Dbl.nan) := by
    rw [hlen, initScan_take g f _ 0 _ _ (by omega), getD_take g _ 0 _ (by omega)]
    have e : g.length = min c g.length + (g.length - min c g.length) := by omega
    conv_rhs => rw [e]
    symm
    apply initScan_extend
    rcases hfix with ⟨j, h1, h2, h3⟩ | hnone
    · exact Or.inl ⟨j, Nat.zero_le _, by omega, h3⟩
    · exact Or.inr (fun j _ h2 => hnone j (by omega))
  rw [hinit, process_eq_processBatch kf g a f ha hf (by omega)]
  rw [getD_of_getElem? _ _ _ _ (processBatch_getElem? _ _ _ _ hla hlf i (by omega)),
    getD_of_getElem? _ _ _ _ (processBatch_getElem? _ g a f ha hf i (by omega)),
    stateAfterRow_take _ g a f _ i hi]

/-- First iteration of the batch loop: the rows appended are those of the first chunk. -/
theorem batchBody_first (rows : List InputData) (c : Nat) (si : Bool) (iok : Nat → Bool)
    (fy fz : KalmanFilter) (hc : c < SIZE_T_MOD) (hn : rows.length < SIZE_T_MOD) :
    (batchBody rows c rows.length si iok 0
        { filter_y := fy, filter_z := fz, all_output_data := [], is_first_batch := true,
          intermediate := [] }).all_output_data
      = makeOutput (min c rows.length)
          ((rows.take (min c rows.length)).map (fun row => row.datetime))
          ((fy.reset (initScan ((rows.map (fun row => row.gps_y)).take (min c rows.length))
              ((rows.map (fun row => row.fix)).take (min c rows.length)) 0
              ((rows.map (fun row => row.gps_y)).take (min c rows.length)).length
              (((rows.map (fun row => row.gps_y)).take (min c rows.length)).getD 0 Dbl.nan))).processBatch
            ((rows.map (fun row => row.gps_y)).take (min c rows.length))
            ((rows.map (fun row => row.acc_y)).take (min c rows.length))
            ((rows.map (fun row => row.fix)).take (min c rows.length))).1
          ((fz.reset (initScan ((rows.map (fun row => row.gps_z)).take (min c rows.length))
              ((rows.map (fun row => row.fix)).take (min c rows.length)) 0
              ((rows.map (fun row => row.gps_z)).take (min c rows.length)).length
              (((rows.map (fun row => row.gps_z)).take (min c rows.length)).getD 0 Dbl.nan))).processBatch
            ((rows.map (fun row => row.gps_z)).take (min c rows.length))
            ((rows.map (fun row => row.acc_z)).take (min c rows.length))
            ((rows.map (fun row => row.fix)).take (min c rows.length))).1 := by
  have h0 : 0 * c % SIZE_T_MOD = 0 := by simp
  have h1 : (0 + c) % SIZE_T_MOD = c := by rw [Nat.zero_add, Nat.mod_eq_of_lt hc]
  have h2 : (min c rows.length + SIZE_T_MOD - 0) % SIZE_T_MOD = min c rows.length := by
    rw [Nat.sub_zero, Nat.add_mod_right, Nat.mod_eq_of_lt]
    exact lt_of_le_of_lt (Nat.min_le_right _ _) hn
  simp only [batchBody, h0, h1, h2, List.drop_zero, if_true, List.nil_append, List.map_take]


/-- C1 as stated fails.  On 21 rows with `chunk_size = 20`, `Q = 0.1`, `R = 0.01`:
with no fix anywhere and an acceleration on row 20 only, the single-pass run moves at row
20 (`1/20000`) while the batched run repeats the position of row 19 (`0`), the first row
of the second chunk taking no step; with the only fix on row 20, the single-pass run
starts from its measurement (`5`) while the batched run, scanning the first chunk only,
starts from `gps[0] = 0`; with `chunk_size = 2^64 - 1` the count of batches
`(21 + chunk_size - 1) / chunk_size` wraps to `19 / chunk_size = 0` and the batched run
writes no row at all. -/
theorem batched_differs_from_single_pass :
    20 ≤ rowsPush.length ∧ 20 ≤ rowsLateFix.length ∧
    (process_fusion_batch_internal (some rowsPush) true (fun _ => true) (Dbl.fin 0.1)
        (Dbl.fin 0.01) 20 false).output_file
      ≠ (process_fusion_internal (some rowsPush) true (Dbl.fin 0.1) (Dbl.fin 0.01)).output_file ∧
    (process_fusion_batch_internal (some rowsLateFix) true (fun _ => true) (Dbl.fin 0.1)
        (Dbl.fin 0.01) 20 false).output_file
      ≠ (process_fusion_internal (some rowsLateFix) true (Dbl.fin 0.1)
          (Dbl.fin 0.01)).output_file ∧
    (process_fusion_internal (some rowsPush) true (Dbl.fin 0.1) (Dbl.fin 0.01)).output_file.map
        (fun l => (l.map (fun r => r.displacement_y))[20]?) = some (some (Dbl.fin (1 / 20000))) ∧
    (process_fusion_batch_internal (some rowsPush) true (fun _ => true) (Dbl.fin 0.1)
        (Dbl.fin 0.01) 20 false).output_file.map
        (fun l => (l.map (fun r => r.displacement_y))[20]?) = some (some (Dbl.fin 0)) ∧
    (process_fusion_internal (some rowsLateFix) true (Dbl.fin 0.1)
        (Dbl.fin 0.01)).output_file.map
        (fun l => (l.map (fun r => r.displacement_y))[0]?) = some (some (Dbl.fin 5)) ∧
    (process_fusion_batch_internal (some rowsLateFix) true (fun _ => true) (Dbl.fin 0.1)
        (Dbl.fin 0.01) 20 false).output_file.map
        (fun l => (l.map (fun r => r.displacement_y))[0]?) = some (some (Dbl.fin 0)) ∧
    process_fusion_batch_internal (some rowsPush) true (fun _ => true) (Dbl.fin 0.1)
        (Dbl.fin 0.01) 18446744073709551615 false
      = ⟨FUSION_SUCCESS, some [], [],
          some (KalmanFilter.KalmanFilter (KalmanParams.KalmanParams (Dbl.fin 0.1) (Dbl.fin 0.01))),
          some (KalmanFilter.KalmanFilter
            (KalmanParams.KalmanParams (Dbl.fin 0.1) (Dbl.fin 0.01)))⟩ := by
  refine ⟨by decide, by decide, by decide!, by decide!, by decide!, by decide!, by decide!,
    by decide!, by decide!⟩


/-- C10 (minimum-row gate): on a parsed input of fewer than 20 rows both drivers return
`FUSION_ERROR_INSUFFICIENT_DATA` (-3), for every chunk size and every emit flag, write
neither the output file nor any intermediate file, and construct no estimator (so no
estimation step is performed). -/
theorem minimum_row_gate (rows : List InputData) (h : rows.length < 20) (save_ok : Bool)
    (intermediate_ok : Nat → Bool) (Q R : Dbl) (batch_size : Nat) (save_intermediate : Bool) :
    FUSION_ERROR_INSUFFICIENT_DATA = -3 ∧
    process_fusion_internal (some rows) save_ok Q R
      = ⟨FUSION_ERROR_INSUFFICIENT_DATA, none, [], none, none⟩ ∧
    process_fusion_batch_internal (some rows) save_ok intermediate_ok Q R batch_size
        save_intermediate
      = ⟨FUSION_ERROR_INSUFFICIENT_DATA, none, [], none, none⟩ := by
  refine ⟨rfl, ?_, ?_⟩
  · simp only [process_fusion_internal, h, if_true]
  · simp only [process_fusion_batch_internal, h, if_true]

/-- Witness for C10 on 19 rows. -/
theorem minimum_row_gate_witness :
    (List.replicate 19 (⟨"t", Dbl.fin 0, Dbl.fin 0, Dbl.fin 0, Dbl.fin 0, 1⟩ : InputData)).length
      < 20 ∧
    process_fusion_batch_internal
        (some (List.replicate 19 (⟨"t", Dbl.fin 0, Dbl.fin 0, Dbl.fin 0, Dbl.fin 0, 1⟩ : InputData)))
        true (fun _ => true) (Dbl.fin 0.1) (Dbl.fin 0.01) 20 true
      = ⟨FUSION_ERROR_INSUFFICIENT_DATA, none, [], none, none⟩ :=
  ⟨by decide,
    (minimum_row_gate _ (by decide) true (fun _ => true) (Dbl.fin 0.1) (Dbl.fin 0.01) 20 true).2.2⟩

/-! ## The C API -/

/-- C17 (`fusion_get_error_message` is total and fixed): 0 gives "Success", -1 "File not
found or cannot be opened", -2 "Invalid data format", -3 "Insufficient data (minimum 20
rows required)", -4 "Memory allocation error", -99 and every other integer "Unknown
error"; the messages of the six error codes are pairwise distinct. -/
theorem error_message_table :
    fusion_get_error_message 0 = "Success" ∧
    fusion_get_error_message (-1) = "File not found or cannot be opened" ∧
    fusion_get_error_message (-2) = "Invalid data format" ∧
    fusion_get_error_message (-3) = "Insufficient data (minimum 20 rows required)" ∧
    fusion_get_error_message (-4) = "Memory allocation error" ∧
    fusion_get_error_message (-99) = "Unknown error" ∧
    (∀ c : Int, c ≠ 0 → c ≠ -1 → c ≠ -2 → c ≠ -3 → c ≠ -4 →
      fusion_get_error_message c = "Unknown error") ∧
    ([FUSION_SUCCESS, FUSION_ERROR_FILE_NOT_FOUND, FUSION_ERROR_INVALID_DATA,
      FUSION_ERROR_INSUFFICIENT_DATA, FUSION_ERROR_MEMORY, FUSION_ERROR_UNKNOWN].map
        fusion_get_error_message).Nodup := by
  refine ⟨by decide, by decide, by decide, by decide, by decide, by decide, ?_, by decide⟩
  intro c h0 h1 h2 h3 h4
  simp [fusion_get_error_message, FUSION_SUCCESS, FUSION_ERROR_FILE_NOT_FOUND,
    FUSION_ERROR_INVALID_DATA, FUSION_ERROR_INSUFFICIENT_DATA, FUSION_ERROR_MEMORY, h0, h1, h2,
    h3, h4]

/-- C18 (default batch size): `fusion_process_csv_batch` called with `batch_size = 0`
returns what the same call with `batch_size = 100` returns (code, output, intermediate
files), for every input, paths, `Q`, `R` and `save_intermediate`. -/
theorem default_batch_size (input_file_path output_file_path : Option String)
    (parsed : Option (List InputData)) (save_ok : Bool) (intermediate_ok : Nat → Bool)
    (Q R : Dbl) (save_intermediate : Int) :
    fusion_process_csv_batch input_file_path output_file_path parsed save_ok intermediate_ok
        Q R 0 save_intermediate
      = fusion_process_csv_batch input_file_path output_file_path parsed save_ok intermediate_ok
        Q R 100 save_intermediate := by
  simp [fusion_process_csv_batch]

/-- C11 as amended (chunk-size gate): on a parsed input of at least 20 rows,
`fusion_process_csv_batch` returns `FUSION_ERROR_INVALID_DATA` (-2) and writes no file for
every `batch_size` with `1 ≤ batch_size < 20`; the inner `process_fusion_batch_internal`
does so for every chunk size below 20, zero included. -/
theorem chunk_size_gate (input_file_path output_file_path : Option String)
    (rows : List InputData) (save_ok : Bool) (intermediate_ok : Nat → Bool)
    (Q R : Dbl) (batch_size : Nat) (save_intermediate : Int)
    (hn : 20 ≤ rows.length) (h1 : 1 ≤ batch_size) (h20 : batch_size < 20) :
    FUSION_ERROR_INVALID_DATA = -2 ∧
    fusion_process_csv_batch input_file_path output_file_path (some rows) save_ok
        intermediate_ok Q R batch_size save_intermediate
      = ⟨FUSION_ERROR_INVALID_DATA, none, [], none, none⟩ ∧
    (∀ c si, c < 20 →
      process_fusion_batch_internal (some rows) save_ok intermediate_ok Q R c si
        = ⟨FUSION_ERROR_INVALID_DATA, none, [], none, none⟩) := by
  have hn1 : ¬ rows.length < 20 := by omega
  have hb : batch_size ≠ 0 := by omega
  refine ⟨rfl, ?_, ?_⟩
  · unfold fusion_process_csv_batch
    split
    · rfl
    · simp only [hb, if_false, process_fusion_batch_internal, hn1, h20, if_true]
  · intro c si hc
    simp only [process_fusion_batch_internal, hn1, hc, if_false, if_true]

/-- Witness for C11 as amended: 20 rows, `batch_size = 10`. -/
theorem chunk_size_gate_witness :
    20 ≤ rowsRest.length ∧ 1 ≤ 10 ∧ 10 < 20 ∧
    fusion_process_csv_batch (some "in.csv") (some "out.csv") (some rowsRest) true
        (fun _ => true) (Dbl.fin 0.1) (Dbl.fin 0.01) 10 0
      = ⟨FUSION_ERROR_INVALID_DATA, none, [], none, none⟩ :=
  ⟨by decide, by decide, by decide,
    (chunk_size_gate (some "in.csv") (some "out.csv") rowsRest true (fun _ => true)
      (Dbl.fin 0.1) (Dbl.fin 0.01) 10 0 (by decide) (by decide) (by decide)).2.1⟩

/-- C11 as stated fails at `batch_size = 0`: the entry point replaces it by the default
100, so 20 rows are processed, the output file is written and the code is
`FUSION_SUCCESS`. -/
theorem chunk_size_zero_runs_default :
    20 ≤ rowsRest.length ∧ (0 : Nat) < 20 ∧
    (fusion_process_csv_batch (some "in.csv") (some "out.csv") (some rowsRest) true
        (fun _ => true) (Dbl.fin 0.1) (Dbl.fin 0.01) 0 0).code = FUSION_SUCCESS ∧
    (fusion_process_csv_batch (some "in.csv") (some "out.csv") (some rowsRest) true
        (fun _ => true) (Dbl.fin 0.1) (Dbl.fin 0.01) 0 0).output_file
      = some (List.replicate 20 ⟨"t", Dbl.fin 0, Dbl.fin 0⟩) := by
  refine ⟨by decide, by decide, by decide!, by decide!⟩

/-- C19 (zero process noise): with `Q = 0` a `predict` step leaves `p11` unchanged, maps
`p01`, `p10` to `p01 + dt*p11`, `p10 + dt*p11` and `p00` to
`p00 + dt*(p01+p10) + dt^2*p11`, with no additive `Q` term, from every state; on finite
values `p00' - p00 = dt*(p01+p10) + dt^2*p11` and `p11' ≤ p11`, so no predict step
increases the velocity variance. -/
theorem zero_process_noise (R u : Dbl) (st : KalmanState) (cov : KalmanCovariance)
    (a b c d : ℚ) :
    let dt : ℚ := 1 / 100
    let kf : KalmanFilter := ⟨KalmanParams.KalmanParams (Dbl.fin 0) R, st, cov⟩
    let kf2 : KalmanFilter :=
      ⟨KalmanParams.KalmanParams (Dbl.fin 0) R, st, ⟨Dbl.fin a, Dbl.fin b, Dbl.fin c, Dbl.fin d⟩⟩
    (kf.predict u).covariance_.p11 = cov.p11 ∧
    (kf.predict u).covariance_.p01 = cov.p01 + Dbl.fin dt * cov.p11 ∧
    (kf.predict u).covariance_.p10 = cov.p10 + Dbl.fin dt * cov.p11 ∧
    (kf.predict u).covariance_.p00
      = cov.p00 + Dbl.fin dt * (cov.p01 + cov.p10) + Dbl.fin (dt ^ 2) * cov.p11 ∧
    (kf2.predict u).covariance_.p00 - Dbl.fin a
      = Dbl.fin dt * (Dbl.fin b + Dbl.fin c) + Dbl.fin (dt ^ 2) * Dbl.fin d ∧
    (kf2.predict u).covariance_.p11 ≤ Dbl.fin d := by
  intro dt kf kf2
  have h2 : (1 / 100 : ℚ) * (1 / 100) = (1 / 100) ^ 2 := by norm_num
  refine ⟨?_, ?_, ?_, ?_, ?_, ?_⟩
  · simp only [kf, KalmanFilter.predict, KalmanParams.KalmanParams, Dbl.add_zero]
  · simp only [kf, KalmanFilter.predict, KalmanParams.KalmanParams, lit_dt, dt]
  · simp only [kf, KalmanFilter.predict, KalmanParams.KalmanParams, lit_dt, dt]
  · simp only [kf, KalmanFilter.predict, KalmanParams.KalmanParams, lit_dt, dt, Dbl.add_zero,
      Dbl.fin_mul_fin, h2]
  · simp only [kf2, KalmanFilter.predict, KalmanParams.KalmanParams, lit_dt, dt,
      Dbl.fin_mul_fin, Dbl.fin_add_fin, Dbl.fin_sub_fin]
    congr 1
    ring
  · simp only [kf2, KalmanFilter.predict, KalmanParams.KalmanParams, Dbl.add_zero]
    exact le_refl d

/-! ## The batch loop, one iteration at a time -/

theorem batchLoop_succ (rows : List InputData) (c n : Nat) (si : Bool) (iok : Nat → Bool)
    (i k : Nat) (s : BatchState) :
    batchLoop rows c n si iok i (k + 1) s
      = batchBody rows c n si iok (i + k) (batchLoop rows c n si iok i k s) := by
  induction k generalizing i s with
  | zero => rfl
  | succ k ih =>
    rw [batchLoop, ih]
    have e : i + 1 + k = i + (k + 1) := by omega
    rw [e]
    rfl

/-- The estimators, the accumulated rows and the first-batch flag after one iteration do
not depend on the emission flag, on the outcome of the intermediate writes or on the
record of the earlier writes. -/
theorem batchBody_core (rows : List InputData) (c n : Nat) (si si2 : Bool)
    (iok iok2 : Nat → Bool) (i : Nat) (s s2 : BatchState)
    (hy : s.filter_y = s2.filter_y) (hz : s.filter_z = s2.filter_z)
    (ha : s.all_output_data = s2.all_output_data) (hf : s.is_first_batch = s2.is_first_batch) :
    (batchBody rows c n si iok i s).filter_y = (batchBody rows c n si2 iok2 i s2).filter_y ∧
    (batchBody rows c n si iok i s).filter_z = (batchBody rows c n si2 iok2 i s2).filter_z ∧
    (batchBody rows c n si iok i s).all_output_data
      = (batchBody rows c n si2 iok2 i s2).all_output_data ∧
    (batchBody rows c n si iok i s).is_first_batch
      = (batchBody rows c n si2 iok2 i s2).is_first_batch := by
  simp only [batchBody, hy, hz, ha, hf, and_self]

theorem batchLoop_core (rows : List InputData) (c n : Nat) (si si2 : Bool)
    (iok iok2 : Nat → Bool) (i k : Nat) (s s2 : BatchState)
    (hy : s.filter_y = s2.filter_y) (hz : s.filter_z = s2.filter_z)
    (ha : s.all_output_data = s2.all_output_data) (hf : s.is_first_batch = s2.is_first_batch) :
    (batchLoop rows c n si iok i k s).filter_y = (batchLoop rows c n si2 iok2 i k s2).filter_y ∧
    (batchLoop rows c n si iok i k s).filter_z = (batchLoop rows c n si2 iok2 i k s2).filter_z ∧
    (batchLoop rows c n si iok i k s).all_output_data
      = (batchLoop rows c n si2 iok2 i k s2).all_output_data ∧
    (batchLoop rows c n si iok i k s).is_first_batch
      = (batchLoop rows c n si2 iok2 i k s2).is_first_batch := by
  induction k with
  | zero => exact ⟨hy, hz, ha, hf⟩
  | succ k ih =>
    obtain ⟨h1, h2, h3, h4⟩ := ih
    rw [batchLoop_succ, batchLoop_succ]
    exact batchBody_core rows c n si si2 iok iok2 _ _ _ h1 h2 h3 h4

/-- C16 (intermediate emission is best-effort): for every input, `Q`, `R` and chunk size,
the return code, the rows of the final output file and the two estimators left by
`process_fusion_batch_internal` are the same whatever `save_intermediate` is and whether
each intermediate `save_csv` call succeeds or fails. -/
theorem intermediate_emission_best_effort (parsed : Option (List InputData)) (save_ok : Bool)
    (intermediate_ok intermediate_ok2 : Nat → Bool) (Q R : Dbl) (batch_size : Nat)
    (save_intermediate save_intermediate2 : Bool) :
    (process_fusion_batch_internal parsed save_ok intermediate_ok Q R batch_size
        save_intermediate).code
      = (process_fusion_batch_internal parsed save_ok intermediate_ok2 Q R batch_size
        save_intermediate2).code ∧
    (process_fusion_batch_internal parsed save_ok intermediate_ok Q R batch_size
        save_intermediate).output_file
      = (process_fusion_batch_internal parsed save_ok intermediate_ok2 Q R batch_size
        save_intermediate2).output_file ∧
    (process_fusion_batch_internal parsed save_ok intermediate_ok Q R batch_size
        save_intermediate).filter_y
      = (process_fusion_batch_internal parsed save_ok intermediate_ok2 Q R batch_size
        save_intermediate2).filter_y ∧
    (process_fusion_batch_internal parsed save_ok intermediate_ok Q R batch_size
        save_intermediate).filter_z
      = (process_fusion_batch_internal parsed save_ok intermediate_ok2 Q R batch_size
        save_intermediate2).filter_z := by
  cases parsed with
  | none => exact ⟨rfl, rfl, rfl, rfl⟩
  | some rows =>
    unfold process_fusion_batch_internal
    simp only
    split
    · exact ⟨rfl, rfl, rfl, rfl⟩
    · split
      · exact ⟨rfl, rfl, rfl, rfl⟩
      · obtain ⟨h1, h2, h3, _⟩ := batchLoop_core rows batch_size rows.length save_intermediate
          save_intermediate2 intermediate_ok intermediate_ok2 0
          ((rows.length + batch_size - 1) % SIZE_T_MOD / batch_size)
          { filter_y := KalmanFilter.KalmanFilter (KalmanParams.KalmanParams Q R),
            filter_z := KalmanFilter.KalmanFilter (KalmanParams.KalmanParams Q R),
            all_output_data := [], is_first_batch := true, intermediate := [] }
          { filter_y := KalmanFilter.KalmanFilter (KalmanParams.KalmanParams Q R),
            filter_z := KalmanFilter.KalmanFilter (KalmanParams.KalmanParams Q R),
            all_output_data := [], is_first_batch := true, intermediate := [] }
          rfl rfl rfl rfl
        cases save_ok <;> simp [save_csv, h1, h2, h3]


/-! ## Axis independence -/

/-- One iteration of the batch loop on two inputs with the same Y columns and fix flags:
the Y estimator and the Y displacements written stay equal. -/
theorem batchBody_axis_y (rows rows2 : List InputData) (c n : Nat) (si : Bool)
    (iok : Nat → Bool) (i : Nat) (s s2 : BatchState)
    (hg : rows.map (fun row => row.gps_y) = rows2.map (fun row => row.gps_y))
    (ha : rows.map (fun row => row.acc_y) = rows2.map (fun row => row.acc_y))
    (hf : rows.map (fun row => row.fix) = rows2.map (fun row => row.fix))
    (hy : s.filter_y = s2.filter_y)
    (ho : s.all_output_data.map (fun r => r.displacement_y)
      = s2.all_output_data.map (fun r => r.displacement_y))
    (hb : s.is_first_batch = s2.is_first_batch) :
    (batchBody rows c n si iok i s).filter_y = (batchBody rows2 c n si iok i s2).filter_y ∧
    (batchBody rows c n si iok i s).all_output_data.map (fun r => r.displacement_y)
      = (batchBody rows2 c n si iok i s2).all_output_data.map (fun r => r.displacement_y) ∧
    (batchBody rows c n si iok i s).is_first_batch
      = (batchBody rows2 c n si iok i s2).is_first_batch := by
  simp only [batchBody, List.map_append, makeOutput_displacement_y, List.map_drop,
    List.map_take, hg, ha, hf, hy, ho, hb, and_self]

theorem batchBody_axis_z (rows rows2 : List InputData) (c n : Nat) (si : Bool)
    (iok : Nat → Bool) (i : Nat) (s s2 : BatchState)
    (hg : rows.map (fun row => row.gps_z) = rows2.map (fun row => row.gps_z))
    (ha : rows.map (fun row => row.acc_z) = rows2.map (fun row => row.acc_z))
    (hf : rows.map (fun row => row.fix) = rows2.map (fun row => row.fix))
    (hy : s.filter_z = s2.filter_z)
    (ho : s.all_output_data.map (fun r => r.displacement_z)
      = s2.all_output_data.map (fun r => r.displacement_z))
    (hb : s.is_first_batch = s2.is_first_batch) :
    (batchBody rows c n si iok i s).filter_z = (batchBody rows2 c n si iok i s2).filter_z ∧
    (batchBody rows c n si iok i s).all_output_data.map (fun r => r.displacement_z)
      = (batchBody rows2 c n si iok i s2).all_output_data.map (fun r => r.displacement_z) ∧
    (batchBody rows c n si iok i s).is_first_batch
      = (batchBody rows2 c n si iok i s2).is_first_batch := by
  simp only [batchBody, List.map_append, makeOutput_displacement_z, List.map_drop,
    List.map_take, hg, ha, hf, hy, ho, hb, and_self]

theorem batchLoop_axis_y (rows rows2 : List InputData) (c n : Nat) (si : Bool)
    (iok : Nat → Bool) (i k : Nat) (s s2 : BatchState)
    (hg : rows.map (fun row => row.gps_y) = rows2.map (fun row => row.gps_y))
    (ha : rows.map (fun row => row.acc_y) = rows2.map (fun row => row.acc_y))
    (hf : rows.map (fun row => row.fix) = rows2.map (fun row => row.fix))
    (hy : s.filter_y = s2.filter_y)
    (ho : s.all_output_data.map (fun r => r.displacement_y)
      = s2.all_output_data.map (fun r => r.displacement_y))
    (hb : s.is_first_batch = s2.is_first_batch) :
    (batchLoop rows c n si iok i k s).filter_y = (batchLoop rows2 c n si iok i k s2).filter_y ∧
    (batchLoop rows c n si iok i k s).all_output_data.map (fun r => r.displacement_y)
      = (batchLoop rows2 c n si iok i k s2).all_output_data.map (fun r => r.displacement_y) ∧
    (batchLoop rows c n si iok i k s).is_first_batch
      = (batchLoop rows2 c n si iok i k s2).is_first_batch := by
  induction k with
  | zero => exact ⟨hy, ho, hb⟩
  | succ k ih =>
    obtain ⟨h1, h2, h3⟩ := ih
    rw [batchLoop_succ, batchLoop_succ]
    exact batchBody_axis_y rows rows2 c n si iok _ _ _ hg ha hf h1 h2 h3

theorem batchLoop_axis_z (rows rows2 : List InputData) (c n : Nat) (si : Bool)
    (iok : Nat → Bool) (i k : Nat) (s s2 : BatchState)
    (hg : rows.map (fun row => row.gps_z) = rows2.map (fun row => row.gps_z))
    (ha : rows.map (fun row => row.acc_z) = rows2.map (fun row => row.acc_z))
    (hf : rows.map (fun row => row.fix) = rows2.map (fun row => row.fix))
    (hy : s.filter_z = s2.filter_z)
    (ho : s.all_output_data.map (fun r => r.displacement_z)
      = s2.all_output_data.map (fun r => r.displacement_z))
    (hb : s.is_first_batch = s2.is_first_batch) :
    (batchLoop rows c n si iok i k s).filter_z = (batchLoop rows2 c n si iok i k s2).filter_z ∧
    (batchLoop rows c n si iok i k s).all_output_data.map (fun r => r.displacement_z)
      = (batchLoop rows2 c n si iok i k s2).all_output_data.map (fun r => r.displacement_z) ∧
    (batchLoop rows c n si iok i k s).is_first_batch
      = (batchLoop rows2 c n si iok i k s2).is_first_batch := by
  induction k with
  | zero => exact ⟨hy, ho, hb⟩
  | succ k ih =>
    obtain ⟨h1, h2, h3⟩ := ih
    rw [batchLoop_succ, batchLoop_succ]
    exact batchBody_axis_z rows rows2 c n si iok _ _ _ hg ha hf h1 h2 h3

/-- Displacements on Y written by the single-pass run, as a function of the Y columns. -/
theorem single_pass_axis_y (rows : List InputData) (save_ok : Bool) (Q R : Dbl)
    (hn : 20 ≤ rows.length) :
    (process_fusion_internal (some rows) save_ok Q R).output_file.map
        (List.map (fun r => r.displacement_y))
      = (if save_ok then some ((List.range (rows.map (fun row => row.fix)).length).map
          (fun i => ((KalmanFilter.KalmanFilter (KalmanParams.KalmanParams Q R)).process
            (rows.map (fun row => row.gps_y)) (rows.map (fun row => row.acc_y))
            (rows.map (fun row => row.fix))).1.getD i Dbl.nan)) else none) := by
  have hn1 : ¬ rows.length < 20 := by omega
  cases save_ok <;>
    simp [process_fusion_internal, hn1, save_csv, makeOutput_displacement_y]

theorem single_pass_axis_z (rows : List InputData) (save_ok : Bool) (Q R : Dbl)
    (hn : 20 ≤ rows.length) :
    (process_fusion_internal (some rows) save_ok Q R).output_file.map
        (List.map (fun r => r.displacement_z))
      = (if save_ok then some ((List.range (rows.map (fun row => row.fix)).length).map
          (fun i => ((KalmanFilter.KalmanFilter (KalmanParams.KalmanParams Q R)).process
            (rows.map (fun row => row.gps_z)) (rows.map (fun row => row.acc_z))
            (rows.map (fun row => row.fix))).1.getD i Dbl.nan)) else none) := by
  have hn1 : ¬ rows.length < 20 := by omega
  cases save_ok <;>
    simp [process_fusion_internal, hn1, save_csv, makeOutput_displacement_z]


theorem batched_axis_y (rows rows2 : List InputData) (save_ok : Bool) (iok : Nat → Bool)
    (Q R : Dbl) (c : Nat) (si : Bool)
    (hg : rows.map (fun row => row.gps_y) = rows2.map (fun row => row.gps_y))
    (ha : rows.map (fun row => row.acc_y) = rows2.map (fun row => row.acc_y))
    (hf : rows.map (fun row => row.fix) = rows2.map (fun row => row.fix)) :
    (process_fusion_batch_internal (some rows) save_ok iok Q R c si).output_file.map
        (List.map (fun r => r.displacement_y))
      = (process_fusion_batch_internal (some rows2) save_ok iok Q R c si).output_file.map
        (List.map (fun r => r.displacement_y)) := by
  have hlen : rows.length = rows2.length := by
    have := congrArg List.length hf
    simpa using this
  unfold process_fusion_batch_internal
  simp only [hlen]
  split
  · rfl
  · split
    · rfl
    · obtain ⟨_, h2, _⟩ := batchLoop_axis_y rows rows2 c rows2.length si iok 0
        ((rows2.length + c - 1) % SIZE_T_MOD / c)
        { filter_y := KalmanFilter.KalmanFilter (KalmanParams.KalmanParams Q R),
          filter_z := KalmanFilter.KalmanFilter (KalmanParams.KalmanParams Q R),
          all_output_data := [], is_first_batch := true, intermediate := [] }
        { filter_y := KalmanFilter.KalmanFilter (KalmanParams.KalmanParams Q R),
          filter_z := KalmanFilter.KalmanFilter (KalmanParams.KalmanParams Q R),
          all_output_data := [], is_first_batch := true, intermediate := [] }
        hg ha hf rfl rfl rfl
      cases save_ok <;> simp [save_csv, h2]

theorem batched_axis_z (rows rows2 : List InputData) (save_ok : Bool) (iok : Nat → Bool)
    (Q R : Dbl) (c : Nat) (si : Bool)
    (hg : rows.map (fun row => row.gps_z) = rows2.map (fun row => row.gps_z))
    (ha : rows.map (fun row => row.acc_z) = rows2.map (fun row => row.acc_z))
    (hf : rows.map (fun row => row.fix) = rows2.map (fun row => row.fix)) :
    (process_fusion_batch_internal (some rows) save_ok iok Q R c si).output_file.map
        (List.map (fun r => r.displacement_z))
      = (process_fusion_batch_internal (some rows2) save_ok iok Q R c si).output_file.map
        (List.map (fun r => r.displacement_z)) := by
  have hlen : rows.length = rows2.length := by
    have := congrArg List.length hf
    simpa using this
  unfold process_fusion_batch_internal
  simp only [hlen]
  split
  · rfl
  · split
    · rfl
    · obtain ⟨_, h2, _⟩ := batchLoop_axis_z rows rows2 c rows2.length si iok 0
        ((rows2.length + c - 1) % SIZE_T_MOD / c)
        { filter_y := KalmanFilter.KalmanFilter (KalmanParams.KalmanParams Q R),
          filter_z := KalmanFilter.KalmanFilter (KalmanParams.KalmanParams Q R),
          all_output_data := [], is_first_batch := true, intermediate := [] }
        { filter_y := KalmanFilter.KalmanFilter (KalmanParams.KalmanParams Q R),
          filter_z := KalmanFilter.KalmanFilter (KalmanParams.KalmanParams Q R),
          all_output_data := [], is_first_batch := true, intermediate := [] }
        hg ha hf rfl rfl rfl
      cases save_ok <;> simp [save_csv, h2]

theorem single_pass_small (rows : List InputData) (save_ok : Bool) (Q R : Dbl)
    (hn : rows.length < 20) :
    (process_fusion_internal (some rows) save_ok Q R).output_file = none := by
  simp only [process_fusion_internal, hn, if_true]

/-- C13 (axis independence): when two row sequences agree on `gps_y`, `acc_y` and `fix` of
every row, the `displacement_y` columns written by the single-pass run are equal, and so
are those written by the batched run, whatever `gps_z`, `acc_z` (and the timestamps)
are; symmetrically `displacement_z` depends on `gps_z`, `acc_z` and `fix` only. -/
theorem axis_independence (rows rows2 : List InputData) (save_ok : Bool)
    (intermediate_ok : Nat → Bool) (Q R : Dbl) (chunk_size : Nat) (save_intermediate : Bool) :
    (rows.map (fun row => row.gps_y) = rows2.map (fun row => row.gps_y) →
      rows.map (fun row => row.acc_y) = rows2.map (fun row => row.acc_y) →
      rows.map (fun row => row.fix) = rows2.map (fun row => row.fix) →
      (process_fusion_internal (some rows) save_ok Q R).output_file.map
          (List.map (fun r => r.displacement_y))
        = (process_fusion_internal (some rows2) save_ok Q R).output_file.map
          (List.map (fun r => r.displacement_y)) ∧
      (process_fusion_batch_internal (some rows) save_ok intermediate_ok Q R chunk_size
          save_intermediate).output_file.map (List.map (fun r => r.displacement_y))
        = (process_fusion_batch_internal (some rows2) save_ok intermediate_ok Q R chunk_size
          save_intermediate).output_file.map (List.map (fun r => r.displacement_y))) ∧
    (rows.map (fun row => row.gps_z) = rows2.map (fun row => row.gps_z) →
      rows.map (fun row => row.acc_z) = rows2.map (fun row => row.acc_z) →
      rows.map (fun row => row.fix) = rows2.map (fun row => row.fix) →
      (process_fusion_internal (some rows) save_ok Q R).output_file.map
          (List.map (fun r => r.displacement_z))
        = (process_fusion_internal (some rows2) save_ok Q R).output_file.map
          (List.map (fun r => r.displacement_z)) ∧
      (process_fusion_batch_internal (some rows) save_ok intermediate_ok Q R chunk_size
          save_intermediate).output_file.map (List.map (fun r => r.displacement_z))
        = (process_fusion_batch_internal (some rows2) save_ok intermediate_ok Q R chunk_size
          save_intermediate).output_file.map (List.map (fun r => r.displacement_z))) := by
  constructor
  · intro hg ha hf
    refine ⟨?_, batched_axis_y rows rows2 save_ok intermediate_ok Q R chunk_size
      save_intermediate hg ha hf⟩
    have hlen : rows.length = rows2.length := by
      have := congrArg List.length hf
      simpa using this
    by_cases hn : rows.length < 20
    · rw [single_pass_small rows save_ok Q R hn,
        single_pass_small rows2 save_ok Q R (by omega)]
    · rw [single_pass_axis_y rows save_ok Q R (by omega),
        single_pass_axis_y rows2 save_ok Q R (by omega), hg, ha, hf]
  · intro hg ha hf
    refine ⟨?_, batched_axis_z rows rows2 save_ok intermediate_ok Q R chunk_size
      save_intermediate hg ha hf⟩
    have hlen : rows.length = rows2.length := by
      have := congrArg List.length hf
      simpa using this
    by_cases hn : rows.length < 20
    · rw [single_pass_small rows save_ok Q R hn,
        single_pass_small rows2 save_ok Q R (by omega)]
    · rw [single_pass_axis_z rows save_ok Q R (by omega),
        single_pass_axis_z rows2 save_ok Q R (by omega), hg, ha, hf]

/-- Witness for C13: 21 rows and the same rows with other Z measurements and
accelerations. -/
theorem axis_independence_witness :
    rowsPush.map (fun row => row.gps_y) = rowsPushOtherZ.map (fun row => row.gps_y) ∧
    rowsPush.map (fun row => row.acc_y) = rowsPushOtherZ.map (fun row => row.acc_y) ∧
    rowsPush.map (fun row => row.fix) = rowsPushOtherZ.map (fun row => row.fix) ∧
    rowsPush.map (fun row => row.gps_z) ≠ rowsPushOtherZ.map (fun row => row.gps_z) ∧
    (process_fusion_batch_internal (some rowsPush) true (fun _ => true) (Dbl.fin 0.1)
        (Dbl.fin 0.01) 20 false).output_file.map (List.map (fun r => r.displacement_y))
      = (process_fusion_batch_internal (some rowsPushOtherZ) true (fun _ => true) (Dbl.fin 0.1)
        (Dbl.fin 0.01) 20 false).output_file.map (List.map (fun r => r.displacement_y)) :=
  ⟨by decide, by decide, by decide, by decide,
    ((axis_independence rowsPush rowsPushOtherZ true (fun _ => true) (Dbl.fin 0.1)
      (Dbl.fin 0.01) 20 false).1 (by decide) (by decide) (by decide)).2⟩

/-! ## The chunks partition the rows -/

theorem range_map_getD {α : Type} (l : List α) (d : α) :
    (List.range l.length).map (fun i => l.getD i d) = l := by
  apply List.ext_getElem?
  intro i
  by_cases h : i < l.length
  · simp [List.getElem?_range h, h, List.getD_eq_getElem?_getD, List.getElem?_eq_getElem h]
  · rw [List.getElem?_eq_none (by simpa using h), List.getElem?_eq_none (by simpa using h)]

theorem take_append_take_drop {α : Type} (l : List α) (a b : Nat) (h : a ≤ b) :
    l.take a ++ (l.take b).drop a = l.take b := by
  have e : l.take a = (l.take b).take a := by
    rw [List.take_take, Nat.min_eq_left h]
  rw [e, List.take_append_drop]

/-- One regular iteration of the batch loop: batch `k` with `k * c < n` and no wrap-around. -/
theorem batchBody_regular (rows : List InputData) (c k : Nat) (si : Bool) (iok : Nat → Bool)
    (s : BatchState) (hk : k * c < rows.length) (hov : rows.length + c - 1 < SIZE_T_MOD) :
    ∃ out : List OutputData,
      (batchBody rows c rows.length si iok k s).all_output_data = s.all_output_data ++ out ∧
      out.length = min (k * c + c) rows.length - k * c ∧
      out.map (fun r => r.datetime)
        = ((rows.map (fun row => row.datetime)).take (min (k * c + c) rows.length)).drop (k * c) ∧
      (batchBody rows c rows.length si iok k s).intermediate
        = if si then s.intermediate ++ [⟨k + 1, out, iok (k + 1)⟩] else s.intermediate := by
  have h0 : k * c % SIZE_T_MOD = k * c := Nat.mod_eq_of_lt (by omega)
  have h1 : (k * c + c) % SIZE_T_MOD = k * c + c := Nat.mod_eq_of_lt (by omega)
  have h2 : (min (k * c + c) rows.length + SIZE_T_MOD - k * c) % SIZE_T_MOD
      = min (k * c + c) rows.length - k * c := by
    have hle : k * c ≤ min (k * c + c) rows.length := by
      rw [Nat.le_min]; omega
    have e : min (k * c + c) rows.length + SIZE_T_MOD - k * c
        = (min (k * c + c) rows.length - k * c) + SIZE_T_MOD := by omega
    rw [e, Nat.add_mod_right, Nat.mod_eq_of_lt]
    have : min (k * c + c) rows.length ≤ rows.length := Nat.min_le_right _ _
    omega
  refine ⟨(batchBody rows c rows.length si iok k s).all_output_data.drop
    s.all_output_data.length, ?_, ?_, ?_, ?_⟩
  · simp only [batchBody, List.drop_left]
  · simp only [batchBody, List.drop_left, h0, h1, h2, makeOutput_length]
  · simp only [batchBody, List.drop_left, h0, h1, h2]
    rw [makeOutput_datetime]
    have hl : (((rows.take (min (k * c + c) rows.length)).drop (k * c)).map
        (fun row => row.datetime)).length = min (k * c + c) rows.length - k * c := by
      rw [List.length_map, List.length_drop, List.length_take]
      have : min (k * c + c) rows.length ≤ rows.length := Nat.min_le_right _ _
      omega
    rw [← hl, range_map_getD, List.map_drop, List.map_take]
  · simp only [batchBody, List.drop_left, save_csv]
    cases si <;> cases iok (k + 1) <;> simp


/-- State of the batch loop after `k` regular iterations: the accumulated rows carry the
timestamps of the first `min (k*c) n` input rows, and the intermediate writes recorded so
far are the slices of the accumulated rows, chunk by chunk. -/
theorem batchLoop_partition (rows : List InputData) (c : Nat) (si : Bool) (iok : Nat → Bool)
    (s0 : BatchState) (h0 : s0.all_output_data = []) (hi0 : s0.intermediate = [])
    (hov : rows.length + c - 1 < SIZE_T_MOD) (k : Nat)
    (hk : ∀ j, j < k → j * c < rows.length) :
    (batchLoop rows c rows.length si iok 0 k s0).all_output_data.map (fun r => r.datetime)
      = (rows.map (fun row => row.datetime)).take (min (k * c) rows.length) ∧
    (batchLoop rows c rows.length si iok 0 k s0).intermediate
      = (if si then (List.range k).map (fun j =>
          (⟨j + 1, ((batchLoop rows c rows.length si iok 0 k s0).all_output_data.take
            (min ((j + 1) * c) rows.length)).drop (j * c), iok (j + 1)⟩ : IntermediateSave))
        else []) ∧
    (si = true →
      ((batchLoop rows c rows.length si iok 0 k s0).intermediate.map (fun w => w.rows)).flatten
        = (batchLoop rows c rows.length si iok 0 k s0).all_output_data) := by
  induction k with
  | zero =>
    simp [batchLoop, h0, hi0]
  | succ k ih =>
    obtain ⟨i1, i2, i3⟩ := ih (fun j hj => hk j (by omega))
    have hkc : k * c < rows.length := hk k (by omega)
    rw [batchLoop_succ, Nat.zero_add]
    obtain ⟨out, e1, e2, e3, e4⟩ := batchBody_regular rows c k si iok
      (batchLoop rows c rows.length si iok 0 k s0) hkc hov
    have hlen : (batchLoop rows c rows.length si iok 0 k s0).all_output_data.length = k * c := by
      have := congrArg List.length i1
      rw [List.length_map, List.length_take, List.length_map] at this
      omega
    have hsucc : (k + 1) * c = k * c + c := by ring
    refine ⟨?_, ?_, ?_⟩
    · rw [e1, List.map_append, i1, e3, hsucc]
      have hm : min (k * c) rows.length = k * c := by omega
      rw [hm]
      apply take_append_take_drop
      rw [Nat.le_min]; omega
    · rw [e4, e1]
      cases si with
      | false => simpa using i2
      | true =>
        simp only [if_true] at i2 ⊢
        rw [List.range_succ, List.map_append, i2]
        congr 1
        · apply List.map_congr_left
          intro j hj
          have hj2 : j < k := by simpa using hj
          have hle : min ((j + 1) * c) rows.length
              ≤ (batchLoop rows c rows.length true iok 0 k s0).all_output_data.length := by
            rw [hlen]
            have : (j + 1) * c ≤ k * c := Nat.mul_le_mul_right c (by omega)
            exact le_trans (Nat.min_le_left _ _) this
          rw [List.take_append_of_le_length hle]
        · simp only [List.map_cons, List.map_nil]
          have hl2 : ((batchLoop rows c rows.length true iok 0 k s0).all_output_data ++ out).length
              ≤ min ((k + 1) * c) rows.length := by
            rw [List.length_append, hlen, e2, hsucc]
            have : k * c ≤ min (k * c + c) rows.length := by rw [Nat.le_min]; omega
            omega
          rw [List.take_of_length_le hl2, ← hlen, List.drop_left]
    · intro hsi
      subst hsi
      rw [e4, e1]
      simp only [if_true, List.map_append, List.flatten_append, List.map_cons, List.map_nil,
        List.flatten_cons, List.flatten_nil, List.append_nil]
      rw [i3 rfl]


/-- Without wrap-around the batch count is the ceiling of `n / c`: every batch starts
below `n` and the batches cover the `n` rows. -/
theorem batch_count_regular (n c : Nat) (hc : 0 < c) (hov : n + c - 1 < SIZE_T_MOD) :
    (n + c - 1) % SIZE_T_MOD / c = (n + c - 1) / c ∧
    (∀ j, j < (n + c - 1) / c → j * c < n) ∧
    n ≤ (n + c - 1) / c * c := by
  refine ⟨by rw [Nat.mod_eq_of_lt hov], ?_, ?_⟩
  · intro j hj
    have h1 : (j + 1) * c ≤ n + c - 1 := (Nat.le_div_iff_mul_le hc).1 hj
    have h2 : (j + 1) * c = j * c + c := by ring
    omega
  · have h1 := Nat.div_add_mod (n + c - 1) c
    have h2 := Nat.mod_lt (n + c - 1) hc
    have h3 : c * ((n + c - 1) / c) = (n + c - 1) / c * c := Nat.mul_comm _ _
    omega

/-- With wrap-around of `n + c - 1` the batch count is zero. -/
theorem batch_count_wrapped (n c : Nat) (hn : n < SIZE_T_MOD) (hc : c < SIZE_T_MOD)
    (hov : ¬ n + c - 1 < SIZE_T_MOD) :
    (n + c - 1) % SIZE_T_MOD / c = 0 := by
  have e : n + c - 1 = (n + c - 1 - SIZE_T_MOD) + SIZE_T_MOD := by omega
  rw [e, Nat.add_mod_right, Nat.mod_eq_of_lt (by omega)]
  exact Nat.div_eq_of_lt (by omega)

/-- The run of the batch loop inside `process_fusion_batch_internal`, and what the
function returns once both gates are passed. -/
theorem batched_run_eq (rows : List InputData) (save_ok : Bool) (iok : Nat → Bool) (Q R : Dbl)
    (c : Nat) (si : Bool) (hn : 20 ≤ rows.length) (hc : 20 ≤ c) :
    (process_fusion_batch_internal (some rows) save_ok iok Q R c si).output_file
      = (if save_ok then some (batchLoop rows c rows.length si iok 0
          ((rows.length + c - 1) % SIZE_T_MOD / c)
          { filter_y := KalmanFilter.KalmanFilter (KalmanParams.KalmanParams Q R),
            filter_z := KalmanFilter.KalmanFilter (KalmanParams.KalmanParams Q R),
            all_output_data := [], is_first_batch := true, intermediate := [] }).all_output_data
        else none) ∧
    (process_fusion_batch_internal (some rows) save_ok iok Q R c si).intermediate
      = (batchLoop rows c rows.length si iok 0
          ((rows.length + c - 1) % SIZE_T_MOD / c)
          { filter_y := KalmanFilter.KalmanFilter (KalmanParams.KalmanParams Q R),
            filter_z := KalmanFilter.KalmanFilter (KalmanParams.KalmanParams Q R),
            all_output_data := [], is_first_batch := true, intermediate := [] }).intermediate ∧
    (process_fusion_batch_internal (some rows) save_ok iok Q R c si).code
      = (if save_ok then FUSION_SUCCESS else FUSION_ERROR_FILE_NOT_FOUND) := by
  have hn1 : ¬ rows.length < 20 := by omega
  have hc1 : ¬ c < 20 := by omega
  cases save_ok <;> simp [process_fusion_batch_internal, hn1, hc1, save_csv]

/-- Without wrap-around the batched run hands `n` rows to the final write, with the input
timestamps in input order. -/
theorem batched_keeps_rows (rows : List InputData) (iok : Nat → Bool) (Q R : Dbl)
    (c : Nat) (si : Bool) (hn : 20 ≤ rows.length) (hc : 20 ≤ c)
    (hov : rows.length + c - 1 < SIZE_T_MOD) :
    ∃ final : List OutputData,
      (process_fusion_batch_internal (some rows) true iok Q R c si).output_file = some final ∧
      final.length = rows.length ∧
      final.map (fun r => r.datetime) = rows.map (fun row => row.datetime) := by
  obtain ⟨e1, _, _⟩ := batched_run_eq rows true iok Q R c si hn hc
  obtain ⟨b1, b2, b3⟩ := batch_count_regular rows.length c (by omega) hov
  obtain ⟨p1, _, _⟩ := batchLoop_partition rows c si iok
    { filter_y := KalmanFilter.KalmanFilter (KalmanParams.KalmanParams Q R),
      filter_z := KalmanFilter.KalmanFilter (KalmanParams.KalmanParams Q R),
      all_output_data := [], is_first_batch := true, intermediate := [] } rfl rfl hov
    ((rows.length + c - 1) / c) b2
  rw [Nat.min_eq_right b3, List.take_of_length_le (by simp)] at p1
  refine ⟨_, by rw [e1]; rfl, ?_, ?_⟩
  · have := congrArg List.length p1
    rw [b1]
    simpa using this
  · rw [b1]; exact p1

/-- The single-pass run hands `n` rows to the final write, with the input timestamps in
input order. -/
theorem single_pass_keeps_rows (rows : List InputData) (Q R : Dbl) (hn : 20 ≤ rows.length) :
    ∃ final : List OutputData,
      (process_fusion_internal (some rows) true Q R).output_file = some final ∧
      final.length = rows.length ∧
      final.map (fun r => r.datetime) = rows.map (fun row => row.datetime) := by
  have hn1 : ¬ rows.length < 20 := by omega
  refine ⟨makeOutput rows.length (rows.map (fun row => row.datetime))
    ((KalmanFilter.KalmanFilter (KalmanParams.KalmanParams Q R)).process
      (rows.map (fun row => row.gps_y)) (rows.map (fun row => row.acc_y))
      (rows.map (fun row => row.fix))).1
    ((KalmanFilter.KalmanFilter (KalmanParams.KalmanParams Q R)).process
      (rows.map (fun row => row.gps_z)) (rows.map (fun row => row.acc_z))
      (rows.map (fun row => row.fix))).1, ?_, makeOutput_length _ _ _ _, ?_⟩
  · simp [process_fusion_internal, hn1, save_csv]
  · rw [makeOutput_datetime]
    have := range_map_getD (rows.map (fun row => row.datetime)) ""
    rw [List.length_map] at this
    exact this

/-- C15 (intermediate chunk files are slices of the final result): in the batched run
with emission requested, `n ≥ 20` rows and a chunk size `c ≥ 20`, the `k`-th intermediate
`save_csv` call (counted from 0, file number `k + 1`) is handed exactly the rows
`k*c .. min ((k+1)*c) n - 1` of the rows handed to the final write, and the intermediate
row lists concatenated in order are the final rows; without wrap-around of `n + c - 1`
there are `⌈n / c⌉` such calls and `n` final rows (with wrap-around there is no call and no
row). -/
theorem intermediate_chunks_are_slices (rows : List InputData) (Q R : Dbl) (c : Nat)
    (save_ok : Bool) (intermediate_ok : Nat → Bool)
    (hn : 20 ≤ rows.length) (hc : 20 ≤ c)
    (hnM : rows.length < SIZE_T_MOD) (hcM : c < SIZE_T_MOD) :
    ∃ final : List OutputData,
      (process_fusion_batch_internal (some rows) true intermediate_ok Q R c true).output_file
        = some final ∧
      (process_fusion_batch_internal (some rows) save_ok intermediate_ok Q R c true).intermediate
        = (List.range (process_fusion_batch_internal (some rows) save_ok intermediate_ok Q R c
            true).intermediate.length).map (fun k =>
          (⟨k + 1, (final.take (min ((k + 1) * c) rows.length)).drop (k * c),
            intermediate_ok (k + 1)⟩ : IntermediateSave)) ∧
      ((process_fusion_batch_internal (some rows) save_ok intermediate_ok Q R c
          true).intermediate.map (fun w => w.rows)).flatten = final ∧
      (rows.length + c - 1 < SIZE_T_MOD →
        (process_fusion_batch_internal (some rows) save_ok intermediate_ok Q R c
          true).intermediate.length = (rows.length + c - 1) / c ∧
        final.length = rows.length) := by
  obtain ⟨e1, _, _⟩ := batched_run_eq rows true intermediate_ok Q R c true hn hc
  obtain ⟨_, e2, _⟩ := batched_run_eq rows save_ok intermediate_ok Q R c true hn hc
  rw [e1, e2]
  refine ⟨_, rfl, ?_⟩
  by_cases hov : rows.length + c - 1 < SIZE_T_MOD
  · obtain ⟨b1, b2, b3⟩ := batch_count_regular rows.length c (by omega) hov
    obtain ⟨p1, p2, p3⟩ := batchLoop_partition rows c true intermediate_ok
      { filter_y := KalmanFilter.KalmanFilter (KalmanParams.KalmanParams Q R),
        filter_z := KalmanFilter.KalmanFilter (KalmanParams.KalmanParams Q R),
        all_output_data := [], is_first_batch := true, intermediate := [] } rfl rfl hov
      ((rows.length + c - 1) / c) b2
    simp only [if_true] at p2
    rw [b1]
    have hlen : (batchLoop rows c rows.length true intermediate_ok 0
        ((rows.length + c - 1) / c)
        { filter_y := KalmanFilter.KalmanFilter (KalmanParams.KalmanParams Q R),
          filter_z := KalmanFilter.KalmanFilter (KalmanParams.KalmanParams Q R),
          all_output_data := [], is_first_batch := true,
          intermediate := [] }).intermediate.length = (rows.length + c - 1) / c := by
      rw [p2]; simp
    refine ⟨?_, p3 rfl, fun _ => ⟨hlen, ?_⟩⟩
    · rw [hlen]; exact p2
    · have := congrArg List.length p1
      rw [Nat.min_eq_right b3, List.take_of_length_le (by simp)] at this
      simpa using this
  · rw [batch_count_wrapped rows.length c hnM hcM hov]
    simp only [batchLoop]
    exact ⟨rfl, rfl, fun h => absurd h hov⟩


/-- Witness for C15: 21 rows, chunk size 20. -/
theorem intermediate_chunks_are_slices_witness :
    20 ≤ rowsPush.length ∧ 20 ≤ 20 ∧ rowsPush.length < SIZE_T_MOD ∧ 20 < SIZE_T_MOD ∧
    ∃ final : List OutputData,
      (process_fusion_batch_internal (some rowsPush) true (fun _ => true) (Dbl.fin 0.1)
        (Dbl.fin 0.01) 20 true).output_file = some final ∧
      ((process_fusion_batch_internal (some rowsPush) true (fun _ => true) (Dbl.fin 0.1)
        (Dbl.fin 0.01) 20 true).intermediate.map (fun w => w.rows)).flatten = final :=
  ⟨by decide, by decide, by decide, by decide,
    let ⟨final, h1, _, h3, _⟩ := intermediate_chunks_are_slices rowsPush (Dbl.fin 0.1)
      (Dbl.fin 0.01) 20 true (fun _ => true) (by decide) (by decide) (by decide) (by decide)
    ⟨final, h1, h3⟩⟩

/-- C12 at the failing input: 21 rows with `batch_size = 2^64 - 1`.  The sum
`total_rows + batch_size - 1` wraps to 19, the batch count `19 / batch_size` is 0, no batch
runs and the batched run writes no row and returns `FUSION_SUCCESS`; the single-pass run
on the same rows writes the 21 timestamps. -/
theorem batched_row_count_wraps :
    rowsPush.length = 21 ∧ 20 ≤ 18446744073709551615 ∧ 18446744073709551615 < SIZE_T_MOD ∧
    process_fusion_batch_internal (some rowsPush) true (fun _ => true) (Dbl.fin 0.1)
        (Dbl.fin 0.01) 18446744073709551615 false
      = ⟨FUSION_SUCCESS, some [], [],
          some (KalmanFilter.KalmanFilter (KalmanParams.KalmanParams (Dbl.fin 0.1) (Dbl.fin 0.01))),
          some (KalmanFilter.KalmanFilter
            (KalmanParams.KalmanParams (Dbl.fin 0.1) (Dbl.fin 0.01)))⟩ ∧
    (process_fusion_internal (some rowsPush) true (Dbl.fin 0.1) (Dbl.fin 0.01)).output_file.map
        (List.map (fun r => r.datetime)) = some (rowsPush.map (fun row => row.datetime)) := by
  refine ⟨by decide, by decide, by decide, by decide!, by decide!⟩

/-! ## Zero acceleration and one repeated measurement -/

/-- When some index of the range qualifies, the scan returns the measurement of a
qualifying index. -/
theorem initScan_valid (g : List Dbl) (f : List Int) (i k : Nat) (d : Dbl)
    (h : ∃ j, i ≤ j ∧ j < i + k ∧ 1 ≤ f.getD j 0 ∧ (g.getD j Dbl.nan).isfinite = true) :
    ∃ j, i ≤ j ∧ j < i + k ∧ (1 ≤ f.getD j 0 ∧ (g.getD j Dbl.nan).isfinite = true) ∧
      initScan g f i k d = g.getD j Dbl.nan := by
  induction k generalizing i with
  | zero => obtain ⟨j, h1, h2, _⟩ := h; omega
  | succ k ih =>
    rw [initScan]
    by_cases hv : validFix (f.getD i 0) (g.getD i Dbl.nan) = true
    · rw [if_pos hv]
      exact ⟨i, le_refl _, by omega, (validFix_iff _ _).1 hv, rfl⟩
    · rw [if_neg hv]
      obtain ⟨j, h1, h2, h3⟩ := h
      have hne : i ≠ j := by
        rintro rfl
        exact hv ((validFix_iff _ _).2 h3)
      obtain ⟨j2, g1, g2, g3, g4⟩ := ih (i + 1) ⟨j, by omega, by omega, h3⟩
      exact ⟨j2, by omega, by omega, g3, g4⟩

/-- A filter at rest on the value `c` (position `c`, velocity 0, a finite positive
semi-definite covariance, finite `Q ≥ 0`) stays at rest under `predict(0)`. -/
theorem rest_predict (kf : KalmanFilter) (q r c : ℚ) (hq : 0 ≤ q)
    (hp : kf.params_ = KalmanParams.KalmanParams (Dbl.fin q) (Dbl.fin r))
    (hs : kf.state_ = ⟨Dbl.fin c, Dbl.fin 0⟩) (hc : PsdInv kf.covariance_) :
    (kf.predict (Dbl.fin 0)).params_ = KalmanParams.KalmanParams (Dbl.fin q) (Dbl.fin r) ∧
    (kf.predict (Dbl.fin 0)).state_ = ⟨Dbl.fin c, Dbl.fin 0⟩ ∧
    PsdInv (kf.predict (Dbl.fin 0)).covariance_ := by
  refine ⟨hp, ?_, psdInv_predict kf _ q hq (by rw [hp]; rfl) (by rw [hp]; rfl) hc⟩
  simp only [KalmanFilter.predict, hp, hs, KalmanParams.KalmanParams, Dbl.fin_mul_fin,
    Dbl.fin_add_fin]
  norm_num

/-- A filter at rest on the value `c` stays at rest under `update(c)` when `R > 0`. -/
theorem rest_update (kf : KalmanFilter) (q r c : ℚ) (hr : 0 < r)
    (hp : kf.params_ = KalmanParams.KalmanParams (Dbl.fin q) (Dbl.fin r))
    (hs : kf.state_ = ⟨Dbl.fin c, Dbl.fin 0⟩) (hc : PsdInv kf.covariance_) :
    (kf.update (Dbl.fin c)).params_ = KalmanParams.KalmanParams (Dbl.fin q) (Dbl.fin r) ∧
    (kf.update (Dbl.fin c)).state_ = ⟨Dbl.fin c, Dbl.fin 0⟩ ∧
    PsdInv (kf.update (Dbl.fin c)).covariance_ := by
  refine ⟨hp, ?_, psdInv_update kf _ r hr (by rw [hp]; rfl) hc⟩
  obtain ⟨a, b, d, hcov, ha, _, _⟩ := hc
  have hS : a + r ≠ 0 := by linarith
  simp only [KalmanFilter.update, hp, hs, hcov, KalmanParams.KalmanParams, Dbl.fin_add_fin,
    Dbl.fin_div_fin_of_ne _ _ hS, Dbl.fin_sub_fin, Dbl.fin_mul_fin]
  norm_num

theorem rest_stateAfterRow (kf : KalmanFilter) (q r c : ℚ) (hq : 0 ≤ q) (hr : 0 < r)
    (gps acc : List Dbl) (fix : List Int)
    (ha : gps.length = acc.length)
    (hacc : ∀ i, i < gps.length → acc.getD i Dbl.nan = Dbl.fin 0)
    (hgc : ∀ i, i < gps.length → 1 ≤ fix.getD i 0 → (gps.getD i Dbl.nan).isfinite = true →
      gps.getD i Dbl.nan = Dbl.fin c)
    (hp : kf.params_ = KalmanParams.KalmanParams (Dbl.fin q) (Dbl.fin r))
    (hs : kf.state_ = ⟨Dbl.fin c, Dbl.fin 0⟩) (hc : PsdInv kf.covariance_)
    (i : Nat) (hi : i < gps.length) :
    (kf.stateAfterRow gps acc fix i).params_
        = KalmanParams.KalmanParams (Dbl.fin q) (Dbl.fin r) ∧
    (kf.stateAfterRow gps acc fix i).state_ = ⟨Dbl.fin c, Dbl.fin 0⟩ ∧
    PsdInv (kf.stateAfterRow gps acc fix i).covariance_ := by
  induction i with
  | zero => exact ⟨hp, hs, hc⟩
  | succ i ih =>
    obtain ⟨h1, h2, h3⟩ := ih (by omega)
    rw [stateAfterRow_succ, stepRow_eq, hacc (1 + i) (by omega)]
    obtain ⟨p1, p2, p3⟩ := rest_predict _ q r c hq h1 h2 h3
    split
    · rename_i hv
      rw [hgc (1 + i) (by omega) hv.1 hv.2]
      exact rest_update _ q r c hr p1 p2 p3
    · exact ⟨p1, p2, p3⟩

/-- With zero acceleration and the same finite measurement `c` on every valid row, at
least one row being valid, `process` returns `c` on every row. -/
theorem process_constant (kf : KalmanFilter) (q r c : ℚ) (hq : 0 ≤ q) (hr : 0 < r)
    (gps acc : List Dbl) (fix : List Int)
    (hp : kf.params_ = KalmanParams.KalmanParams (Dbl.fin q) (Dbl.fin r))
    (ha : gps.length = acc.length) (hf : gps.length = fix.length)
    (hacc : ∀ i, i < gps.length → acc.getD i Dbl.nan = Dbl.fin 0)
    (hex : ∃ j, j < gps.length ∧ 1 ≤ fix.getD j 0 ∧ (gps.getD j Dbl.nan).isfinite = true)
    (hgc : ∀ i, i < gps.length → 1 ≤ fix.getD i 0 → (gps.getD i Dbl.nan).isfinite = true →
      gps.getD i Dbl.nan = Dbl.fin c)
    (i : Nat) (hi : i < gps.length) :
    (kf.process gps acc fix).1[i]? = some (Dbl.fin c) := by
  obtain ⟨j, hj, hv⟩ := hex
  obtain ⟨j2, _, g2, g3, g4⟩ := initScan_valid gps fix 0 gps.length (gps.getD 0 Dbl.nan)
    ⟨j, Nat.zero_le _, by omega, hv⟩
  rw [hgc j2 (by omega) g3.1 g3.2] at g4
  rw [process_eq_processBatch kf gps acc fix ha hf (by omega), g4,
    processBatch_getElem? _ gps acc fix ha hf i hi]
  obtain ⟨_, h2, _⟩ := rest_stateAfterRow (kf.reset (Dbl.fin c)) q r c hq hr gps acc fix ha hacc
    hgc hp (by simp [KalmanFilter.reset]) psdInv_identity i hi
  rw [h2]


theorem getD_map_range {α : Type} (f : Nat → α) (n i : Nat) (d : α) (h : i < n) :
    ((List.range n).map f).getD i d = f i := by
  simp [List.getD_eq_getElem?_getD, List.getElem?_range h]

theorem process_length (kf : KalmanFilter) (g a : List Dbl) (f : List Int)
    (ha : g.length = a.length) (hf : g.length = f.length) (hn : 0 < g.length) :
    (kf.process g a f).1.length = g.length := by
  rw [process_eq_processBatch kf g a f ha hf hn]
  exact processBatch_length _ g a f ha hf hn

/-- C14 (end-to-end example and its general form): for finite `Q ≥ 0`, `R > 0`, every
input with zero acceleration, at least one valid row and the same finite measurement `c`
on every valid row, the distance `|d[i] - c|` of the displacements returned by `process`
is non-increasing over the valid indices (every displacement is exactly `c`); in
particular, for the 20 rows with fix 1, 0, 1, 0, ..., the measurement `10.0` on the valid
rows, anything on the others, `Q = 0.1`, `R = 0.01`, `process` returns 20 displacements
with `|d[2k+2] - 10| ≤ |d[2k] - 10|`. -/
theorem end_to_end_example (kf : KalmanFilter) (q r c : ℚ) (gps acc : List Dbl)
    (fix : List Int) (hq : 0 ≤ q) (hr : 0 < r)
    (hp : kf.params_ = KalmanParams.KalmanParams (Dbl.fin q) (Dbl.fin r))
    (ha : gps.length = acc.length) (hf : gps.length = fix.length)
    (hacc : ∀ i, i < gps.length → acc.getD i Dbl.nan = Dbl.fin 0)
    (hex : ∃ j, j < gps.length ∧ 1 ≤ fix.getD j 0 ∧ (gps.getD j Dbl.nan).isfinite = true)
    (hgc : ∀ i, i < gps.length → 1 ≤ fix.getD i 0 → (gps.getD i Dbl.nan).isfinite = true →
      gps.getD i Dbl.nan = Dbl.fin c) :
    (∀ i j, i ≤ j → j < gps.length →
      (1 ≤ fix.getD i 0 ∧ (gps.getD i Dbl.nan).isfinite = true) →
      (1 ≤ fix.getD j 0 ∧ (gps.getD j Dbl.nan).isfinite = true) →
      Dbl.abs ((kf.process gps acc fix).1.getD j Dbl.nan - Dbl.fin c)
        ≤ Dbl.abs ((kf.process gps acc fix).1.getD i Dbl.nan - Dbl.fin c)) ∧
    (kf.process gps acc fix).1 = List.replicate gps.length (Dbl.fin c) ∧
    (∀ other : Dbl,
      let d := ((KalmanFilter.KalmanFilter
        (KalmanParams.KalmanParams (Dbl.fin 0.1) (Dbl.fin 0.01))).process
          (exampleGps other) exampleAcc exampleFix).1
      d.length = 20 ∧
      ∀ k, 2 * k + 2 < 20 →
        Dbl.abs (d.getD (2 * k + 2) Dbl.nan - Dbl.fin 10)
          ≤ Dbl.abs (d.getD (2 * k) Dbl.nan - Dbl.fin 10)) := by
  have key : ∀ (kf2 : KalmanFilter) (q2 r2 c2 : ℚ) (g a : List Dbl) (f : List Int),
      0 ≤ q2 → 0 < r2 →
      kf2.params_ = KalmanParams.KalmanParams (Dbl.fin q2) (Dbl.fin r2) →
      g.length = a.length → g.length = f.length →
      (∀ i, i < g.length → a.getD i Dbl.nan = Dbl.fin 0) →
      (∃ j, j < g.length ∧ 1 ≤ f.getD j 0 ∧ (g.getD j Dbl.nan).isfinite = true) →
      (∀ i, i < g.length → 1 ≤ f.getD i 0 → (g.getD i Dbl.nan).isfinite = true →
        g.getD i Dbl.nan = Dbl.fin c2) →
      ∀ i, i < g.length →
        Dbl.abs ((kf2.process g a f).1.getD i Dbl.nan - Dbl.fin c2) = Dbl.fin 0 := by
    intro kf2 q2 r2 c2 g a f h1 h2 h3 h4 h5 h6 h7 h8 i hi
    rw [getD_of_getElem? _ _ _ _ (process_constant kf2 q2 r2 c2 h1 h2 g a f h3 h4 h5 h6 h7 h8 i hi)]
    simp [Dbl.abs]
  refine ⟨?_, ?_, ?_⟩
  · intro i j hij hj _ _
    rw [key kf q r c gps acc fix hq hr hp ha hf hacc hex hgc i (by omega),
      key kf q r c gps acc fix hq hr hp ha hf hacc hex hgc j hj]
    exact le_refl (0 : ℚ)
  · obtain ⟨j, hj, _⟩ := hex
    apply List.ext_getElem?
    intro i
    by_cases hi : i < gps.length
    · rw [process_constant kf q r c hq hr gps acc fix hp ha hf hacc ⟨j, hj, by assumption⟩ hgc i hi]
      simp [hi]
    · rw [List.getElem?_eq_none (by rw [process_length kf gps acc fix ha hf (by omega)]; omega),
        List.getElem?_eq_none (by simpa using hi)]
  · intro other d
    have hl : (exampleGps other).length = 20 := by simp [exampleGps]
    have hla : (exampleGps other).length = exampleAcc.length := by simp [exampleGps, exampleAcc]
    have hlf : (exampleGps other).length = exampleFix.length := by simp [exampleGps, exampleFix]
    have e1 : ∀ i, i < (exampleGps other).length → exampleAcc.getD i Dbl.nan = Dbl.fin 0 := by
      intro i hi
      rw [hl] at hi
      simp only [exampleAcc, List.getD_eq_getElem?_getD, List.getElem?_replicate, hi, if_true,
        Option.getD_some]
    have e2 : ∃ j, j < (exampleGps other).length ∧ 1 ≤ exampleFix.getD j 0 ∧
        ((exampleGps other).getD j Dbl.nan).isfinite = true :=
      ⟨0, by rw [hl]; decide, by decide, rfl⟩
    have e3 : ∀ i, i < (exampleGps other).length → 1 ≤ exampleFix.getD i 0 →
        ((exampleGps other).getD i Dbl.nan).isfinite = true →
        (exampleGps other).getD i Dbl.nan = Dbl.fin 10 := by
      intro i hi hfix _
      rw [hl] at hi
      unfold exampleFix at hfix
      unfold exampleGps
      rw [getD_map_range _ _ _ _ hi] at hfix ⊢
      by_cases hm : i % 2 = 0
      · rw [if_pos hm]
      · rw [if_neg hm] at hfix
        omega
    have hkey := key (KalmanFilter.KalmanFilter
      (KalmanParams.KalmanParams (Dbl.fin 0.1) (Dbl.fin 0.01))) 0.1 0.01 10 (exampleGps other)
      exampleAcc exampleFix (by norm_num) (by norm_num) rfl hla hlf e1 e2 e3
    have hlen := process_length (KalmanFilter.KalmanFilter
      (KalmanParams.KalmanParams (Dbl.fin 0.1) (Dbl.fin 0.01))) (exampleGps other)
      exampleAcc exampleFix hla hlf (by rw [hl]; decide)
    rw [hl] at hkey hlen
    refine ⟨hlen, ?_⟩
    intro k hk
    have h1 := hkey (2 * k + 2) hk
    have h2 := hkey (2 * k) (by omega)
    simp only [d]
    rw [h1, h2]
    exact le_refl (0 : ℚ)

/-- Witness for C14 on the 20-row example, with NaN on the rows without a fix. -/
theorem end_to_end_example_witness :
    (0 : ℚ) ≤ 0.1 ∧ (0 : ℚ) < 0.01 ∧
    (exampleGps Dbl.nan).length = exampleAcc.length ∧
    (exampleGps Dbl.nan).length = exampleFix.length ∧
    ((KalmanFilter.KalmanFilter (KalmanParams.KalmanParams (Dbl.fin 0.1) (Dbl.fin 0.01))).process
      (exampleGps Dbl.nan) exampleAcc exampleFix).1 = List.replicate 20 (Dbl.fin 10) :=
  ⟨by norm_num, by norm_num, by decide, by decide,
    (end_to_end_example
      (KalmanFilter.KalmanFilter (KalmanParams.KalmanParams (Dbl.fin 0.1) (Dbl.fin 0.01)))
      0.1 0.01 10 (exampleGps Dbl.nan) exampleAcc exampleFix (by norm_num) (by norm_num) rfl
      (by decide) (by decide)
      (by decide) ⟨0, by decide, by decide, rfl⟩ (by decide!)).2.1⟩

/-! ## The CSV reader: short lines -/

theorem splitLoop_length (cs : List Char) (tokens : List (List Char)) (cur : List Char)
    (q : Bool) :
    (splitLoop cs tokens cur q).length = tokens.length + commasOutsideQuotes cs q + 1 := by
  induction cs generalizing tokens cur q with
  | nil => simp [splitLoop, commasOutsideQuotes]
  | cons c cs ih =>
    rw [splitLoop, commasOutsideQuotes]
    split
    · rw [ih]
    · split
      · rw [ih, List.length_append, List.length_singleton]; omega
      · rw [ih]

theorem lineTokens_length (line : String) :
    (lineTokens line).length = commasOutsideQuotes line.toList false + 1 := by
  simp [lineTokens, splitLoop_length]

/-- A non-blank line with fewer than six tokens appends no row and clears the flag
`is_first_line`, whatever the flag was. -/
theorem parseLines_short (stod : String → Option Dbl) (stoi : String → Option Int)
    (short : String) (post : List String) (b : Bool) (data : List InputData)
    (hnb : isBlankLine short = false) (hshort : (lineTokens short).length < 6) :
    parseLines stod stoi (short :: post) b data = parseLines stod stoi post false data := by
  rw [parseLines]
  simp only [hnb, hshort, if_true, Bool.false_eq_true, if_false]
  split <;> rfl

/-- Once the flag `is_first_line` is cleared, a short line anywhere changes nothing. -/
theorem parseLines_insert_short (stod : String → Option Dbl) (stoi : String → Option Int)
    (pre post : List String) (short : String) (data : List InputData)
    (hnb : isBlankLine short = false) (hshort : (lineTokens short).length < 6) :
    parseLines stod stoi (pre ++ short :: post) false data
      = parseLines stod stoi (pre ++ post) false data := by
  induction pre generalizing data with
  | nil => exact parseLines_short stod stoi short post false data hnb hshort
  | cons l pre ih =>
    simp only [List.cons_append]
    rw [parseLines, parseLines]
    simp only [Bool.false_and, Bool.false_eq_true, if_false]
    split
    · exact ih data
    · split
      · exact ih data
      · split
        · exact ih _
        · exact ih data

/-- Blank lines in front are skipped and leave the flag as it is. -/
theorem parseLines_skip_blank (stod : String → Option Dbl) (stoi : String → Option Int)
    (pre rest : List String) (b : Bool) (data : List InputData)
    (hpre : ∀ l, l ∈ pre → isBlankLine l = true) :
    parseLines stod stoi (pre ++ rest) b data = parseLines stod stoi rest b data := by
  induction pre with
  | nil => rfl
  | cons l pre ih =>
    simp only [List.cons_append]
    rw [parseLines, hpre l (List.mem_cons_self _ _)]
    simp only [if_true]
    exact ih (fun l2 h2 => hpre l2 (List.mem_cons_of_mem _ h2))

/-- After a non-blank line the flag is cleared: a short line further down changes
nothing. -/
theorem parseLines_insert_after_text (stod : String → Option Dbl) (stoi : String → Option Int)
    (pre post : List String) (short : String) (b : Bool) (data : List InputData)
    (hnb : isBlankLine short = false) (hshort : (lineTokens short).length < 6)
    (hpre : ∃ l, l ∈ pre ∧ isBlankLine l = false) :
    parseLines stod stoi (pre ++ short :: post) b data
      = parseLines stod stoi (pre ++ post) b data := by
  induction pre with
  | nil => obtain ⟨l, hl, _⟩ := hpre; simp at hl
  | cons l pre ih =>
    simp only [List.cons_append]
    rw [parseLines, parseLines]
    by_cases hl : isBlankLine l = true
    · simp only [hl, if_true]
      apply ih
      obtain ⟨l2, h2, h3⟩ := hpre
      rcases List.mem_cons.1 h2 with e | e
      · rw [e, hl] at h3; simp at h3
      · exact ⟨l2, e, h3⟩
    · have hl2 : isBlankLine l = false := by simpa using hl
      simp only [hl2, Bool.false_eq_true, if_false]
      split
      · exact parseLines_insert_short stod stoi pre post short data hnb hshort
      · split
        · exact parseLines_insert_short stod stoi pre post short data hnb hshort
        · split
          · exact parseLines_insert_short stod stoi pre post short _ hnb hshort
          · exact parseLines_insert_short stod stoi pre post short data hnb hshort

/-- When the first non-blank line does not contain `datetime`, the flag `is_first_line`
makes no difference. -/
theorem parseLines_flag_irrelevant (stod : String → Option Dbl) (stoi : String → Option Int)
    (post : List String) (data : List InputData)
    (h : ∀ L, post.find? (fun l => !isBlankLine l) = some L → isHeaderLine L = false) :
    parseLines stod stoi post true data = parseLines stod stoi post false data := by
  induction post with
  | nil => rfl
  | cons l post ih =>
    rw [parseLines, parseLines]
    by_cases hl : isBlankLine l = true
    · simp only [hl, if_true]
      apply ih
      intro L hL
      apply h L
      rw [List.find?_cons]
      simp [hl, hL]
    · have hh : isHeaderLine l = false := by
        apply h l
        rw [List.find?_cons]
        simp [hl]
      have hl2 : isBlankLine l = false := by simpa using hl
      simp only [hl2, hh, if_false, Bool.and_false, Bool.false_and, Bool.false_eq_true]

/-- C20 as amended (short rows are skipped, not fatal): in `parse_csv`, a non-blank line
that splits into fewer than 6 fields (fewer than 5 commas outside double quotes: the
number of fields is that number of commas plus one) appends no row, and `parse_csv` still
returns `true`; every other line is processed as if the short line were absent provided
a non-blank line precedes the short line or the first non-blank line after it does not
contain `datetime` (in any letter case). -/
theorem short_line_skipped (stod : String → Option Dbl) (stoi : String → Option Int)
    (pre post : List String) (short : String) (data : List InputData)
    (hnb : isBlankLine short = false) (hshort : (lineTokens short).length < 6) :
    (((∃ l, l ∈ pre ∧ isBlankLine l = false) ∨
        (∀ L, post.find? (fun l => !isBlankLine l) = some L → isHeaderLine L = false)) →
      parse_csv stod stoi (some (pre ++ short :: post)) data
        = parse_csv stod stoi (some (pre ++ post)) data) ∧
    (parse_csv stod stoi (some (pre ++ short :: post)) data).1 = true ∧
    (∀ (b : Bool) (d : List InputData),
      parseLines stod stoi (short :: post) b d = parseLines stod stoi post false d) ∧
    (lineTokens short).length = commasOutsideQuotes short.toList false + 1 := by
  refine ⟨?_, rfl, fun b d => parseLines_short stod stoi short post b d hnb hshort,
    lineTokens_length short⟩
  intro h
  simp only [parse_csv]
  congr 1
  by_cases hpre : ∃ l, l ∈ pre ∧ isBlankLine l = false
  · exact parseLines_insert_after_text stod stoi pre post short true data hnb hshort hpre
  · have hblank : ∀ l, l ∈ pre → isBlankLine l = true := by
      intro l hl
      by_contra hc
      exact hpre ⟨l, hl, by simpa using hc⟩
    rcases h with h | h
    · exact absurd h hpre
    · rw [parseLines_skip_blank stod stoi pre _ true data hblank,
        parseLines_skip_blank stod stoi pre _ true data hblank,
        parseLines_short stod stoi short post true data hnb hshort,
        parseLines_flag_irrelevant stod stoi post data h]

/-- Witness for C20 as amended: a short line between the header and a data line. -/
theorem short_line_skipped_witness :
    isBlankLine "bad,line" = false ∧ (lineTokens "bad,line").length < 6 ∧
    (∃ l, l ∈ ["DateTime,GPS_Y,GPS_Z,Acc_Y,Acc_Z,Fix"] ∧ isBlankLine l = false) ∧
    parse_csv (fun _ => none) (fun _ => none)
        (some (["DateTime,GPS_Y,GPS_Z,Acc_Y,Acc_Z,Fix"] ++ "bad,line" :: ["t0,,,,,"])) []
      = parse_csv (fun _ => none) (fun _ => none)
        (some (["DateTime,GPS_Y,GPS_Z,Acc_Y,Acc_Z,Fix"] ++ ["t0,,,,,"])) [] :=
  ⟨by decide!, by decide!, ⟨_, List.mem_singleton.2 rfl, by decide!⟩,
    (short_line_skipped (fun _ => none) (fun _ => none)
      ["DateTime,GPS_Y,GPS_Z,Acc_Y,Acc_Z,Fix"] ["t0,,,,,"] "bad,line" [] (by decide!)
      (by decide!)).1 (Or.inl ⟨_, List.mem_singleton.2 rfl, by decide!⟩)⟩

/-- C20 as stated fails when the short line is the first non-blank line: it uses up the
header test, so the next line, which contains `datetime` and has six fields (five empty
ones, converted without any library call), is read as a data row, whereas without the
short line it is skipped as the header. -/
theorem short_first_line_uses_up_header_test :
    isBlankLine "x" = false ∧ isHeaderLine "x" = false ∧ (lineTokens "x").length = 1 ∧
    (∀ (stod : String → Option Dbl) (stoi : String → Option Int),
      parse_csv stod stoi (some ["x", "datetime,,,,,"]) []
        = (true, [⟨"datetime", Dbl.fin 0.0, Dbl.fin 0.0, Dbl.fin 0.0, Dbl.fin 0.0, 0⟩]) ∧
      parse_csv stod stoi (some ["datetime,,,,,"]) [] = (true, [])) :=
  ⟨by decide!, by decide!, by decide!, fun _ _ => ⟨rfl, rfl⟩⟩

/-! ## The CSV reader: numeric fields -/

theorem commasOutsideQuotes_blank (cs : List Char) (q : Bool)
    (h : cs.all isSpaceChar = true) : commasOutsideQuotes cs q = 0 := by
  induction cs generalizing q with
  | nil => rfl
  | cons c cs ih =>
    rw [List.all_cons, Bool.and_eq_true] at h
    obtain ⟨hc, hcs⟩ := h
    rw [commasOutsideQuotes]
    have h1 : c ≠ '"' := by
      rintro rfl
      revert hc; decide
    have h2 : c ≠ ',' := by
      rintro rfl
      revert hc; decide
    simp only [h1, h2, if_false, false_and]
    exact ih q hcs

/-- A blank line has one token. -/
theorem lineTokens_blank (line : String) (h : isBlankLine line = true) :
    (lineTokens line).length = 1 := by
  rw [lineTokens_length]
  unfold isBlankLine at h
  rw [Bool.or_eq_true] at h
  rcases h with h | h
  · have : line.toList = [] := by simpa using h
    rw [this]; rfl
  · rw [commasOutsideQuotes_blank _ _ h]

/-- The `try` block throws as soon as one non-empty numeric token is rejected. -/
theorem parseRow_throws (stod : String → Option Dbl) (stoi : String → Option Int)
    (tokens : List (List Char))
    (h : (∃ i, 1 ≤ i ∧ i ≤ 4 ∧ tokens.getD i [] ≠ [] ∧
          stod (String.mk (tokens.getD i [])) = none) ∨
        (tokens.getD 5 [] ≠ [] ∧ stoi (String.mk (tokens.getD 5 [])) = none)) :
    parseRow stod stoi tokens = none := by
  unfold parseRow
  simp only
  rcases h with ⟨i, h1, h4, hne, hs⟩ | ⟨hne, hs⟩
  · have hi : i = 1 ∨ i = 2 ∨ i = 3 ∨ i = 4 := by omega
    have he : (tokens.getD i []).isEmpty = false := by
      cases h : tokens.getD i [] with
      | nil => exact absurd h hne
      | cons _ _ => rfl
    rcases hi with rfl | rfl | rfl | rfl
    · simp only [he, hs, Bool.false_eq_true, if_false]
    · simp only [he, hs, Bool.false_eq_true, if_false]
      split <;> rfl
    · simp only [he, hs, Bool.false_eq_true, if_false]
      split
      · rfl
      · split <;> rfl
    · simp only [he, hs, Bool.false_eq_true, if_false]
      split
      · rfl
      · split
        · rfl
        · split <;> rfl
  · have he : (tokens.getD 5 []).isEmpty = false := by
      cases h : tokens.getD 5 [] with
      | nil => exact absurd h hne
      | cons _ _ => rfl
    simp only [he, hs, Bool.false_eq_true, if_false]
    split
    · rfl
    · split
      · rfl
      · split
        · rfl
        · split <;> rfl

/-- A line whose row cannot be built appends nothing and clears the flag. -/
theorem parseLines_dropped (stod : String → Option Dbl) (stoi : String → Option Int)
    (line : String) (post : List String) (b : Bool) (data : List InputData)
    (h6 : 6 ≤ (lineTokens line).length)
    (hrow : parseRow stod stoi (lineTokens line) = none) :
    parseLines stod stoi (line :: post) b data = parseLines stod stoi post false data := by
  have hnb : isBlankLine line = false := by
    by_contra hc
    have := lineTokens_blank line (by simpa using hc)
    omega
  rw [parseLines]
  simp only [hnb, Bool.false_eq_true, if_false, hrow]
  split
  · rfl
  · split
    · rfl
    · rfl

/-- Lines read before a dropped line: the loop reaches the dropped line with the rows of
the lines before it and goes on with the lines after it. -/
theorem parseLines_append_dropped (stod : String → Option Dbl) (stoi : String → Option Int)
    (pre post : List String) (line : String) (b : Bool) (data : List InputData)
    (h6 : 6 ≤ (lineTokens line).length)
    (hrow : parseRow stod stoi (lineTokens line) = none) :
    parseLines stod stoi (pre ++ line :: post) b data
      = parseLines stod stoi post false (parseLines stod stoi pre b data) := by
  induction pre generalizing b data with
  | nil => exact parseLines_dropped stod stoi line post b data h6 hrow
  | cons l pre ih =>
    simp only [List.cons_append]
    rw [parseLines, parseLines]
    split
    · exact ih _ _
    · split
      · exact ih _ _
      · split
        · exact ih _ _
        · split
          · exact ih _ _
          · exact ih _ _

/-- C21 as amended (a rejected numeric field drops the row): in `parse_csv`, for every
line with at least 6 fields in which some non-empty field among 1..5 (`GPS_Y`, `GPS_Z`,
`Acc_Y`, `Acc_Z`, `Fix`), after trimming and quote stripping, is rejected by its conversion
(`std::stod` for fields 1..4, `std::stoi` for field 5 throws), no row is appended for that
line and parsing continues with the next line: the rows after the whole file are the rows
of the lines before it, followed by what the loop reads from the lines after it.  An empty
field is not rejected: when the five numeric fields are empty the row is appended with
zeros. -/
theorem malformed_field_drops_row (stod : String → Option Dbl) (stoi : String → Option Int)
    (pre post : List String) (line : String) (data : List InputData)
    (h6 : 6 ≤ (lineTokens line).length)
    (hbad : (∃ i, 1 ≤ i ∧ i ≤ 4 ∧ (lineTokens line).getD i [] ≠ [] ∧
          stod (String.mk ((lineTokens line).getD i [])) = none) ∨
        ((lineTokens line).getD 5 [] ≠ [] ∧
          stoi (String.mk ((lineTokens line).getD 5 [])) = none)) :
    parseRow stod stoi (lineTokens line) = none ∧
    (∀ (b : Bool) (d : List InputData),
      parseLines stod stoi (line :: post) b d = parseLines stod stoi post false d) ∧
    parse_csv stod stoi (some (pre ++ line :: post)) data
      = (true, parseLines stod stoi post false (parse_csv stod stoi (some pre) data).2) ∧
    (∀ tokens : List (List Char), (∀ i, 1 ≤ i → i ≤ 5 → tokens.getD i [] = []) →
      parseRow stod stoi tokens
        = some ⟨String.mk (tokens.getD 0 []), Dbl.fin 0.0, Dbl.fin 0.0, Dbl.fin 0.0,
            Dbl.fin 0.0, 0⟩) := by
  have hrow := parseRow_throws stod stoi (lineTokens line) hbad
  refine ⟨hrow, fun b d => parseLines_dropped stod stoi line post b d h6 hrow, ?_, ?_⟩
  · simp only [parse_csv]
    rw [parseLines_append_dropped stod stoi pre post line true data h6 hrow]
  · intro tokens h
    simp only [parseRow, h 1 (by omega) (by omega), h 2 (by omega) (by omega),
      h 3 (by omega) (by omega), h 4 (by omega) (by omega), h 5 (by omega) (by omega),
      List.isEmpty_nil, if_true]

/-- Witness for C21 as amended: the third of four lines has `abc` as its `GPS_Z` field. -/
theorem malformed_field_drops_row_witness :
    6 ≤ (lineTokens "t1,1.5,abc,2,2,1").length ∧
    ((lineTokens "t1,1.5,abc,2,2,1").getD 2 [] ≠ [] ∧
      demoStod (String.mk ((lineTokens "t1,1.5,abc,2,2,1").getD 2 [])) = none) ∧
    parse_csv demoStod demoStoi
        (some (["DateTime,GPS_Y,GPS_Z,Acc_Y,Acc_Z,Fix", "t0,1.5,2,2,2,1"]
          ++ "t1,1.5,abc,2,2,1" :: ["t2,2,2,2,2,1"])) []
      = (true, [⟨"t0", Dbl.fin 1.5, Dbl.fin 2, Dbl.fin 2, Dbl.fin 2, 1⟩,
          ⟨"t2", Dbl.fin 2, Dbl.fin 2, Dbl.fin 2, Dbl.fin 2, 1⟩]) :=
  ⟨by decide!, by decide!,
    ((malformed_field_drops_row demoStod demoStoi
      ["DateTime,GPS_Y,GPS_Z,Acc_Y,Acc_Z,Fix", "t0,1.5,2,2,2,1"] ["t2,2,2,2,2,1"]
      "t1,1.5,abc,2,2,1" [] (by decide!)
      (Or.inl ⟨2, by decide, by decide, by decide!, by decide!⟩)).2.2.1).trans rfl⟩

/-- C21 as stated fails on empty fields: the line `2024-01-01 00:00:00,,,,,` has six
fields, none of the fields 1..5 is a well-formed number (they are empty), and `parse_csv`
appends the row with `0` in every numeric field, whatever the library conversions do
(they are not called). -/
theorem empty_numeric_fields_read_as_zero :
    6 ≤ (lineTokens "2024-01-01 00:00:00,,,,,").length ∧
    (lineTokens "2024-01-01 00:00:00,,,,,").drop 1 = [[], [], [], [], []] ∧
    (∀ (stod : String → Option Dbl) (stoi : String → Option Int),
      parse_csv stod stoi (some ["2024-01-01 00:00:00,,,,,"]) []
        = (true, [⟨"2024-01-01 00:00:00", Dbl.fin 0.0, Dbl.fin 0.0, Dbl.fin 0.0,
            Dbl.fin 0.0, 0⟩])) :=
  ⟨by decide!, by decide!, fun _ _ => rfl⟩

/-! ## Usage errors -/

/-- C22 (usage errors leave the estimator untouched): for every estimator state, when
`gps`, `acc` and `fix` do not all have the same length, or when they are all empty, both
`process` and `processBatch` return the empty sequence and leave the object (parameters,
state and covariance) exactly as it was; in particular `process` performs no reset. -/
theorem usage_errors_leave_estimator_untouched (kf : KalmanFilter) (gps acc : List Dbl)
    (fix : List Int)
    (h : (gps.length ≠ acc.length ∨ gps.length ≠ fix.length) ∨
      (gps = [] ∧ acc = [] ∧ fix = [])) :
    kf.process gps acc fix = ([], kf) ∧ kf.processBatch gps acc fix = ([], kf) ∧
    (kf.process gps acc fix).2.state_ = kf.state_ ∧
    (kf.process gps acc fix).2.covariance_ = kf.covariance_ ∧
    (kf.processBatch gps acc fix).2.state_ = kf.state_ ∧
    (kf.processBatch gps acc fix).2.covariance_ = kf.covariance_ := by
  have hp : kf.process gps acc fix = ([], kf) := by
    unfold KalmanFilter.process
    rcases h with h | ⟨h1, h2, h3⟩
    · simp only [h, if_true]
    · subst h1 h2 h3
      simp
  have hb : kf.processBatch gps acc fix = ([], kf) := by
    unfold KalmanFilter.processBatch
    rcases h with h | ⟨h1, h2, h3⟩
    · simp only [h, if_true]
    · subst h1 h2 h3
      simp
  rw [hp, hb]
  exact ⟨rfl, rfl, rfl, rfl, rfl, rfl⟩

/-- Witness for C22: two measurements, one acceleration, on an estimator that has left
its start state. -/
theorem usage_errors_leave_estimator_untouched_witness :
    ([Dbl.fin 3, Dbl.fin 4].length ≠ [Dbl.fin 0].length ∨
      [Dbl.fin 3, Dbl.fin 4].length ≠ [(1 : Int), 1].length) ∧
    KalmanFilter.process
        ⟨KalmanParams.KalmanParams (Dbl.fin 0.1) (Dbl.fin 0.01), ⟨Dbl.fin 7, Dbl.fin 2⟩,
          ⟨Dbl.fin 3, Dbl.fin 0, Dbl.fin 0, Dbl.fin 3⟩⟩
        [Dbl.fin 3, Dbl.fin 4] [Dbl.fin 0] [1, 1]
      = ([], ⟨KalmanParams.KalmanParams (Dbl.fin 0.1) (Dbl.fin 0.01), ⟨Dbl.fin 7, Dbl.fin 2⟩,
          ⟨Dbl.fin 3, Dbl.fin 0, Dbl.fin 0, Dbl.fin 3⟩⟩) :=
  ⟨Or.inl (by decide),
    (usage_errors_leave_estimator_untouched
      ⟨KalmanParams.KalmanParams (Dbl.fin 0.1) (Dbl.fin 0.01), ⟨Dbl.fin 7, Dbl.fin 2⟩,
        ⟨Dbl.fin 3, Dbl.fin 0, Dbl.fin 0, Dbl.fin 3⟩⟩
      [Dbl.fin 3, Dbl.fin 4] [Dbl.fin 0] [1, 1] (Or.inl (Or.inl (by decide)))).1⟩

/-! ## The first row of a later chunk -/

/-- Index arithmetic of batch `k` when `k * c < n` and `n + c - 1` does not wrap. -/
theorem batch_indices (c n k : Nat) (hk : k * c < n) (hov : n + c - 1 < SIZE_T_MOD) :
    k * c % SIZE_T_MOD = k * c ∧ (k * c + c) % SIZE_T_MOD = k * c + c ∧
    (min (k * c + c) n + SIZE_T_MOD - k * c) % SIZE_T_MOD = min (k * c + c) n - k * c := by
  refine ⟨Nat.mod_eq_of_lt (by omega), Nat.mod_eq_of_lt (by omega), ?_⟩
  have hle : k * c ≤ min (k * c + c) n := by
    rw [Nat.le_min]; omega
  have e : min (k * c + c) n + SIZE_T_MOD - k * c
      = (min (k * c + c) n - k * c) + SIZE_T_MOD := by omega
  rw [e, Nat.add_mod_right, Nat.mod_eq_of_lt]
  have : min (k * c + c) n ≤ n := Nat.min_le_right _ _
  omega

/-- The loop of `process` / `processBatch` reads the rows it iterates over and no other. -/
theorem processLoop_congr (g a g2 a2 : List Dbl) (f f2 : List Int) (i k : Nat)
    (s : KalmanFilter × List Dbl)
    (h : ∀ j, i ≤ j → j < i + k → g.getD j Dbl.nan = g2.getD j Dbl.nan ∧
      a.getD j Dbl.nan = a2.getD j Dbl.nan ∧ f.getD j 0 = f2.getD j 0) :
    KalmanFilter.processLoop g a f i k s = KalmanFilter.processLoop g2 a2 f2 i k s := by
  induction k generalizing i s with
  | zero => rfl
  | succ k ih =>
    obtain ⟨kf, d⟩ := s
    obtain ⟨e1, e2, e3⟩ := h i (le_refl _) (by omega)
    have es : kf.stepRow g a f i = kf.stepRow g2 a2 f2 i := by
      unfold KalmanFilter.stepRow
      rw [e1, e2, e3]
    simp only [KalmanFilter.processLoop, es]
    exact ih (i + 1) _ (fun j h1 h2 => h j (by omega) (by omega))

/-- The method `processBatch` does not read row 0 of its arguments. -/
theorem processBatch_congr (kf : KalmanFilter) (g a g2 a2 : List Dbl) (f f2 : List Int)
    (hg : g2.length = g.length) (ha : a2.length = a.length) (hf : f2.length = f.length)
    (h : ∀ j, 1 ≤ j → g.getD j Dbl.nan = g2.getD j Dbl.nan ∧
      a.getD j Dbl.nan = a2.getD j Dbl.nan ∧ f.getD j 0 = f2.getD j 0) :
    kf.processBatch g a f = kf.processBatch g2 a2 f2 := by
  unfold KalmanFilter.processBatch
  simp only [hg, ha, hf]
  rw [processLoop_congr g a g2 a2 f f2 1 (g.length - 1) _ (fun j h1 _ => h j h1)]

/-- The object state `processBatch` leaves on a non-empty input of equal lengths. -/
theorem processBatch_snd (kf : KalmanFilter) (g a : List Dbl) (f : List Int)
    (ha : g.length = a.length) (hf : g.length = f.length) (hn : 0 < g.length) :
    (kf.processBatch g a f).2 = kf.stateAfterRow g a f (g.length - 1) := by
  rw [processBatch_eq kf g a f ha hf hn]

/-- First and last row written for one chunk of `m > 0` rows: the first carries the
positions the estimators hold when `processBatch` is entered, the last the positions they
hold when it returns. -/
theorem chunk_rows_link (ky kz : KalmanFilter) (dt : List String) (gy gz ay az : List Dbl)
    (f : List Int) (m : Nat) (hm : 0 < m) (h1 : gy.length = m) (h2 : gz.length = m)
    (h3 : ay.length = m) (h4 : az.length = m) (h5 : f.length = m) :
    ∃ first last : OutputData,
      (makeOutput m dt (ky.processBatch gy ay f).1 (kz.processBatch gz az f).1)[0]? = some first ∧
      (makeOutput m dt (ky.processBatch gy ay f).1 (kz.processBatch gz az f).1)[m - 1]?
        = some last ∧
      first.displacement_y = ky.state_.position ∧
      first.displacement_z = kz.state_.position ∧
      last.displacement_y = (ky.processBatch gy ay f).2.state_.position ∧
      last.displacement_z = (kz.processBatch gz az f).2.state_.position := by
  refine ⟨_, _, makeOutput_getElem? m 0 _ _ _ hm, makeOutput_getElem? m (m - 1) _ _ _ (by omega),
    ?_, ?_, ?_, ?_⟩
  · exact getD_of_getElem? _ _ _ _
      (processBatch_getElem? ky gy ay f (by omega) (by omega) 0 (by omega))
  · exact getD_of_getElem? _ _ _ _
      (processBatch_getElem? kz gz az f (by omega) (by omega) 0 (by omega))
  · rw [processBatch_snd ky gy ay f (by omega) (by omega) (by omega), h1]
    exact getD_of_getElem? _ _ _ _
      (processBatch_getElem? ky gy ay f (by omega) (by omega) (m - 1) (by omega))
  · rw [processBatch_snd kz gz az f (by omega) (by omega) (by omega), h2]
    exact getD_of_getElem? _ _ _ _
      (processBatch_getElem? kz gz az f (by omega) (by omega) (m - 1) (by omega))

/-- One regular iteration of the batch loop, seen from the rows it appends: the last one
carries the positions the estimators are left with, and on a batch that is not the first
the first one carries the positions they had before the iteration. -/
theorem batchBody_link (rows : List InputData) (c k : Nat) (si : Bool) (iok : Nat → Bool)
    (s : BatchState) (hk : k * c < rows.length) (hc : 0 < c)
    (hov : rows.length + c - 1 < SIZE_T_MOD) :
    ∃ (out : List OutputData) (first last : OutputData),
      (batchBody rows c rows.length si iok k s).all_output_data = s.all_output_data ++ out ∧
      out.length = min (k * c + c) rows.length - k * c ∧
      out[0]? = some first ∧ out[out.length - 1]? = some last ∧
      (s.is_first_batch = false →
        first.displacement_y = s.filter_y.state_.position ∧
        first.displacement_z = s.filter_z.state_.position) ∧
      last.displacement_y = (batchBody rows c rows.length si iok k s).filter_y.state_.position ∧
      last.displacement_z
        = (batchBody rows c rows.length si iok k s).filter_z.state_.position := by
  obtain ⟨h0, h1, h2⟩ := batch_indices c rows.length k hk hov
  have hmin : min (k * c + c) rows.length ≤ rows.length := Nat.min_le_right _ _
  have hm : 0 < min (k * c + c) rows.length - k * c := by
    have : k * c < min (k * c + c) rows.length := by rw [Nat.lt_min]; omega
    omega
  obtain ⟨batch, hb⟩ : ∃ b, b = (rows.take (min (k * c + c) rows.length)).drop (k * c) :=
    ⟨_, rfl⟩
  have hbl : batch.length = min (k * c + c) rows.length - k * c := by
    rw [hb, List.length_drop, List.length_take]; omega
  obtain ⟨first, last, e1, e2, e3, e4, e5, e6⟩ := chunk_rows_link
    (if s.is_first_batch = true then
      s.filter_y.reset (initScan (batch.map fun row => row.gps_y) (batch.map fun row => row.fix)
        0 (batch.map fun row => row.gps_y).length
        ((batch.map fun row => row.gps_y).getD 0 Dbl.nan))
     else s.filter_y)
    (if s.is_first_batch = true then
      s.filter_z.reset (initScan (batch.map fun row => row.gps_z) (batch.map fun row => row.fix)
        0 (batch.map fun row => row.gps_z).length
        ((batch.map fun row => row.gps_z).getD 0 Dbl.nan))
     else s.filter_z)
    (batch.map fun row => row.datetime) (batch.map fun row => row.gps_y)
    (batch.map fun row => row.gps_z) (batch.map fun row => row.acc_y)
    (batch.map fun row => row.acc_z) (batch.map fun row => row.fix)
    (min (k * c + c) rows.length - k * c) hm (by simp [hbl]) (by simp [hbl]) (by simp [hbl])
    (by simp [hbl]) (by simp [hbl])
  refine ⟨_, first, last, ?_, makeOutput_length _ _ _ _, e1, ?_, ?_, ?_, ?_⟩
  · simp only [batchBody, h0, h1, h2, ← hb]
  · rw [makeOutput_length]; exact e2
  · intro hfb
    rw [e3, e4]
    simp only [hfb, Bool.false_eq_true, if_false, and_self]
  · rw [e5]
    simp only [batchBody, h0, h1, h2, ← hb]
  · rw [e6]
    simp only [batchBody, h0, h1, h2, ← hb]

/-- After at least one iteration the flag `is_first_batch` is cleared. -/
theorem batchLoop_flag (rows : List InputData) (c n : Nat) (si : Bool) (iok : Nat → Bool)
    (i k : Nat) (s : BatchState) :
    (batchLoop rows c n si iok i (k + 1) s).is_first_batch = false := by
  rw [batchLoop_succ]
  rfl

/-- State of the batch loop after `k + 1` regular iterations: the rows accumulated, the
link between the last row and the estimators, and the equality of the displacements on
both sides of every chunk boundary met so far. -/
theorem batchLoop_boundaries (rows : List InputData) (c : Nat) (si : Bool) (iok : Nat → Bool)
    (s0 : BatchState) (h0 : s0.all_output_data = []) (hc : 0 < c)
    (hov : rows.length + c - 1 < SIZE_T_MOD) (k : Nat)
    (hk : ∀ j, j < k + 1 → j * c < rows.length) :
    (batchLoop rows c rows.length si iok 0 (k + 1) s0).all_output_data.length
      = min ((k + 1) * c) rows.length ∧
    (∃ last : OutputData,
      (batchLoop rows c rows.length si iok 0 (k + 1) s0).all_output_data[
        (batchLoop rows c rows.length si iok 0 (k + 1) s0).all_output_data.length - 1]?
        = some last ∧
      last.displacement_y
        = (batchLoop rows c rows.length si iok 0 (k + 1) s0).filter_y.state_.position ∧
      last.displacement_z
        = (batchLoop rows c rows.length si iok 0 (k + 1) s0).filter_z.state_.position) ∧
    (∀ j, 1 ≤ j → j < k + 1 → ∃ r1 r2 : OutputData,
      (batchLoop rows c rows.length si iok 0 (k + 1) s0).all_output_data[j * c]? = some r1 ∧
      (batchLoop rows c rows.length si iok 0 (k + 1) s0).all_output_data[j * c - 1]? = some r2 ∧
      r1.displacement_y = r2.displacement_y ∧ r1.displacement_z = r2.displacement_z) := by
  induction k with
  | zero =>
    obtain ⟨out, first, last, e1, e2, e3, e4, e5, e6, e7⟩ := batchBody_link rows c 0 si iok s0
      (hk 0 (by omega)) hc hov
    have hl : batchLoop rows c rows.length si iok 0 (0 + 1) s0
        = batchBody rows c rows.length si iok 0 s0 := rfl
    rw [hl, e1, h0, List.nil_append]
    refine ⟨by rw [e2]; simp, ⟨last, e4, ?_, ?_⟩, fun j h1 h2 => by omega⟩
    · rw [e6]
    · rw [e7]
  | succ k ih =>
    obtain ⟨i1, ⟨prev, i2, i3, i4⟩, i5⟩ := ih (fun j hj => hk j (by omega))
    have hkc : (k + 1) * c < rows.length := hk (k + 1) (by omega)
    have hflag := batchLoop_flag rows c rows.length si iok 0 k s0
    obtain ⟨out, first, last, e1, e2, e3, e4, e5, e6, e7⟩ := batchBody_link rows c (k + 1) si iok
      (batchLoop rows c rows.length si iok 0 (k + 1) s0) hkc hc hov
    obtain ⟨e5y, e5z⟩ := e5 hflag
    have hlen : (batchLoop rows c rows.length si iok 0 (k + 1) s0).all_output_data.length
        = (k + 1) * c := by
      rw [i1]; omega
    have hsucc : (k + 1 + 1) * c = (k + 1) * c + c := by ring
    have hout : 0 < out.length := by
      rw [e2]
      have : (k + 1) * c < min ((k + 1) * c + c) rows.length := by rw [Nat.lt_min]; omega
      omega
    have hstep : batchLoop rows c rows.length si iok 0 (k + 1 + 1) s0
        = batchBody rows c rows.length si iok (k + 1)
            (batchLoop rows c rows.length si iok 0 (k + 1) s0) := by
      rw [batchLoop_succ, Nat.zero_add]
    have hpos : 0 < (k + 1) * c := Nat.mul_pos (by omega) hc
    rw [hstep, e1]
    refine ⟨?_, ⟨last, ?_, e6, e7⟩, ?_⟩
    · rw [List.length_append, hlen, e2, hsucc]
      have : (k + 1) * c ≤ min ((k + 1) * c + c) rows.length := by rw [Nat.le_min]; omega
      omega
    · rw [List.getElem?_append_right (by rw [List.length_append]; omega)]
      have e : ((batchLoop rows c rows.length si iok 0 (k + 1) s0).all_output_data ++ out).length
          - 1 - (batchLoop rows c rows.length si iok 0 (k + 1) s0).all_output_data.length
          = out.length - 1 := by
        rw [List.length_append]; omega
      rw [e]; exact e4
    · intro j hj1 hj2
      by_cases hjk : j < k + 1
      · obtain ⟨r1, r2, a1, a2, a3, a4⟩ := i5 j hj1 hjk
        have hjc : j * c < (k + 1) * c := Nat.mul_lt_mul_of_pos_right hjk hc
        refine ⟨r1, r2, ?_, ?_, a3, a4⟩
        · rw [List.getElem?_append_left (by omega)]; exact a1
        · rw [List.getElem?_append_left (by omega)]; exact a2
      · have hj : j = k + 1 := by omega
        subst hj
        refine ⟨first, prev, ?_, ?_, ?_, ?_⟩
        · rw [List.getElem?_append_right (by omega), hlen, Nat.sub_self]; exact e3
        · rw [List.getElem?_append_left (by omega), ← hlen]; exact i2
        · rw [e5y, i3]
        · rw [e5z, i4]

/-- Rows `1, 2, ...` of batch `k ≥ 1` are the same in two inputs that agree off the chunk
starts. -/
theorem batch_getElem?_congr (rows rows2 : List InputData) (c k n : Nat)
    (hag : ∀ i, (i < c ∨ i % c ≠ 0) → rows2[i]? = rows[i]?) (j : Nat) (hj : 1 ≤ j) :
    ((rows2.take (min (k * c + c) n)).drop (k * c))[j]?
      = ((rows.take (min (k * c + c) n)).drop (k * c))[j]? := by
  rw [List.getElem?_drop, List.getElem?_drop, List.getElem?_take, List.getElem?_take]
  by_cases h : k * c + j < min (k * c + c) n
  · rw [if_pos h, if_pos h]
    apply hag
    right
    have hjc : j < c := by
      have := lt_of_lt_of_le h (Nat.min_le_left _ _)
      omega
    rw [Nat.add_comm, Nat.add_mul_mod_self_right, Nat.mod_eq_of_lt hjc]
    omega
  · rw [if_neg h, if_neg h]

/-- A batch that is not the first gives the same result on two inputs that agree off the
chunk starts and on every timestamp. -/
theorem batchBody_congr_later (rows rows2 : List InputData) (c n k : Nat) (si : Bool)
    (iok : Nat → Bool) (s : BatchState) (hk : k * c < n)
    (hov : n + c - 1 < SIZE_T_MOD) (hlen : rows2.length = rows.length)
    (hdt : rows2.map (fun row => row.datetime) = rows.map (fun row => row.datetime))
    (hag : ∀ i, (i < c ∨ i % c ≠ 0) → rows2[i]? = rows[i]?)
    (hfb : s.is_first_batch = false) :
    batchBody rows2 c n si iok k s = batchBody rows c n si iok k s := by
  obtain ⟨h0, h1, h2⟩ := batch_indices c n k hk hov
  obtain ⟨batch, hb⟩ : ∃ b, b = (rows.take (min (k * c + c) n)).drop (k * c) := ⟨_, rfl⟩
  obtain ⟨batch2, hb2⟩ : ∃ b, b = (rows2.take (min (k * c + c) n)).drop (k * c) := ⟨_, rfl⟩
  have hd : batch2.map (fun row => row.datetime) = batch.map (fun row => row.datetime) := by
    rw [hb, hb2, List.map_drop, List.map_take, List.map_drop, List.map_take, hdt]
  have hbl : batch.length = batch2.length := by
    rw [hb, hb2, List.length_drop, List.length_take, List.length_drop, List.length_take, hlen]
  have hel : ∀ j, 1 ≤ j → batch2[j]? = batch[j]? := by
    intro j hj
    rw [hb, hb2]
    exact batch_getElem?_congr rows rows2 c k n hag j hj
  have hy : s.filter_y.processBatch (batch2.map fun row => row.gps_y)
      (batch2.map fun row => row.acc_y) (batch2.map fun row => row.fix)
      = s.filter_y.processBatch (batch.map fun row => row.gps_y)
        (batch.map fun row => row.acc_y) (batch.map fun row => row.fix) := by
    apply processBatch_congr
    · simp [hbl]
    · simp [hbl]
    · simp [hbl]
    · intro j hj
      simp only [List.getD_eq_getElem?_getD, List.getElem?_map, hel j hj, and_self]
  have hz : s.filter_z.processBatch (batch2.map fun row => row.gps_z)
      (batch2.map fun row => row.acc_z) (batch2.map fun row => row.fix)
      = s.filter_z.processBatch (batch.map fun row => row.gps_z)
        (batch.map fun row => row.acc_z) (batch.map fun row => row.fix) := by
    apply processBatch_congr
    · simp [hbl]
    · simp [hbl]
    · simp [hbl]
    · intro j hj
      simp only [List.getD_eq_getElem?_getD, List.getElem?_map, hel j hj, and_self]
  simp only [batchBody, h0, h1, h2, ← hb, ← hb2, hfb, Bool.false_eq_true, if_false, hd, hy, hz]

/-- The first batch reads rows of index below the chunk size only. -/
theorem batchBody_congr_first (rows rows2 : List InputData) (c n : Nat) (si : Bool)
    (iok : Nat → Bool) (s : BatchState)
    (hag : ∀ i, i < c → rows2[i]? = rows[i]?) :
    batchBody rows2 c n si iok 0 s = batchBody rows c n si iok 0 s := by
  have ht : ∀ e, e ≤ c → rows2.take e = rows.take e := by
    intro e he
    apply List.ext_getElem?
    intro i
    rw [List.getElem?_take, List.getElem?_take]
    by_cases h : i < e
    · rw [if_pos h, if_pos h]; exact hag i (by omega)
    · rw [if_neg h, if_neg h]
  have hz : 0 * c % SIZE_T_MOD = 0 := by simp
  have he : min (c % SIZE_T_MOD) n ≤ c :=
    le_trans (Nat.min_le_left _ _) (Nat.mod_le _ _)
  simp only [batchBody, hz, Nat.zero_add, ht _ he]

/-- The batch loop gives the same result on two inputs that agree off the chunk starts
and on every timestamp. -/
theorem batchLoop_congr (rows rows2 : List InputData) (c n : Nat) (si : Bool)
    (iok : Nat → Bool) (s0 : BatchState) (hov : n + c - 1 < SIZE_T_MOD)
    (hlen : rows2.length = rows.length)
    (hdt : rows2.map (fun row => row.datetime) = rows.map (fun row => row.datetime))
    (hag : ∀ i, (i < c ∨ i % c ≠ 0) → rows2[i]? = rows[i]?)
    (m : Nat) (hm : ∀ j, j < m → j * c < n) :
    batchLoop rows2 c n si iok 0 m s0 = batchLoop rows c n si iok 0 m s0 := by
  induction m with
  | zero => rfl
  | succ m ih =>
    rw [batchLoop_succ, batchLoop_succ, ih (fun j hj => hm j (by omega)), Nat.zero_add]
    cases m with
    | zero => exact batchBody_congr_first rows rows2 c n si iok _ (fun i hi => hag i (Or.inl hi))
    | succ m =>
      exact batchBody_congr_later rows rows2 c n (m + 1) si iok _ (hm (m + 1) (by omega)) hov
        hlen hdt hag (batchLoop_flag rows c n si iok 0 m s0)

/-- C23 (no step is taken on the first row of a later chunk): in the batched run with
`20 ≤ c < n`, the final write receives rows such that, for every `k ≥ 1` with `k * c < n`,
the displacements of row `k * c` on both axes are those of row `k * c - 1` (all `n` rows
are there when `n + c - 1` does not wrap; when it wraps no row is written at all); and
the acceleration, measurement and fix of the rows `k * c` influence nothing: two inputs
with the same timestamps that agree on every row other than the rows `k * c`, `k ≥ 1`,
give the same code, the same output rows, the same intermediate files and the same
estimator states. -/
theorem later_chunk_first_row_takes_no_step (rows : List InputData) (Q R : Dbl) (c : Nat)
    (save_ok : Bool) (intermediate_ok : Nat → Bool) (save_intermediate : Bool)
    (hc : 20 ≤ c) (hcn : c < rows.length) (hnM : rows.length < SIZE_T_MOD) :
    (∃ final : List OutputData,
      (process_fusion_batch_internal (some rows) true intermediate_ok Q R c
        save_intermediate).output_file = some final ∧
      (rows.length + c - 1 < SIZE_T_MOD →
        final.length = rows.length ∧
        ∀ k, 1 ≤ k → k * c < rows.length → ∃ r1 r2 : OutputData,
          final[k * c]? = some r1 ∧ final[k * c - 1]? = some r2 ∧
          r1.displacement_y = r2.displacement_y ∧ r1.displacement_z = r2.displacement_z) ∧
      (¬ rows.length + c - 1 < SIZE_T_MOD → final = [])) ∧
    (∀ rows2 : List InputData, rows2.length = rows.length →
      rows2.map (fun row => row.datetime) = rows.map (fun row => row.datetime) →
      (∀ i, (i < c ∨ i % c ≠ 0) → rows2[i]? = rows[i]?) →
      process_fusion_batch_internal (some rows2) save_ok intermediate_ok Q R c save_intermediate
        = process_fusion_batch_internal (some rows) save_ok intermediate_ok Q R c
            save_intermediate) := by
  have hn : 20 ≤ rows.length := by omega
  constructor
  · obtain ⟨e1, _, _⟩ := batched_run_eq rows true intermediate_ok Q R c save_intermediate hn hc
    refine ⟨_, by rw [e1]; rfl, ?_, ?_⟩
    · intro hov
      obtain ⟨b1, b2, b3⟩ := batch_count_regular rows.length c (by omega) hov
      have hpos : 0 < (rows.length + c - 1) / c := Nat.div_pos (by omega) (by omega)
      obtain ⟨nb, hnb⟩ : ∃ nb, (rows.length + c - 1) / c = nb + 1 :=
        ⟨_, (Nat.succ_pred_eq_of_pos hpos).symm⟩
      rw [b1, hnb]
      rw [hnb] at b2 b3
      obtain ⟨l1, _, l3⟩ := batchLoop_boundaries rows c save_intermediate intermediate_ok
        { filter_y := KalmanFilter.KalmanFilter (KalmanParams.KalmanParams Q R),
          filter_z := KalmanFilter.KalmanFilter (KalmanParams.KalmanParams Q R),
          all_output_data := [], is_first_batch := true, intermediate := [] } rfl (by omega) hov
        nb b2
      refine ⟨by rw [l1]; exact Nat.min_eq_right b3, ?_⟩
      intro k hk1 hkc
      apply l3 k hk1
      by_contra hcon
      have : (nb + 1) * c ≤ k * c := Nat.mul_le_mul_right c (by omega)
      omega
    · intro hov
      rw [batch_count_wrapped rows.length c hnM (by omega) hov]
      rfl
  · intro rows2 hlen hdt hag
    have key : batchLoop rows2 c rows.length save_intermediate intermediate_ok 0
          ((rows.length + c - 1) % SIZE_T_MOD / c)
          { filter_y := KalmanFilter.KalmanFilter (KalmanParams.KalmanParams Q R),
            filter_z := KalmanFilter.KalmanFilter (KalmanParams.KalmanParams Q R),
            all_output_data := [], is_first_batch := true, intermediate := [] }
        = batchLoop rows c rows.length save_intermediate intermediate_ok 0
          ((rows.length + c - 1) % SIZE_T_MOD / c)
          { filter_y := KalmanFilter.KalmanFilter (KalmanParams.KalmanParams Q R),
            filter_z := KalmanFilter.KalmanFilter (KalmanParams.KalmanParams Q R),
            all_output_data := [], is_first_batch := true, intermediate := [] } := by
      by_cases hov : rows.length + c - 1 < SIZE_T_MOD
      · obtain ⟨b1, b2, _⟩ := batch_count_regular rows.length c (by omega) hov
        rw [b1]
        exact batchLoop_congr rows rows2 c rows.length save_intermediate intermediate_ok _
          hov hlen hdt hag _ b2
      · rw [batch_count_wrapped rows.length c hnM (by omega) hov]
        rfl
    unfold process_fusion_batch_internal
    simp only [hlen, key]

/-- Witness for C23: 21 rows, chunk size 20; the two inputs differ on row 20 only (an
acceleration in one, the only fix in the other). -/
theorem later_chunk_first_row_takes_no_step_witness :
    20 ≤ 20 ∧ 20 < rowsPush.length ∧ rowsPush.length < SIZE_T_MOD ∧
    process_fusion_batch_internal (some rowsLateFix) true (fun _ => true) (Dbl.fin 0.1)
        (Dbl.fin 0.01) 20 false
      = process_fusion_batch_internal (some rowsPush) true (fun _ => true) (Dbl.fin 0.1)
        (Dbl.fin 0.01) 20 false :=
  ⟨by decide, by decide, by decide,
    (later_chunk_first_row_takes_no_step rowsPush (Dbl.fin 0.1) (Dbl.fin 0.01) 20 true
      (fun _ => true) false (by decide) (by decide) (by decide)).2 rowsLateFix (by decide)
      (by decide) (by
        intro i hi
        by_cases h : i < 20
        · simp only [rowsLateFix, rowsPush]
          rw [List.getElem?_append_left (by simpa using h),
            List.getElem?_append_left (by simpa using h)]
        · by_cases h2 : i = 20
          · subst h2; omega
          · rw [List.getElem?_eq_none (by simp [rowsLateFix]; omega),
              List.getElem?_eq_none (by simp [rowsPush]; omega)])⟩

/-! ## One chunk that holds every row -/

/-- With `n ≤ c` and no wrap-around there is exactly one batch. -/
theorem batch_count_single (n c : Nat) (hn : 0 < n) (hc : n ≤ c)
    (hov : n + c - 1 < SIZE_T_MOD) : (n + c - 1) % SIZE_T_MOD / c = 1 := by
  rw [Nat.mod_eq_of_lt hov]
  apply Nat.div_eq_of_lt_le <;> omega

/-- The only batch of a run whose chunk size is at least the number of rows: both
estimators go through `process` on the whole columns. -/
theorem batchBody_whole (rows : List InputData) (c : Nat) (si : Bool) (iok : Nat → Bool)
    (fy fz : KalmanFilter) (hn : 0 < rows.length) (hc : rows.length ≤ c)
    (hcM : c < SIZE_T_MOD) :
    (batchBody rows c rows.length si iok 0
        { filter_y := fy, filter_z := fz, all_output_data := [], is_first_batch := true,
          intermediate := [] }).all_output_data
      = makeOutput rows.length (rows.map (fun row => row.datetime))
          (fy.process (rows.map (fun row => row.gps_y)) (rows.map (fun row => row.acc_y))
            (rows.map (fun row => row.fix))).1
          (fz.process (rows.map (fun row => row.gps_z)) (rows.map (fun row => row.acc_z))
            (rows.map (fun row => row.fix))).1 ∧
    (batchBody rows c rows.length si iok 0
        { filter_y := fy, filter_z := fz, all_output_data := [], is_first_batch := true,
          intermediate := [] }).filter_y
      = (fy.process (rows.map (fun row => row.gps_y)) (rows.map (fun row => row.acc_y))
            (rows.map (fun row => row.fix))).2 ∧
    (batchBody rows c rows.length si iok 0
        { filter_y := fy, filter_z := fz, all_output_data := [], is_first_batch := true,
          intermediate := [] }).filter_z
      = (fz.process (rows.map (fun row => row.gps_z)) (rows.map (fun row => row.acc_z))
            (rows.map (fun row => row.fix))).2 := by
  have h0 : 0 * c % SIZE_T_MOD = 0 := by simp
  have h1 : (0 + c) % SIZE_T_MOD = c := by rw [Nat.zero_add, Nat.mod_eq_of_lt hcM]
  have h3 : min c rows.length = rows.length := Nat.min_eq_right hc
  have h2 : (rows.length + SIZE_T_MOD - 0) % SIZE_T_MOD = rows.length := by
    rw [Nat.sub_zero, Nat.add_mod_right, Nat.mod_eq_of_lt (by omega)]
  have py := process_eq_processBatch fy (rows.map (fun row => row.gps_y))
    (rows.map (fun row => row.acc_y)) (rows.map (fun row => row.fix)) (by simp) (by simp)
    (by simpa using hn)
  have pz := process_eq_processBatch fz (rows.map (fun row => row.gps_z))
    (rows.map (fun row => row.acc_z)) (rows.map (fun row => row.fix)) (by simp) (by simp)
    (by simpa using hn)
  simp only [batchBody, h0, h1, h3, h2, List.drop_zero, List.take_length, if_true,
    List.nil_append, py, pz, and_self]

/-- C24 (single-chunk equivalence): for every parsed input of `n ≥ 20` rows and every
chunk size `c ≥ n` with `n + c - 1 < 2^64`, the batched run returns the code of the
single-pass run with the same `Q`, `R` and hands the same rows (timestamps and both
displacements) to the final write, `n` of them; the two estimators are left in the same
state as well. -/
theorem single_chunk_equals_single_pass (rows : List InputData) (Q R : Dbl) (c : Nat)
    (save_ok : Bool) (intermediate_ok : Nat → Bool) (save_intermediate : Bool)
    (hn : 20 ≤ rows.length) (hc : rows.length ≤ c) (hov : rows.length + c - 1 < SIZE_T_MOD) :
    (process_fusion_batch_internal (some rows) save_ok intermediate_ok Q R c
        save_intermediate).code
      = (process_fusion_internal (some rows) save_ok Q R).code ∧
    (process_fusion_batch_internal (some rows) save_ok intermediate_ok Q R c
        save_intermediate).output_file
      = (process_fusion_internal (some rows) save_ok Q R).output_file ∧
    (process_fusion_batch_internal (some rows) save_ok intermediate_ok Q R c
        save_intermediate).filter_y
      = (process_fusion_internal (some rows) save_ok Q R).filter_y ∧
    (process_fusion_batch_internal (some rows) save_ok intermediate_ok Q R c
        save_intermediate).filter_z
      = (process_fusion_internal (some rows) save_ok Q R).filter_z ∧
    ∃ final : List OutputData,
      (process_fusion_internal (some rows) true Q R).output_file = some final ∧
      final.length = rows.length := by
  have hn1 : ¬ rows.length < 20 := by omega
  have hc1 : ¬ c < 20 := by omega
  have hb := batch_count_single rows.length c (by omega) hc hov
  obtain ⟨w1, w2, w3⟩ := batchBody_whole rows c save_intermediate intermediate_ok
    (KalmanFilter.KalmanFilter (KalmanParams.KalmanParams Q R))
    (KalmanFilter.KalmanFilter (KalmanParams.KalmanParams Q R)) (by omega) hc (by omega)
  have hloop : ∀ s : BatchState,
      batchLoop rows c rows.length save_intermediate intermediate_ok 0 1 s
        = batchBody rows c rows.length save_intermediate intermediate_ok 0 s := fun s => rfl
  refine ⟨?_, ?_, ?_, ?_, ?_⟩
  · cases save_ok <;>
      simp [process_fusion_batch_internal, process_fusion_internal, hn1, hc1, save_csv]
  · cases save_ok <;>
      simp [process_fusion_batch_internal, process_fusion_internal, hn1, hc1, save_csv, hb,
        hloop, w1]
  · cases save_ok <;>
      simp [process_fusion_batch_internal, process_fusion_internal, hn1, hc1, save_csv, hb,
        hloop, w2]
  · cases save_ok <;>
      simp [process_fusion_batch_internal, process_fusion_internal, hn1, hc1, save_csv, hb,
        hloop, w3]
  · exact ⟨_, by simp [process_fusion_internal, hn1, save_csv]; rfl, makeOutput_length _ _ _ _⟩

/-- Witness for C24: 21 rows in one chunk of size 100. -/
theorem single_chunk_equals_single_pass_witness :
    20 ≤ rowsPush.length ∧ rowsPush.length ≤ 100 ∧ rowsPush.length + 100 - 1 < SIZE_T_MOD ∧
    (process_fusion_batch_internal (some rowsPush) true (fun _ => true) (Dbl.fin 0.1)
        (Dbl.fin 0.01) 100 true).output_file
      = (process_fusion_internal (some rowsPush) true (Dbl.fin 0.1) (Dbl.fin 0.01)).output_file :=
  ⟨by decide, by decide, by decide,
    (single_chunk_equals_single_pass rowsPush (Dbl.fin 0.1) (Dbl.fin 0.01) 100 true
      (fun _ => true) true (by decide) (by decide) (by decide)).2.1⟩

/-! ## The correction stays between prediction and measurement -/

/-- C25 (correction never overshoots): on finite values, for every state with `p00 ≥ 0`
and every `R ≥ 0` with `p00 + R > 0`, the gain `K0 = p00 / (p00 + R)` satisfies
`0 ≤ K0 ≤ 1` and `update z` yields `position' = (1 - K0) * position + K0 * z`, which lies
between the position before the call and the measurement `z`; it is `z` when `R = 0` and
`p00 > 0`, and the position before the call when `p00 = 0`.  The position variance does
not grow: for finite `p10`, `p00' = p00 * R / (p00 + R) ≤ p00`. -/
theorem correction_never_overshoots (P : KalmanParams) (st : KalmanState)
    (cov : KalmanCovariance) (x z a r : ℚ)
    (hR : P.R = Dbl.fin r) (hx : st.position = Dbl.fin x) (h00 : cov.p00 = Dbl.fin a)
    (ha : 0 ≤ a) (hr : 0 ≤ r) (hS : 0 < a + r) :
    let kf : KalmanFilter := ⟨P, st, cov⟩
    let K0 : ℚ := a / (a + r)
    cov.p00 / (cov.p00 + P.R) = Dbl.fin K0 ∧
    0 ≤ K0 ∧ K0 ≤ 1 ∧
    (kf.update (Dbl.fin z)).state_.position = Dbl.fin ((1 - K0) * x + K0 * z) ∧
    min x z ≤ (1 - K0) * x + K0 * z ∧ (1 - K0) * x + K0 * z ≤ max x z ∧
    (r = 0 → 0 < a → (kf.update (Dbl.fin z)).state_.position = Dbl.fin z) ∧
    (a = 0 → (kf.update (Dbl.fin z)).state_.position = Dbl.fin x) ∧
    (∀ b : ℚ, cov.p10 = Dbl.fin b →
      (kf.update (Dbl.fin z)).covariance_.p00 = Dbl.fin (a * r / (a + r))) ∧
    a * r / (a + r) ≤ a := by
  intro kf K0
  have hne : a + r ≠ 0 := ne_of_gt hS
  have hK0 : 0 ≤ K0 := div_nonneg ha hS.le
  have hK1 : K0 ≤ 1 := by
    rw [div_le_one hS]; linarith
  have hpos : (kf.update (Dbl.fin z)).state_.position = Dbl.fin ((1 - K0) * x + K0 * z) := by
    simp only [kf, K0, KalmanFilter.update, hR, hx, h00, Dbl.fin_add_fin,
      Dbl.fin_div_fin_of_ne _ _ hne, Dbl.fin_sub_fin, Dbl.fin_mul_fin]
    congr 1
    ring
  refine ⟨?_, hK0, hK1, hpos, ?_, ?_, ?_, ?_, ?_, ?_⟩
  · rw [h00, hR, Dbl.fin_add_fin, Dbl.fin_div_fin_of_ne _ _ hne]
  · rcases le_total x z with h | h
    · rw [min_eq_left h]; nlinarith
    · rw [min_eq_right h]; nlinarith
  · rcases le_total x z with h | h
    · rw [max_eq_right h]; nlinarith
    · rw [max_eq_left h]; nlinarith
  · intro h0 hpa
    rw [hpos]
    congr 1
    have : K0 = 1 := by
      simp only [K0]; rw [h0, add_zero]; exact div_self (ne_of_gt hpa)
    rw [this]; ring
  · intro h0
    rw [hpos]
    congr 1
    have : K0 = 0 := by simp only [K0]; rw [h0]; simp
    rw [this]; ring
  · intro b hb
    simp only [kf, KalmanFilter.update, hR, h00, hb, Dbl.fin_add_fin,
      Dbl.fin_div_fin_of_ne _ _ hne, Dbl.fin_sub_fin, Dbl.fin_mul_fin, lit_one, lit_zero]
    congr 1
    field_simp
    ring
  · rw [div_le_iff₀ hS]
    nlinarith

/-- Witness for C25 on the identity covariance with `R = 1`: position 0, measurement 2. -/
theorem correction_never_overshoots_witness :
    (0 : ℚ) ≤ 1 ∧ (0 : ℚ) ≤ 1 ∧ (0 : ℚ) < 1 + 1 ∧
    (KalmanFilter.update ⟨⟨Dbl.fin 0, Dbl.fin 1, Dbl.fin 0.01⟩, ⟨Dbl.fin 0, Dbl.fin 0⟩,
        ⟨Dbl.fin 1, Dbl.fin 0, Dbl.fin 0, Dbl.fin 1⟩⟩ (Dbl.fin 2)).state_.position
      = Dbl.fin ((1 - 1 / (1 + 1)) * 0 + 1 / (1 + 1) * 2) :=
  ⟨by norm_num, by norm_num, by norm_num,
    (correction_never_overshoots ⟨Dbl.fin 0, Dbl.fin 1, Dbl.fin 0.01⟩ ⟨Dbl.fin 0, Dbl.fin 0⟩
      ⟨Dbl.fin 1, Dbl.fin 0, Dbl.fin 0, Dbl.fin 1⟩ 0 2 1 1 rfl rfl rfl (by norm_num)
      (by norm_num) (by norm_num)).2.2.2.1⟩

/-! ## Continuation across the chunks, row by row -/

/-- Entry `j` of the slice `[st, e)` of a list. -/
theorem getD_slice {α : Type} (l : List α) (e st j : Nat) (d : α) (h : st + j < e) :
    ((l.take e).drop st).getD j d = l.getD (st + j) d := by
  simp only [List.getD_eq_getElem?_getD, List.getElem?_drop, List.getElem?_take, h, if_true]

/-- The loop of `processBatch` on the slice `[st, e)` of the columns, entered in the state
`sy st`, goes through the states `sy (st + j)` when these follow the step of the loop on
the whole columns. -/
theorem stateAfterRow_slice (E : KalmanFilter) (g a : List Dbl) (f : List Int)
    (sy : Nat → KalmanFilter) (e st j : Nat) (hE : E = sy st)
    (hrec : ∀ t, 1 ≤ t → st + t < e →
      sy (st + t) = (sy (st + t - 1)).stepRow g a f (st + t))
    (hj : st + j < e) :
    E.stateAfterRow ((g.take e).drop st) ((a.take e).drop st) ((f.take e).drop st) j
      = sy (st + j) := by
  induction j with
  | zero => rw [stateAfterRow_zero]; exact hE
  | succ j ih =>
    rw [stateAfterRow_succ, ih (by omega)]
    have h1 := hrec (j + 1) (by omega) hj
    have e1 : st + (j + 1) - 1 = st + j := by omega
    rw [e1] at h1
    rw [h1]
    unfold KalmanFilter.stepRow
    have e2 : st + (1 + j) = st + (j + 1) := by omega
    rw [getD_slice g e st (1 + j) _ (by omega), getD_slice a e st (1 + j) _ (by omega),
      getD_slice f e st (1 + j) _ (by omega), e2]

/-- Rows written for the slice `[st, e)` and the estimators left by `processBatch`, when
the estimators enter in the states `sy st`, `sz st`. -/
theorem chunk_output_states (KY KZ : KalmanFilter) (dt : List String)
    (gy gz ay az : List Dbl) (f : List Int) (sy sz : Nat → KalmanFilter) (n e st : Nat)
    (h1 : gy.length = n) (h2 : gz.length = n) (h3 : ay.length = n) (h4 : az.length = n)
    (h5 : f.length = n) (hst : st < e) (he : e ≤ n)
    (hy : KY = sy st) (hz : KZ = sz st)
    (hry : ∀ t, 1 ≤ t → st + t < e →
      sy (st + t) = (sy (st + t - 1)).stepRow gy ay f (st + t))
    (hrz : ∀ t, 1 ≤ t → st + t < e →
      sz (st + t) = (sz (st + t - 1)).stepRow gz az f (st + t)) :
    (∀ j, st + j < e →
      (makeOutput (e - st) ((dt.take e).drop st)
        (KY.processBatch ((gy.take e).drop st) ((ay.take e).drop st) ((f.take e).drop st)).1
        (KZ.processBatch ((gz.take e).drop st) ((az.take e).drop st) ((f.take e).drop st)).1)[j]?
        = some ⟨dt.getD (st + j) "", (sy (st + j)).state_.position,
            (sz (st + j)).state_.position⟩) ∧
    (KY.processBatch ((gy.take e).drop st) ((ay.take e).drop st) ((f.take e).drop st)).2
      = sy (e - 1) ∧
    (KZ.processBatch ((gz.take e).drop st) ((az.take e).drop st) ((f.take e).drop st)).2
      = sz (e - 1) := by
  have l1 : ((gy.take e).drop st).length = e - st := by
    rw [List.length_drop, List.length_take]; omega
  have l2 : ((gz.take e).drop st).length = e - st := by
    rw [List.length_drop, List.length_take]; omega
  have l3 : ((ay.take e).drop st).length = e - st := by
    rw [List.length_drop, List.length_take]; omega
  have l4 : ((az.take e).drop st).length = e - st := by
    rw [List.length_drop, List.length_take]; omega
  have l5 : ((f.take e).drop st).length = e - st := by
    rw [List.length_drop, List.length_take]; omega
  have em : st + (e - st - 1) = e - 1 := by omega
  refine ⟨?_, ?_, ?_⟩
  · intro j hj
    rw [makeOutput_getElem? _ j _ _ _ (by omega), getD_slice dt e st j _ hj,
      getD_of_getElem? _ _ _ _ (processBatch_getElem? KY _ _ _ (by omega) (by omega) j (by omega)),
      getD_of_getElem? _ _ _ _ (processBatch_getElem? KZ _ _ _ (by omega) (by omega) j (by omega)),
      stateAfterRow_slice KY gy ay f sy e st j hy hry hj,
      stateAfterRow_slice KZ gz az f sz e st j hz hrz hj]
  · rw [processBatch_snd KY _ _ _ (by omega) (by omega) (by omega), l1,
      stateAfterRow_slice KY gy ay f sy e st (e - st - 1) hy hry (by omega), em]
  · rw [processBatch_snd KZ _ _ _ (by omega) (by omega) (by omega), l2,
      stateAfterRow_slice KZ gz az f sz e st (e - st - 1) hz hrz (by omega), em]

/-- One regular iteration of the batch loop in terms of the slices `[k*c, min (k*c+c) n)`
of the columns. -/
theorem batchBody_slices (rows : List InputData) (c k : Nat) (si : Bool) (iok : Nat → Bool)
    (s : BatchState) (hk : k * c < rows.length) (hov : rows.length + c - 1 < SIZE_T_MOD)
    (KY KZ : KalmanFilter)
    (hKY : KY = if s.is_first_batch = true then
        s.filter_y.reset (initScan
          (((rows.map fun row => row.gps_y).take (min (k * c + c) rows.length)).drop (k * c))
          (((rows.map fun row => row.fix).take (min (k * c + c) rows.length)).drop (k * c)) 0
          (((rows.map fun row => row.gps_y).take (min (k * c + c) rows.length)).drop (k * c)).length
          ((((rows.map fun row => row.gps_y).take (min (k * c + c) rows.length)).drop
            (k * c)).getD 0 Dbl.nan))
      else s.filter_y)
    (hKZ : KZ = if s.is_first_batch = true then
        s.filter_z.reset (initScan
          (((rows.map fun row => row.gps_z).take (min (k * c + c) rows.length)).drop (k * c))
          (((rows.map fun row => row.fix).take (min (k * c + c) rows.length)).drop (k * c)) 0
          (((rows.map fun row => row.gps_z).take (min (k * c + c) rows.length)).drop (k * c)).length
          ((((rows.map fun row => row.gps_z).take (min (k * c + c) rows.length)).drop
            (k * c)).getD 0 Dbl.nan))
      else s.filter_z) :
    (batchBody rows c rows.length si iok k s).all_output_data
      = s.all_output_data ++
        makeOutput (min (k * c + c) rows.length - k * c)
          (((rows.map fun row => row.datetime).take (min (k * c + c) rows.length)).drop (k * c))
          (KY.processBatch
            (((rows.map fun row => row.gps_y).take (min (k * c + c) rows.length)).drop (k * c))
            (((rows.map fun row => row.acc_y).take (min (k * c + c) rows.length)).drop (k * c))
            (((rows.map fun row => row.fix).take (min (k * c + c) rows.length)).drop (k * c))).1
          (KZ.processBatch
            (((rows.map fun row => row.gps_z).take (min (k * c + c) rows.length)).drop (k * c))
            (((rows.map fun row => row.acc_z).take (min (k * c + c) rows.length)).drop (k * c))
            (((rows.map fun row => row.fix).take (min (k * c + c) rows.length)).drop (k * c))).1 ∧
    (batchBody rows c rows.length si iok k s).filter_y
      = (KY.processBatch
            (((rows.map fun row => row.gps_y).take (min (k * c + c) rows.length)).drop (k * c))
            (((rows.map fun row => row.acc_y).take (min (k * c + c) rows.length)).drop (k * c))
            (((rows.map fun row => row.fix).take (min (k * c + c) rows.length)).drop (k * c))).2 ∧
    (batchBody rows c rows.length si iok k s).filter_z
      = (KZ.processBatch
            (((rows.map fun row => row.gps_z).take (min (k * c + c) rows.length)).drop (k * c))
            (((rows.map fun row => row.acc_z).take (min (k * c + c) rows.length)).drop (k * c))
            (((rows.map fun row => row.fix).take (min (k * c + c) rows.length)).drop (k * c))).2 := by
  obtain ⟨h0, h1, h2⟩ := batch_indices c rows.length k hk hov
  subst hKY hKZ
  simp only [batchBody, h0, h1, h2, List.map_drop, List.map_take, and_self]

/-- The step of the driver's recursion inside a chunk: rows `k*c + t`, `1 ≤ t < c`, are not
chunk starts. -/
theorem chunk_step_rec (g a : List Dbl) (f : List Int) (sy : Nat → KalmanFilter) (c n k : Nat)
    (hry : ∀ i, 1 ≤ i → i < n →
      sy i = if i % c = 0 then sy (i - 1) else (sy (i - 1)).stepRow g a f i)
    (t : Nat) (h1 : 1 ≤ t) (h2 : k * c + t < min (k * c + c) n) :
    sy (k * c + t) = (sy (k * c + t - 1)).stepRow g a f (k * c + t) := by
  have hlt : k * c + t < k * c + c := lt_of_lt_of_le h2 (Nat.min_le_left _ _)
  have hn : k * c + t < n := lt_of_lt_of_le h2 (Nat.min_le_right _ _)
  have hmod : (k * c + t) % c ≠ 0 := by
    rw [Nat.add_comm, Nat.add_mul_mod_self_right, Nat.mod_eq_of_lt (by omega)]
    omega
  rw [hry (k * c + t) (by omega) hn, if_neg hmod]

/-- State of the batch loop after `k + 1` regular iterations, row by row: the rows written
carry the positions of the states `sy i`, `sz i` of the driver's recursion (start from the
value scanned in the first chunk, no step on a row `k*c`, the step of the loop of
`processBatch` on every other row), and the estimators hold the last of these states. -/
theorem batchLoop_states (rows : List InputData) (c : Nat) (si : Bool) (iok : Nat → Bool)
    (KY KZ : KalmanFilter) (sy sz : Nat → KalmanFilter) (hc : 0 < c)
    (hov : rows.length + c - 1 < SIZE_T_MOD)
    (hy0 : sy 0 = KY.reset (initScan (rows.map fun row => row.gps_y)
      (rows.map fun row => row.fix) 0 (min c rows.length)
      ((rows.map fun row => row.gps_y).getD 0 Dbl.nan)))
    (hz0 : sz 0 = KZ.reset (initScan (rows.map fun row => row.gps_z)
      (rows.map fun row => row.fix) 0 (min c rows.length)
      ((rows.map fun row => row.gps_z).getD 0 Dbl.nan)))
    (hry : ∀ i, 1 ≤ i → i < rows.length →
      sy i = if i % c = 0 then sy (i - 1)
        else (sy (i - 1)).stepRow (rows.map fun row => row.gps_y)
          (rows.map fun row => row.acc_y) (rows.map fun row => row.fix) i)
    (hrz : ∀ i, 1 ≤ i → i < rows.length →
      sz i = if i % c = 0 then sz (i - 1)
        else (sz (i - 1)).stepRow (rows.map fun row => row.gps_z)
          (rows.map fun row => row.acc_z) (rows.map fun row => row.fix) i)
    (k : Nat) (hk : ∀ j, j < k + 1 → j * c < rows.length) :
    (batchLoop rows c rows.length si iok 0 (k + 1)
        { filter_y := KY, filter_z := KZ, all_output_data := [], is_first_batch := true,
          intermediate := [] }).all_output_data.length = min ((k + 1) * c) rows.length ∧
    (∀ i, i < min ((k + 1) * c) rows.length →
      (batchLoop rows c rows.length si iok 0 (k + 1)
        { filter_y := KY, filter_z := KZ, all_output_data := [], is_first_batch := true,
          intermediate := [] }).all_output_data[i]?
        = some ⟨(rows.map fun row => row.datetime).getD i "", (sy i).state_.position,
            (sz i).state_.position⟩) ∧
    (batchLoop rows c rows.length si iok 0 (k + 1)
        { filter_y := KY, filter_z := KZ, all_output_data := [], is_first_batch := true,
          intermediate := [] }).filter_y = sy (min ((k + 1) * c) rows.length - 1) ∧
    (batchLoop rows c rows.length si iok 0 (k + 1)
        { filter_y := KY, filter_z := KZ, all_output_data := [], is_first_batch := true,
          intermediate := [] }).filter_z = sz (min ((k + 1) * c) rows.length - 1) := by
  induction k with
  | zero =>
    have hn0 : 0 * c < rows.length := hk 0 (by omega)
    have hl : batchLoop rows c rows.length si iok 0 (0 + 1)
        { filter_y := KY, filter_z := KZ, all_output_data := [], is_first_batch := true,
          intermediate := [] }
        = batchBody rows c rows.length si iok 0
            { filter_y := KY, filter_z := KZ, all_output_data := [], is_first_batch := true,
              intermediate := [] } := rfl
    have hmin : min (0 * c + c) rows.length ≤ rows.length := Nat.min_le_right _ _
    have hpos : 0 * c < min (0 * c + c) rows.length := by rw [Nat.lt_min]; omega
    have hscan : ∀ (g : List Dbl) (f : List Int), g.length = rows.length →
        f.length = rows.length →
        initScan ((g.take (min (0 * c + c) rows.length)).drop (0 * c))
          ((f.take (min (0 * c + c) rows.length)).drop (0 * c)) 0
          ((g.take (min (0 * c + c) rows.length)).drop (0 * c)).length
          (((g.take (min (0 * c + c) rows.length)).drop (0 * c)).getD 0 Dbl.nan)
        = initScan g f 0 (min c rows.length) (g.getD 0 Dbl.nan) := by
      intro g f hg hf
      simp only [Nat.zero_mul, Nat.zero_add, List.drop_zero]
      have hlen : (g.take (min c rows.length)).length = min c rows.length := by
        rw [List.length_take, hg]; omega
      rw [hlen, initScan_take g f _ 0 _ _ (by omega), getD_take g _ 0 _ (by omega)]
    have hsy := hscan (rows.map fun row => row.gps_y) (rows.map fun row => row.fix)
      (by simp) (by simp)
    have hsz := hscan (rows.map fun row => row.gps_z) (rows.map fun row => row.fix)
      (by simp) (by simp)
    obtain ⟨a1, a2, a3⟩ := batchBody_slices rows c 0 si iok
      { filter_y := KY, filter_z := KZ, all_output_data := [], is_first_batch := true,
        intermediate := [] } hn0 hov (sy 0) (sz 0)
      (by rw [hy0]; simp only [hsy, if_true]) (by rw [hz0]; simp only [hsz, if_true])
    obtain ⟨o1, o2, o3⟩ := chunk_output_states (sy 0) (sz 0) (rows.map fun row => row.datetime)
      (rows.map fun row => row.gps_y) (rows.map fun row => row.gps_z)
      (rows.map fun row => row.acc_y) (rows.map fun row => row.acc_z)
      (rows.map fun row => row.fix) sy sz rows.length (min (0 * c + c) rows.length) (0 * c)
      (by simp) (by simp) (by simp) (by simp) (by simp) hpos hmin
      (by rw [Nat.zero_mul]) (by rw [Nat.zero_mul])
      (chunk_step_rec _ _ _ sy c rows.length 0 hry)
      (chunk_step_rec _ _ _ sz c rows.length 0 hrz)
    have hm : min ((0 + 1) * c) rows.length = min (0 * c + c) rows.length := by
      simp
    rw [hl, a1, a2, a3, hm]
    simp only [List.nil_append]
    refine ⟨by rw [makeOutput_length]; omega, ?_, o2, o3⟩
    intro i hi
    have := o1 i (by omega)
    rw [this]
    simp
  | succ k ih =>
    obtain ⟨i1, i2, i3, i4⟩ := ih (fun j hj => hk j (by omega))
    have hkc : (k + 1) * c < rows.length := hk (k + 1) (by omega)
    have hL : min ((k + 1) * c) rows.length = (k + 1) * c := by omega
    rw [hL] at i1 i2 i3 i4
    have hflag := batchLoop_flag rows c rows.length si iok 0 k
      { filter_y := KY, filter_z := KZ, all_output_data := [], is_first_batch := true,
        intermediate := [] }
    have hstep : batchLoop rows c rows.length si iok 0 (k + 1 + 1)
        { filter_y := KY, filter_z := KZ, all_output_data := [], is_first_batch := true,
          intermediate := [] }
        = batchBody rows c rows.length si iok (k + 1)
            (batchLoop rows c rows.length si iok 0 (k + 1)
              { filter_y := KY, filter_z := KZ, all_output_data := [], is_first_batch := true,
                intermediate := [] }) := by
      rw [batchLoop_succ, Nat.zero_add]
    obtain ⟨a1, a2, a3⟩ := batchBody_slices rows c (k + 1) si iok
      (batchLoop rows c rows.length si iok 0 (k + 1)
        { filter_y := KY, filter_z := KZ, all_output_data := [], is_first_batch := true,
          intermediate := [] }) hkc hov _ _ rfl rfl
    rw [hflag] at a1 a2 a3
    simp only [Bool.false_eq_true, if_false] at a1 a2 a3
    have hmin : min ((k + 1) * c + c) rows.length ≤ rows.length := Nat.min_le_right _ _
    have hpos0 : 0 < (k + 1) * c := Nat.mul_pos (by omega) hc
    have hpos : (k + 1) * c < min ((k + 1) * c + c) rows.length := by rw [Nat.lt_min]; omega
    have hsty : sy ((k + 1) * c) = sy ((k + 1) * c - 1) := by
      rw [hry ((k + 1) * c) hpos0 hkc, if_pos (Nat.mul_mod_left _ _)]
    have hstz : sz ((k + 1) * c) = sz ((k + 1) * c - 1) := by
      rw [hrz ((k + 1) * c) hpos0 hkc, if_pos (Nat.mul_mod_left _ _)]
    obtain ⟨o1, o2, o3⟩ := chunk_output_states _ _ (rows.map fun row => row.datetime)
      (rows.map fun row => row.gps_y) (rows.map fun row => row.gps_z)
      (rows.map fun row => row.acc_y) (rows.map fun row => row.acc_z)
      (rows.map fun row => row.fix) sy sz rows.length (min ((k + 1) * c + c) rows.length)
      ((k + 1) * c)
      (by simp) (by simp) (by simp) (by simp) (by simp) hpos hmin
      (i3.trans hsty.symm) (i4.trans hstz.symm)
      (chunk_step_rec _ _ _ sy c rows.length (k + 1) hry)
      (chunk_step_rec _ _ _ sz c rows.length (k + 1) hrz)
    have hsucc : (k + 1 + 1) * c = (k + 1) * c + c := by ring
    rw [hstep, a1, a2, a3, hsucc]
    refine ⟨?_, ?_, o2, o3⟩
    · rw [List.length_append, i1, makeOutput_length]; omega
    · intro i hi
      by_cases hlt : i < (k + 1) * c
      · rw [List.getElem?_append_left (by omega)]
        exact i2 i hlt
      · rw [List.getElem?_append_right (by omega), i1, o1 (i - (k + 1) * c) (by omega)]
        have e : (k + 1) * c + (i - (k + 1) * c) = i := by omega
        rw [e]

/-- A sequence defined by its first term and a step. -/
theorem exists_sequence {α : Type} (x0 : α) (F : Nat → α → α) :
    ∃ s : Nat → α, s 0 = x0 ∧ ∀ i, s (i + 1) = F i (s i) :=
  ⟨fun i => Nat.rec x0 F i, rfl, fun _ => rfl⟩

/-- When the first chunk holds a row valid for a correction, or no row is valid, the scan
of the first chunk finds what the scan of the whole column finds. -/
theorem initScan_first_chunk (g : List Dbl) (f : List Int) (c : Nat) (d : Dbl)
    (hfix : FirstChunkFix g f c) :
    initScan g f 0 (min c g.length) d = initScan g f 0 g.length d := by
  have e : g.length = min c g.length + (g.length - min c g.length) := by omega
  conv_rhs => rw [e]
  symm
  apply initScan_extend
  rcases hfix with ⟨j, h1, h2, h3⟩ | hnone
  · exact Or.inl ⟨j, Nat.zero_le _, by omega, h3⟩
  · exact Or.inr (fun j _ h2 => hnone j (by omega))

/-- Rows and estimators of the single-pass run in terms of the states of the loop of
`process`. -/
theorem single_pass_states (rows : List InputData) (Q R : Dbl) (save_ok : Bool)
    (hn : 20 ≤ rows.length) :
    (process_fusion_internal (some rows) true Q R).output_file
      = some (makeOutput rows.length (rows.map fun row => row.datetime)
          ((KalmanFilter.KalmanFilter (KalmanParams.KalmanParams Q R)).process
            (rows.map fun row => row.gps_y) (rows.map fun row => row.acc_y)
            (rows.map fun row => row.fix)).1
          ((KalmanFilter.KalmanFilter (KalmanParams.KalmanParams Q R)).process
            (rows.map fun row => row.gps_z) (rows.map fun row => row.acc_z)
            (rows.map fun row => row.fix)).1) ∧
    (process_fusion_internal (some rows) save_ok Q R).filter_y
      = some ((KalmanFilter.KalmanFilter (KalmanParams.KalmanParams Q R)).process
            (rows.map fun row => row.gps_y) (rows.map fun row => row.acc_y)
            (rows.map fun row => row.fix)).2 ∧
    (process_fusion_internal (some rows) save_ok Q R).filter_z
      = some ((KalmanFilter.KalmanFilter (KalmanParams.KalmanParams Q R)).process
            (rows.map fun row => row.gps_z) (rows.map fun row => row.acc_z)
            (rows.map fun row => row.fix)).2 := by
  have hn1 : ¬ rows.length < 20 := by omega
  refine ⟨?_, ?_, ?_⟩
  · simp [process_fusion_internal, hn1, save_csv]
  · cases save_ok <;> simp [process_fusion_internal, hn1, save_csv]
  · cases save_ok <;> simp [process_fusion_internal, hn1, save_csv]

/-- What `process` returns in terms of the states of its loop. -/
theorem process_states (kf : KalmanFilter) (g a : List Dbl) (f : List Int)
    (ha : g.length = a.length) (hf : g.length = f.length) (hn : 0 < g.length) :
    (∀ i, i < g.length →
      (kf.process g a f).1.getD i Dbl.nan
        = ((kf.reset (initScan g f 0 g.length (g.getD 0 Dbl.nan))).stateAfterRow g a f
            i).state_.position) ∧
    (kf.process g a f).2
      = (kf.reset (initScan g f 0 g.length (g.getD 0 Dbl.nan))).stateAfterRow g a f
          (g.length - 1) := by
  rw [process_eq_processBatch kf g a f ha hf hn]
  exact ⟨fun i hi => getD_of_getElem? _ _ _ _ (processBatch_getElem? _ g a f ha hf i hi),
    processBatch_snd _ g a f ha hf hn⟩

/-- The estimators the batched run leaves, once both gates are passed. -/
theorem batched_run_filters (rows : List InputData) (save_ok : Bool) (iok : Nat → Bool)
    (Q R : Dbl) (c : Nat) (si : Bool) (hn : 20 ≤ rows.length) (hc : 20 ≤ c) :
    (process_fusion_batch_internal (some rows) save_ok iok Q R c si).filter_y
      = some (batchLoop rows c rows.length si iok 0
          ((rows.length + c - 1) % SIZE_T_MOD / c)
          { filter_y := KalmanFilter.KalmanFilter (KalmanParams.KalmanParams Q R),
            filter_z := KalmanFilter.KalmanFilter (KalmanParams.KalmanParams Q R),
            all_output_data := [], is_first_batch := true, intermediate := [] }).filter_y ∧
    (process_fusion_batch_internal (some rows) save_ok iok Q R c si).filter_z
      = some (batchLoop rows c rows.length si iok 0
          ((rows.length + c - 1) % SIZE_T_MOD / c)
          { filter_y := KalmanFilter.KalmanFilter (KalmanParams.KalmanParams Q R),
            filter_z := KalmanFilter.KalmanFilter (KalmanParams.KalmanParams Q R),
            all_output_data := [], is_first_batch := true, intermediate := [] }).filter_z := by
  have hn1 : ¬ rows.length < 20 := by omega
  have hc1 : ¬ c < 20 := by omega
  cases save_ok <;> simp [process_fusion_batch_internal, hn1, hc1, save_csv]

/-- Within the first chunk the driver's recursion and the recursion of `process` go
through the same states when they start from the same state. -/
theorem first_chunk_states (g a : List Dbl) (f : List Int) (sy ty : Nat → KalmanFilter)
    (c n : Nat) (h0 : sy 0 = ty 0)
    (hs : ∀ i, 1 ≤ i → i < n →
      sy i = if i % c = 0 then sy (i - 1) else (sy (i - 1)).stepRow g a f i)
    (ht : ∀ i, 1 ≤ i → i < n → ty i = (ty (i - 1)).stepRow g a f i)
    (i : Nat) (hic : i < c) (hin : i < n) : sy i = ty i := by
  induction i with
  | zero => exact h0
  | succ i ih =>
    have hmod : (i + 1) % c ≠ 0 := by
      rw [Nat.mod_eq_of_lt hic]; omega
    rw [hs (i + 1) (by omega) hin, if_neg hmod, ht (i + 1) (by omega) hin,
      Nat.add_sub_cancel, ih (by omega) (by omega)]

/-- C1 as amended (continuation equivalence, row by row): for every `Q`, `R`, every row
sequence of `n ≥ 20` rows and every chunk size `c ≥ 20` with `n + c - 1 < 2^64`, the
batched run returns the code of the single-pass run and both hand `n` rows with the same
timestamps to the final write.  On each axis the single-pass displacements are the
positions of the states `t 0 = reset x`, `t i = step of row i on t (i-1)`, where `x` is the
first valid measurement of the whole sequence (`gps[0]` when there is none) and the step
is the body of the loop of `process` (`stepRow`: predict with `acc[i]`, then update with
`gps[i]` when `fix[i] ≥ 1` and `gps[i]` is finite).  The batched displacements are the
positions of the states `s 0 = reset y`, `s i = s (i-1)` when `c` divides `i` (the first
row of a later chunk takes no step) and `s i = step of row i on s (i-1)` otherwise, where
`y` is the first valid measurement of the first chunk (`gps[0]` when it has none): every
later chunk is filtered from the state the chunk before left.  The estimators are left in
`s (n-1)` and `t (n-1)`.  Hence a batched row of index `< c` carries the single-pass
displacement on each axis whose scan of the first chunk finds what the scan of the whole
sequence finds (`FirstChunkFix`). -/
theorem batched_continuation_row_by_row (rows : List InputData) (Q R : Dbl) (c : Nat)
    (save_ok : Bool) (intermediate_ok : Nat → Bool) (save_intermediate : Bool)
    (hn : 20 ≤ rows.length) (hc : 20 ≤ c) (hov : rows.length + c - 1 < SIZE_T_MOD) :
    (process_fusion_batch_internal (some rows) save_ok intermediate_ok Q R c
        save_intermediate).code
      = (process_fusion_internal (some rows) save_ok Q R).code ∧
    ∃ (ob os : List OutputData) (sy sz ty tz : Nat → KalmanFilter),
      (process_fusion_batch_internal (some rows) true intermediate_ok Q R c
        save_intermediate).output_file = some ob ∧
      (process_fusion_internal (some rows) true Q R).output_file = some os ∧
      ob.length = rows.length ∧ os.length = rows.length ∧
      ty 0 = (KalmanFilter.KalmanFilter (KalmanParams.KalmanParams Q R)).reset
        (initScan (rows.map fun row => row.gps_y) (rows.map fun row => row.fix) 0 rows.length
          ((rows.map fun row => row.gps_y).getD 0 Dbl.nan)) ∧
      tz 0 = (KalmanFilter.KalmanFilter (KalmanParams.KalmanParams Q R)).reset
        (initScan (rows.map fun row => row.gps_z) (rows.map fun row => row.fix) 0 rows.length
          ((rows.map fun row => row.gps_z).getD 0 Dbl.nan)) ∧
      (∀ i, 1 ≤ i → i < rows.length →
        ty i = (ty (i - 1)).stepRow (rows.map fun row => row.gps_y)
          (rows.map fun row => row.acc_y) (rows.map fun row => row.fix) i ∧
        tz i = (tz (i - 1)).stepRow (rows.map fun row => row.gps_z)
          (rows.map fun row => row.acc_z) (rows.map fun row => row.fix) i) ∧
      sy 0 = (KalmanFilter.KalmanFilter (KalmanParams.KalmanParams Q R)).reset
        (initScan (rows.map fun row => row.gps_y) (rows.map fun row => row.fix) 0
          (min c rows.length) ((rows.map fun row => row.gps_y).getD 0 Dbl.nan)) ∧
      sz 0 = (KalmanFilter.KalmanFilter (KalmanParams.KalmanParams Q R)).reset
        (initScan (rows.map fun row => row.gps_z) (rows.map fun row => row.fix) 0
          (min c rows.length) ((rows.map fun row => row.gps_z).getD 0 Dbl.nan)) ∧
      (∀ i, 1 ≤ i → i < rows.length →
        sy i = (if i % c = 0 then sy (i - 1)
          else (sy (i - 1)).stepRow (rows.map fun row => row.gps_y)
            (rows.map fun row => row.acc_y) (rows.map fun row => row.fix) i) ∧
        sz i = (if i % c = 0 then sz (i - 1)
          else (sz (i - 1)).stepRow (rows.map fun row => row.gps_z)
            (rows.map fun row => row.acc_z) (rows.map fun row => row.fix) i)) ∧
      (∀ i, i < rows.length → ∃ b s : OutputData,
        ob[i]? = some b ∧ os[i]? = some s ∧ b.datetime = s.datetime ∧
        b.displacement_y = (sy i).state_.position ∧
        b.displacement_z = (sz i).state_.position ∧
        s.displacement_y = (ty i).state_.position ∧
        s.displacement_z = (tz i).state_.position ∧
        (i < c →
          FirstChunkFix (rows.map fun row => row.gps_y) (rows.map fun row => row.fix) c →
          b.displacement_y = s.displacement_y) ∧
        (i < c →
          FirstChunkFix (rows.map fun row => row.gps_z) (rows.map fun row => row.fix) c →
          b.displacement_z = s.displacement_z)) ∧
      (process_fusion_batch_internal (some rows) save_ok intermediate_ok Q R c
        save_intermediate).filter_y = some (sy (rows.length - 1)) ∧
      (process_fusion_batch_internal (some rows) save_ok intermediate_ok Q R c
        save_intermediate).filter_z = some (sz (rows.length - 1)) ∧
      (process_fusion_internal (some rows) save_ok Q R).filter_y
        = some (ty (rows.length - 1)) ∧
      (process_fusion_internal (some rows) save_ok Q R).filter_z
        = some (tz (rows.length - 1)) := by
  have hn1 : ¬ rows.length < 20 := by omega
  have hc1 : ¬ c < 20 := by omega
  constructor
  · cases save_ok <;>
      simp [process_fusion_batch_internal, process_fusion_internal, hn1, hc1, save_csv]
  -- the states of the batched run
  obtain ⟨sy, hy0, hys⟩ := exists_sequence
    ((KalmanFilter.KalmanFilter (KalmanParams.KalmanParams Q R)).reset
      (initScan (rows.map fun row => row.gps_y) (rows.map fun row => row.fix) 0
        (min c rows.length) ((rows.map fun row => row.gps_y).getD 0 Dbl.nan)))
    (fun i prev => if (i + 1) % c = 0 then prev
      else prev.stepRow (rows.map fun row => row.gps_y) (rows.map fun row => row.acc_y)
        (rows.map fun row => row.fix) (i + 1))
  obtain ⟨sz, hz0, hzs⟩ := exists_sequence
    ((KalmanFilter.KalmanFilter (KalmanParams.KalmanParams Q R)).reset
      (initScan (rows.map fun row => row.gps_z) (rows.map fun row => row.fix) 0
        (min c rows.length) ((rows.map fun row => row.gps_z).getD 0 Dbl.nan)))
    (fun i prev => if (i + 1) % c = 0 then prev
      else prev.stepRow (rows.map fun row => row.gps_z) (rows.map fun row => row.acc_z)
        (rows.map fun row => row.fix) (i + 1))
  have hry : ∀ i, 1 ≤ i → i < rows.length →
      sy i = if i % c = 0 then sy (i - 1)
        else (sy (i - 1)).stepRow (rows.map fun row => row.gps_y)
          (rows.map fun row => row.acc_y) (rows.map fun row => row.fix) i := by
    intro i h1 _
    obtain ⟨j, rfl⟩ : ∃ j, i = j + 1 := ⟨i - 1, by omega⟩
    rw [hys j, Nat.add_sub_cancel]
  have hrz : ∀ i, 1 ≤ i → i < rows.length →
      sz i = if i % c = 0 then sz (i - 1)
        else (sz (i - 1)).stepRow (rows.map fun row => row.gps_z)
          (rows.map fun row => row.acc_z) (rows.map fun row => row.fix) i := by
    intro i h1 _
    obtain ⟨j, rfl⟩ : ∃ j, i = j + 1 := ⟨i - 1, by omega⟩
    rw [hzs j, Nat.add_sub_cancel]
  -- the batched run
  obtain ⟨e1, _, _⟩ := batched_run_eq rows true intermediate_ok Q R c save_intermediate hn hc
  obtain ⟨f1, f2⟩ := batched_run_filters rows save_ok intermediate_ok Q R c save_intermediate
    hn hc
  obtain ⟨b1, b2, b3⟩ := batch_count_regular rows.length c (by omega) hov
  have hpos : 0 < (rows.length + c - 1) / c := Nat.div_pos (by omega) (by omega)
  obtain ⟨nb, hnb⟩ : ∃ nb, (rows.length + c - 1) / c = nb + 1 :=
    ⟨_, (Nat.succ_pred_eq_of_pos hpos).symm⟩
  rw [b1, hnb] at e1 f1 f2
  rw [hnb] at b2 b3
  obtain ⟨l1, l2, l3, l4⟩ := batchLoop_states rows c save_intermediate intermediate_ok
    (KalmanFilter.KalmanFilter (KalmanParams.KalmanParams Q R))
    (KalmanFilter.KalmanFilter (KalmanParams.KalmanParams Q R)) sy sz (by omega) hov hy0 hz0
    hry hrz nb b2
  rw [Nat.min_eq_right b3] at l1 l2 l3 l4
  -- the single-pass run
  obtain ⟨g1, g2, g3⟩ := single_pass_states rows Q R save_ok hn
  obtain ⟨py1, py2⟩ := process_states (KalmanFilter.KalmanFilter (KalmanParams.KalmanParams Q R))
    (rows.map fun row => row.gps_y) (rows.map fun row => row.acc_y)
    (rows.map fun row => row.fix) (by simp) (by simp) (by simp; omega)
  obtain ⟨pz1, pz2⟩ := process_states (KalmanFilter.KalmanFilter (KalmanParams.KalmanParams Q R))
    (rows.map fun row => row.gps_z) (rows.map fun row => row.acc_z)
    (rows.map fun row => row.fix) (by simp) (by simp) (by simp; omega)
  simp only [List.length_map] at py1 py2 pz1 pz2
  obtain ⟨ty, hty⟩ : ∃ t : Nat → KalmanFilter, ∀ i,
      t i = ((KalmanFilter.KalmanFilter (KalmanParams.KalmanParams Q R)).reset
        (initScan (rows.map fun row => row.gps_y) (rows.map fun row => row.fix) 0 rows.length
          ((rows.map fun row => row.gps_y).getD 0 Dbl.nan))).stateAfterRow
        (rows.map fun row => row.gps_y) (rows.map fun row => row.acc_y)
        (rows.map fun row => row.fix) i := ⟨_, fun _ => rfl⟩
  obtain ⟨tz, htz⟩ : ∃ t : Nat → KalmanFilter, ∀ i,
      t i = ((KalmanFilter.KalmanFilter (KalmanParams.KalmanParams Q R)).reset
        (initScan (rows.map fun row => row.gps_z) (rows.map fun row => row.fix) 0 rows.length
          ((rows.map fun row => row.gps_z).getD 0 Dbl.nan))).stateAfterRow
        (rows.map fun row => row.gps_z) (rows.map fun row => row.acc_z)
        (rows.map fun row => row.fix) i := ⟨_, fun _ => rfl⟩
  have hty0 := hty 0
  have htz0 := htz 0
  rw [stateAfterRow_zero] at hty0 htz0
  have htys : ∀ i, 1 ≤ i → i < rows.length →
      ty i = (ty (i - 1)).stepRow (rows.map fun row => row.gps_y)
        (rows.map fun row => row.acc_y) (rows.map fun row => row.fix) i := by
    intro i h1 _
    obtain ⟨j, rfl⟩ : ∃ j, i = j + 1 := ⟨i - 1, by omega⟩
    rw [hty (j + 1), stateAfterRow_succ, Nat.add_sub_cancel, Nat.add_comm 1 j, hty j]
  have htzs : ∀ i, 1 ≤ i → i < rows.length →
      tz i = (tz (i - 1)).stepRow (rows.map fun row => row.gps_z)
        (rows.map fun row => row.acc_z) (rows.map fun row => row.fix) i := by
    intro i h1 _
    obtain ⟨j, rfl⟩ : ∃ j, i = j + 1 := ⟨i - 1, by omega⟩
    rw [htz (j + 1), stateAfterRow_succ, Nat.add_sub_cancel, Nat.add_comm 1 j, htz j]
  refine ⟨_, _, sy, sz, ty, tz, e1, g1, l1, makeOutput_length _ _ _ _, hty0, htz0,
    fun i h1 h2 => ⟨htys i h1 h2, htzs i h1 h2⟩,
    hy0, hz0, fun i h1 h2 => ⟨hry i h1 h2, hrz i h1 h2⟩, ?_, ?_, ?_, ?_, ?_⟩
  · intro i hi
    refine ⟨_, _, l2 i hi, makeOutput_getElem? _ i _ _ _ hi, rfl, rfl, rfl,
      by rw [hty i]; exact py1 i hi, by rw [htz i]; exact pz1 i hi, ?_, ?_⟩
    · intro hic hfix
      show (sy i).state_.position = _
      rw [py1 i hi, ← hty i]
      have h0 : sy 0 = ty 0 := by
        have := initScan_first_chunk (rows.map fun row => row.gps_y)
          (rows.map fun row => row.fix) c ((rows.map fun row => row.gps_y).getD 0 Dbl.nan) hfix
        rw [List.length_map] at this
        rw [hy0, this, hty0]
      rw [first_chunk_states _ _ _ sy ty c rows.length h0 hry htys i hic hi]
    · intro hic hfix
      show (sz i).state_.position = _
      rw [pz1 i hi, ← htz i]
      have h0 : sz 0 = tz 0 := by
        have := initScan_first_chunk (rows.map fun row => row.gps_z)
          (rows.map fun row => row.fix) c ((rows.map fun row => row.gps_z).getD 0 Dbl.nan) hfix
        rw [List.length_map] at this
        rw [hz0, this, htz0]
      rw [first_chunk_states _ _ _ sz tz c rows.length h0 hrz htzs i hic hi]
  · rw [f1, l3]
  · rw [f2, l4]
  · rw [g2, py2, hty]
  · rw [g3, pz2, htz]

/-- Witness for C1 as amended on 21 rows without a fix, chunk size 20. -/
theorem batched_continuation_row_by_row_witness :
    20 ≤ rowsPush.length ∧ 20 ≤ 20 ∧ rowsPush.length + 20 - 1 < SIZE_T_MOD ∧
    ∃ ob : List OutputData,
      (process_fusion_batch_internal (some rowsPush) true (fun _ => true) (Dbl.fin 0.1)
        (Dbl.fin 0.01) 20 true).output_file = some ob ∧
      ob.length = rowsPush.length :=
  ⟨by decide, by decide, by decide,
    let ⟨ob, _, _, _, _, _, h1, _, h3, _⟩ :=
      (batched_continuation_row_by_row rowsPush (Dbl.fin 0.1) (Dbl.fin 0.01) 20 true
        (fun _ => true) true (by decide) (by decide) (by decide)).2
    ⟨ob, h1, h3⟩⟩

end fusion
